import Mathlib

/-!
# doltgresql: the wire-protocol session, the type collection and the message `Sync`

A shallow embedding of `Listener.HandleConnection` of `server/listener.go` and the methods
it calls (`sendClientStartupMessages`, `execute`, `describe`, `handledPSQLCommands`,
`endOfMessages`, `sendError`, `convertQuery`, `comQuery`), of the methods of
`TypeCollection` in `core/typecollection/typecollection.go`, and of `Sync` in
`postgres/messages/sync.go`.

* The client connection is a value `Conn`: the frames written so far, and the outcome of
  every future `connection.Send` (so that send failures are part of the model).
* The engine behind `l.cfg.Handler` is a state `σ` together with, for every call, a
  `HandlerRun`: the callbacks the handler makes, each continued on the callback's answer,
  and its final error and state.
* What the client sends is a script of receive events, one per `ReceiveIntoAny` / `Receive`.
* A Go `panic` is an explicit outcome; the deferred block of `HandleConnection` is run on it.
* Output to stdout (`fmt.Println`) is not modelled.
* A type collection is a value, and each of its methods returns the collection it leaves;
  its Go maps are lists of entries, and its mutex is not modelled.
-/

namespace server

/-! ## Wire messages -/

namespace messages

/-- Modelled from the spec: the transaction indicator of `ReadyForQuery` (glossary: one
byte in I, T, E); its declaration is not among the sources. -/
inductive ReadyForQueryTransactionIndicator where
  | Idle
  | TransactionBlock
  | FailedTransactionBlock
  deriving DecidableEq, Repr

/-- Modelled from the spec: the severities `listener.go` uses for `ErrorResponse`; the
declaration is not among the sources. -/
inductive ErrorResponseSeverity where
  | Error
  | Fatal
  deriving DecidableEq, Repr

end messages

open messages

/-- Modelled from the spec: the message structs of the package `messages` are not among
the sources (only `Sync` is). These are the frames the server writes with
`connection.Send`, named as the Go structs, with the fields `listener.go` fills in;
`Routine` is `Optional.Routine` (empty when not set). -/
inductive BackendMessage where
  | SSLResponse (SupportsSSL : Bool)
  | GSSENCResponse (SupportsGSSAPI : Bool)
  | AuthenticationOk
  | ParameterStatus (Name Value : String)
  | BackendKeyData (ProcessID SecretKey : Int)
  | ReadyForQuery (Indicator : ReadyForQueryTransactionIndicator)
  | ErrorResponse (Severity : ErrorResponseSeverity) (SqlStateCode Message Routine : String)
  | CommandComplete (Query : String) (Rows : Int)
  | ParseComplete
  | BindComplete
  | ParameterDescription (ObjectIDs : List Int)
  | RowDescription (Fields : List String)
  | DataRow (Values : List String)
  deriving DecidableEq, Repr

/-- Modelled from the spec: the frames `ReceiveIntoAny` can hand to the initial message
loop (their structs are not among the sources). `Other` stands for a message of any other
type (the `default` arm of the type switch). -/
inductive InitialMessage where
  | StartupMessage (Parameters : List (String × String))
  | SSLRequest
  | GSSENCRequest
  | Other
  deriving DecidableEq, Repr

/-- Modelled from the spec: the frames `Receive` can hand to the message loop (their
structs, but for `Sync`, are not among the sources), with the fields `listener.go` reads
and, unread by it, the row limit of `Execute` and the parameters of `Parse` and `Bind`.
`Other Name` is a decoded message of any type the loop has no arm for; `Name` is its
`DefaultMessage().Name`. -/
inductive Message where
  | Terminate
  | Execute (Portal : String) (RowMax : Int)
  | Query (String : String)
  | Parse (Name Query : String) (ParameterObjectIDs : List Int)
  | Describe (IsPrepared : Bool) (Target : String)
  | Sync
  | Bind (DestinationPortal SourcePreparedStatement : String) (ParameterValues : List String)
  | Other (Name : String)
  deriving DecidableEq, Repr

/-- One return of `connection.ReceiveIntoAny` / `connection.Receive`. -/
inductive Received (α : Type) where
  | eof
  | error (err : String)
  | messages (ms : List α)
  deriving Repr

/-! ## Engine-side values -/

namespace sqlparser

/-- The engine's parsed statement, as far as the listener looks at it: it only asks whether
the statement is a `*sqlparser.Deallocate`, and reads its `Name`. -/
inductive Statement where
  | Deallocate (Name : String)
  | Other (node : Nat)
  deriving DecidableEq, Repr

end sqlparser

/-- Modelled from the spec: the struct `ConvertedQuery`, whose declaration is not among the
sources: the SQL text and the optional parsed statement, as `listener.go` uses them. -/
structure ConvertedQuery where
  AST : Option sqlparser.Statement
  String : String
  deriving DecidableEq, Repr

/-- The struct `sqltypes.Result`, with the fields the listener reads. Field metadata and
values are kept as strings. -/
structure Result where
  Fields : List String
  Rows : List (List String)
  RowsAffected : Nat
  deriving DecidableEq, Repr

/-- The struct `mysql_db.MysqlConnectionUser`. -/
structure MysqlConnectionUser where
  User : String
  Host : String
  deriving DecidableEq, Repr

/-- The struct `mysql.Conn`, with the fields the listener sets. -/
structure MysqlConn where
  ConnectionID : Nat
  User : String
  UserData : Option MysqlConnectionUser
  deriving DecidableEq, Repr

/-- Go's conversion to `int32`: wrap-around into the range -2^31 .. 2^31 - 1. -/
def int32 (n : Int) : Int := (n + 2147483648) % 4294967296 - 2147483648

/-- Go's conversion to `uint32`. -/
def uint32 (n : Nat) : Nat := n % 4294967296

namespace strings

/-- Go's `strings.HasPrefix`. -/
def HasPrefix (s pre : String) : Bool := pre.data.isPrefixOf s.data

/-- Go's `strings.HasSuffix`. -/
def HasSuffix (s suffix : String) : Bool := suffix.data.isSuffixOf s.data

end strings

/-! ## The connection -/

/-- The client side of the connection as the server sees it.
`sent` are the frames written successfully, oldest first; `sendErrors n` is the error of
the `n`-th next `Send` (`none`: it succeeds). `Network` and `Host` describe
`conn.RemoteAddr()`: its `Network()` and the host `net.SplitHostPort` extracts from its
`String()`. `tls` records that the stream was wrapped by `tls.Server`, `closed` that
`conn.Close()` was called. -/
structure Conn where
  sent : List BackendMessage
  sendErrors : Nat → Option String
  Network : String
  Host : String
  tls : Bool
  closed : Bool

namespace connection

/-- The function `connection.Send`: writes one frame, or fails without writing. -/
def Send (conn : Conn) (message : BackendMessage) : Option String × Conn :=
  match conn.sendErrors 0 with
  | none =>
    (none, { conn with sent := conn.sent ++ [message],
                       sendErrors := fun n => conn.sendErrors (n + 1) })
  | some err => (some err, { conn with sendErrors := fun n => conn.sendErrors (n + 1) })

end connection

/-! ## The handler -/

/-- What one call of `Handler.ComQuery` / `Handler.ComParsedQuery` does, seen from the
listener: it returns (`ret`) an error or nil, leaving the engine in state `s`, or it calls
the row callback with a result (nil or not) and the `more` flag and goes on according to
what the callback returned. A handler call makes finitely many callbacks and returns; a
handler that panics by itself or never returns is outside the model. -/
inductive HandlerRun (σ : Type) where
  | ret (err : Option String) (s : σ)
  | callback (res : Option Result) (more : Bool) (k : Option String → HandlerRun σ)

/-- What a row callback does on one invocation: it returns an error or nil, or panics. The
callback's captured variables are the connection and a value of type `γ`. -/
inductive CallbackResult (γ : Type) where
  | returned (err : Option String) (conn : Conn) (g : γ)
  | panicked (v : String) (conn : Conn) (g : γ)

/-- A row callback `func(res *sqltypes.Result, more bool) error` closing over the
connection and a `γ`. -/
abbrev Callback (γ : Type) := Conn → γ → Option Result → Bool → CallbackResult γ

/-- How a handler call ends: it returns, or a panic of the callback unwinds through it. -/
inductive RunResult (σ γ : Type) where
  | returned (err : Option String) (s : σ) (conn : Conn) (g : γ)
  | panicked (v : String) (conn : Conn) (g : γ)

/-- Runs a handler call against a callback. -/
def HandlerRun.run {σ γ : Type} (cb : Callback γ) : HandlerRun σ → Conn → γ → RunResult σ γ
  | .ret err s, conn, g => .returned err s conn g
  | .callback res more k, conn, g =>
    match cb conn g res more with
    | .returned err conn1 g1 => HandlerRun.run cb (k err) conn1 g1
    | .panicked v conn1 g1 => .panicked v conn1 g1

/-- The calls the listener makes on `l.cfg.Handler`, for the call log. -/
inductive HandlerCall where
  | NewConnection
  | ConnectionClosed
  | ComQuery (query : String)
  | ComParsedQuery (query : String) (parsed : sqlparser.Statement)
  deriving DecidableEq, Repr

/-- The interface `mysql.Handler` as the listener consumes it, over an engine state `σ`. -/
structure Handler (σ : Type) where
  NewConnection : MysqlConn → σ → σ
  ConnectionClosed : MysqlConn → σ → σ
  ComQuery : MysqlConn → σ → String → HandlerRun σ
  ComParsedQuery : MysqlConn → σ → String → sqlparser.Statement → HandlerRun σ

/-- The listener with everything `listener.go` takes from outside the file.
`Handler` is `l.cfg.Handler`; `processID` and `certificate` are the package variables
(`certificate` is the chain `certificate.Certificate`); `Parse`, `ASTString` and `Convert`
are `parser.Parse`, `Statement.AST.String()` and `ast.Convert` over the parser's statement
type `τ`; `ToLower` is `strings.ToLower`.
`IsIUD` is `CommandComplete.IsIUD()` and `ImplicitlyCommits` the function of that name;
both are declared outside the sources at hand. -/
structure Listener (τ σ : Type) where
  Handler : Handler σ
  processID : Int
  certificate : List String
  Parse : String → Except String (List τ)
  ASTString : τ → String
  Convert : τ → Except String (Option sqlparser.Statement)
  ToLower : String → String
  IsIUD : String → Bool
  ImplicitlyCommits : String → Bool

/-! ## Session state -/

/-- A table `map[string]ConvertedQuery`. -/
abbrev StatementTable := String → Option ConvertedQuery

/-- Reading a Go map: the zero `ConvertedQuery` when the key is absent. -/
def StatementTable.index (t : StatementTable) (key : String) : ConvertedQuery :=
  (t key).getD { AST := none, String := "" }

/-- Assignment `t[key] = q`. -/
def StatementTable.set (t : StatementTable) (key : String) (q : ConvertedQuery) :
    StatementTable :=
  fun k => if k = key then some q else t k

/-- The builtin `delete(t, key)`. -/
def StatementTable.delete (t : StatementTable) (key : String) : StatementTable :=
  fun k => if k = key then none else t k

/-- The variables of `HandleConnection` and the world it acts on: the connection, the
`mysql.Conn` handed to the handler, the engine state, the log of handler calls, and the two
tables. -/
structure State (σ : Type) where
  conn : Conn
  mysqlConn : MysqlConn
  engine : σ
  calls : List HandlerCall
  preparedStatements : StatementTable
  portals : StatementTable

/-- How a function that returns `error` ends: with its result, or by a panic. -/
inductive Ret where
  | returned (err : Option String)
  | panicked (v : String)
  deriving DecidableEq, Repr

/-- How a handler call ends for the caller: the handler's error and the callback's
captured value, or the panic value. -/
inductive CallResult (γ : Type) where
  | returned (err : Option String) (g : γ)
  | panicked (v : String)

namespace Listener

variable {τ σ γ : Type}

/-- The call `l.cfg.Handler.ComQuery(mysqlConn, query, callback)`. When a panic of the
callback unwinds through the handler the engine state is left as it was before the call. -/
def ComQuery (l : Listener τ σ) (st : State σ) (query : String) (callback : Callback γ)
    (g : γ) : CallResult γ × State σ :=
  match (l.Handler.ComQuery st.mysqlConn st.engine query).run callback st.conn g with
  | .returned err s conn g1 =>
    (.returned err g1,
      { st with conn := conn, engine := s, calls := st.calls ++ [.ComQuery query] })
  | .panicked v conn _ =>
    (.panicked v, { st with conn := conn, calls := st.calls ++ [.ComQuery query] })

/-- The call `l.cfg.Handler.ComParsedQuery(mysqlConn, query, parsed, callback)`. -/
def ComParsedQuery (l : Listener τ σ) (st : State σ) (query : String)
    (parsed : sqlparser.Statement) (callback : Callback γ) (g : γ) :
    CallResult γ × State σ :=
  match (l.Handler.ComParsedQuery st.mysqlConn st.engine query parsed).run callback st.conn g with
  | .returned err s conn g1 =>
    (.returned err g1,
      { st with conn := conn, engine := s, calls := st.calls ++ [.ComParsedQuery query parsed] })
  | .panicked v conn _ =>
    (.panicked v, { st with conn := conn, calls := st.calls ++ [.ComParsedQuery query parsed] })

/-- The method `comQuery`: `ComQuery` when the query has no parsed statement, else
`ComParsedQuery`. -/
def comQuery (l : Listener τ σ) (st : State σ) (query : ConvertedQuery)
    (callback : Callback γ) (g : γ) : CallResult γ × State σ :=
  match query.AST with
  | none => l.ComQuery st query.String callback g
  | some parsed => l.ComParsedQuery st query.String parsed callback g

/-- The callback `func(*sqltypes.Result, bool) error { return nil }`. -/
def nilCallback : Callback Unit := fun conn g _ _ => .returned none conn g

/-- The loop `for _, row := range res.Rows` of the callback of `execute`. -/
def sendDataRows : Conn → List (List String) → Option String × Conn
  | conn, [] => (none, conn)
  | conn, row :: rows =>
    match connection.Send conn (.DataRow row) with
    | (some err, conn1) => (some err, conn1)
    | (none, conn1) => sendDataRows conn1 rows

/-- The panic value of reading a field through a nil pointer. -/
def nilDereference : String := "runtime error: invalid memory address or nil pointer dereference"

/-- The callback of `execute`; the captured `Int` is `commandComplete.Rows`, and `query` is
`commandComplete.Query`. -/
def executeCallback (l : Listener τ σ) (query : String) : Callback Int :=
  fun conn rows res _ =>
    match res with
    | none => .panicked nilDereference conn rows
    | some res =>
      match connection.Send conn (.RowDescription res.Fields) with
      | (some err, conn1) => .returned (some err) conn1 rows
      | (none, conn1) =>
        match sendDataRows conn1 res.Rows with
        | (some err, conn2) => .returned (some err) conn2 rows
        | (none, conn2) =>
          if l.IsIUD query then .returned none conn2 (int32 res.RowsAffected)
          else .returned none conn2 (int32 (rows + int32 res.Rows.length))

/-- The method `execute`. -/
def execute (l : Listener τ σ) (st : State σ) (query : ConvertedQuery) : Ret × State σ :=
  match l.comQuery st query (l.executeCallback query.String) 0 with
  | (.panicked v, st1) => (.panicked v, st1)
  | (.returned (some err) _, st1) =>
    if strings.HasPrefix err "syntax error at position" then
      (.returned (some "This statement is not yet supported"), st1)
    else (.returned (some err), st1)
  | (.returned none rows, st1) =>
    match connection.Send st1.conn (.CommandComplete query.String rows) with
    | (some err, conn1) => (.returned (some err), { st1 with conn := conn1 })
    | (none, conn1) => (.returned none, { st1 with conn := conn1 })

/-- The callback of `describe`. -/
def describeCallback : Callback Unit :=
  fun conn g res _ =>
    match res with
    | none => .returned none conn g
    | some res =>
      match connection.Send conn (.RowDescription res.Fields) with
      | (some err, conn1) => .returned (some err) conn1 g
      | (none, conn1) => .returned none conn1 g

/-- The method `describe`. The deferred `ROLLBACK;` runs once `START TRANSACTION;` has
succeeded, whichever way the rest ends. The `message` argument is not read. -/
def describe (l : Listener τ σ) (st : State σ) (statement : ConvertedQuery) : Ret × State σ :=
  match connection.Send st.conn (.ParameterDescription []) with
  | (some err, conn1) => (.returned (some err), { st with conn := conn1 })
  | (none, conn1) =>
    let st1 := { st with conn := conn1 }
    if l.ImplicitlyCommits statement.String then
      (.returned (some "We do not yet support the Describe message for the given statement"), st1)
    else
      match l.ComQuery st1 "START TRANSACTION;" nilCallback () with
      | (.panicked v, st2) => (.panicked v, st2)
      | (.returned (some err) _, st2) => (.returned (some err), st2)
      | (.returned none _, st2) =>
        match l.comQuery st2 statement describeCallback () with
        | (.panicked v, st3) => (.panicked v, (l.ComQuery st3 "ROLLBACK;" nilCallback ()).2)
        | (.returned err _, st3) => (.returned err, (l.ComQuery st3 "ROLLBACK;" nilCallback ()).2)

/-- How a function without result ends. -/
inductive Completion where
  | normal
  | panicked (v : String)
  deriving DecidableEq, Repr

/-- The method `sendError`: panics with the send error when the frame cannot be sent. -/
def sendError (conn : Conn) (err : String) : Completion × Conn :=
  match connection.Send conn (.ErrorResponse .Error "XX000" err "") with
  | (some sendErr, conn1) => (.panicked sendErr, conn1)
  | (none, conn1) => (.normal, conn1)

/-- The method `endOfMessages`. -/
def endOfMessages (conn : Conn) (err : Option String) : Completion × Conn :=
  match (match err with
         | some e => sendError conn e
         | none => (Completion.normal, conn)) with
  | (.panicked v, conn1) => (.panicked v, conn1)
  | (.normal, conn1) =>
    match connection.Send conn1 (.ReadyForQuery .Idle) with
    | (some sendErr, conn2) => (.panicked sendErr, conn2)
    | (none, conn2) => (.normal, conn2)

/-- How `convertQuery` ends. -/
inductive Converted where
  | ok (query : ConvertedQuery)
  | error (err : String)
  | panicked (v : String)
  deriving DecidableEq, Repr

/-- The method `convertQuery`. Indexing `s[0]` in an empty slice panics. -/
def convertQuery (l : Listener τ σ) (query : String) : Converted :=
  match l.Parse query with
  | .error err => .error err
  | .ok s =>
    if s.length > 1 then .error "only a single statement at a time is currently supported"
    else
      match s with
      | [] => .panicked "runtime error: index out of range [0] with length 0"
      | s0 :: _ =>
        match l.Convert s0 with
        | .error err => .error err
        | .ok none => .ok { AST := none, String := l.ASTString s0 }
        | .ok (some vitessAST) => .ok { AST := some vitessAST, String := query }

/-! ## The meta-queries of `psql`

The literals of `handledPSQLCommands`, under names. -/

/-- The lowercased text `psql` sends for its `\l` command. -/
def psqlL : String :=
  "select d.datname as \"name\",\n       pg_catalog.pg_get_userbyid(d.datdba) as \"owner\",\n       pg_catalog.pg_encoding_to_char(d.encoding) as \"encoding\",\n       d.datcollate as \"collate\",\n       d.datctype as \"ctype\",\n       d.daticulocale as \"icu locale\",\n       case d.datlocprovider when 'c' then 'libc' when 'i' then 'icu' end as \"locale provider\",\n       pg_catalog.array_to_string(d.datacl, e'\\n') as \"access privileges\"\nfrom pg_catalog.pg_database d\norder by 1;"

/-- The query executed in place of the `\l` text. -/
def psqlLReplacement : String :=
  "SELECT SCHEMA_NAME AS 'Name', 'postgres' AS 'Owner', 'UTF8' AS 'Encoding', 'English_United States.1252' AS 'Collate', 'English_United States.1252' AS 'Ctype', '' AS 'ICU Locale', 'libc' AS 'Locale Provider', '' AS 'Access privileges' FROM INFORMATION_SCHEMA.SCHEMATA ORDER BY 1;"

/-- The lowercased text `psql` sends for its `\dt` command. -/
def psqlDt : String :=
  "select n.nspname as \"schema\",\n  c.relname as \"name\",\n  case c.relkind when 'r' then 'table' when 'v' then 'view' when 'm' then 'materialized view' when 'i' then 'index' when 's' then 'sequence' when 't' then 'toast table' when 'f' then 'foreign table' when 'p' then 'partitioned table' when 'i' then 'partitioned index' end as \"type\",\n  pg_catalog.pg_get_userbyid(c.relowner) as \"owner\"\nfrom pg_catalog.pg_class c\n     left join pg_catalog.pg_namespace n on n.oid = c.relnamespace\n     left join pg_catalog.pg_am am on am.oid = c.relam\nwhere c.relkind in ('r','p','')\n      and n.nspname <> 'pg_catalog'\n      and n.nspname !~ '^pg_toast'\n      and n.nspname <> 'information_schema'\n  and pg_catalog.pg_table_is_visible(c.oid)\norder by 1,2;"

/-- The query executed in place of the `\dt` text. -/
def psqlDtReplacement : String :=
  "SELECT 'public' AS 'Schema', TABLE_NAME AS 'Name', 'table' AS 'Type', 'postgres' AS 'Owner' FROM INFORMATION_SCHEMA.TABLES WHERE TABLE_SCHEMA = database() AND TABLE_TYPE = 'BASE TABLE' ORDER BY 2;"

/-- The lowercased text `psql` sends for its `\d` command. -/
def psqlD : String :=
  "select n.nspname as \"schema\",\n  c.relname as \"name\",\n  case c.relkind when 'r' then 'table' when 'v' then 'view' when 'm' then 'materialized view' when 'i' then 'index' when 's' then 'sequence' when 't' then 'toast table' when 'f' then 'foreign table' when 'p' then 'partitioned table' when 'i' then 'partitioned index' end as \"type\",\n  pg_catalog.pg_get_userbyid(c.relowner) as \"owner\"\nfrom pg_catalog.pg_class c\n     left join pg_catalog.pg_namespace n on n.oid = c.relnamespace\n     left join pg_catalog.pg_am am on am.oid = c.relam\nwhere c.relkind in ('r','p','v','m','s','f','')\n      and n.nspname <> 'pg_catalog'\n      and n.nspname !~ '^pg_toast'\n      and n.nspname <> 'information_schema'\n  and pg_catalog.pg_table_is_visible(c.oid)\norder by 1,2;"

/-- The query executed in place of the `\d` text. -/
def psqlDReplacement : String :=
  "SELECT 'public' AS 'Schema', TABLE_NAME AS 'Name', 'table' AS 'Type', 'postgres' AS 'Owner' FROM INFORMATION_SCHEMA.TABLES WHERE TABLE_SCHEMA = database() AND TABLE_TYPE = 'BASE TABLE' ORDER BY 2;"

/-- The lowercased text `psql` sends for its `\dn` command. -/
def psqlDn : String :=
  "select n.nspname as \"name\",\n  pg_catalog.pg_get_userbyid(n.nspowner) as \"owner\"\nfrom pg_catalog.pg_namespace n\nwhere n.nspname !~ '^pg_' and n.nspname <> 'information_schema'\norder by 1;"

/-- The query executed in place of the `\dn` text. -/
def psqlDnReplacement : String :=
  "SELECT 'public' AS 'Name', 'pg_database_owner' AS 'Owner';"

/-- The lowercased text `psql` sends for its `\df` command. -/
def psqlDf : String :=
  "select n.nspname as \"schema\",\n  p.proname as \"name\",\n  pg_catalog.pg_get_function_result(p.oid) as \"result data type\",\n  pg_catalog.pg_get_function_arguments(p.oid) as \"argument data types\",\n case p.prokind\n  when 'a' then 'agg'\n  when 'w' then 'window'\n  when 'p' then 'proc'\n  else 'func'\n end as \"type\"\nfrom pg_catalog.pg_proc p\n     left join pg_catalog.pg_namespace n on n.oid = p.pronamespace\nwhere pg_catalog.pg_function_is_visible(p.oid)\n      and n.nspname <> 'pg_catalog'\n      and n.nspname <> 'information_schema'\norder by 1, 2, 4;"

/-- The query executed in place of the `\df` text. -/
def psqlDfReplacement : String :=
  "SELECT '' AS 'Schema', '' AS 'Name', '' AS 'Result data type', '' AS 'Argument data types', '' AS 'Type' FROM dual LIMIT 0;"

/-- The lowercased text `psql` sends for its `\dv` command. -/
def psqlDv : String :=
  "select n.nspname as \"schema\",\n  c.relname as \"name\",\n  case c.relkind when 'r' then 'table' when 'v' then 'view' when 'm' then 'materialized view' when 'i' then 'index' when 's' then 'sequence' when 't' then 'toast table' when 'f' then 'foreign table' when 'p' then 'partitioned table' when 'i' then 'partitioned index' end as \"type\",\n  pg_catalog.pg_get_userbyid(c.relowner) as \"owner\"\nfrom pg_catalog.pg_class c\n     left join pg_catalog.pg_namespace n on n.oid = c.relnamespace\nwhere c.relkind in ('v','')\n      and n.nspname <> 'pg_catalog'\n      and n.nspname !~ '^pg_toast'\n      and n.nspname <> 'information_schema'\n  and pg_catalog.pg_table_is_visible(c.oid)\norder by 1,2;"

/-- The query executed in place of the `\dv` text. -/
def psqlDvReplacement : String :=
  "SELECT 'public' AS 'Schema', TABLE_NAME AS 'Name', 'view' AS 'Type', 'postgres' AS 'Owner' FROM INFORMATION_SCHEMA.TABLES WHERE TABLE_SCHEMA = database() AND TABLE_TYPE = 'VIEW' ORDER BY 2;"

/-- The lowercased text `psql` sends for its `\du` command. -/
def psqlDu : String :=
  "select r.rolname, r.rolsuper, r.rolinherit,\n  r.rolcreaterole, r.rolcreatedb, r.rolcanlogin,\n  r.rolconnlimit, r.rolvaliduntil,\n  array(select b.rolname\n        from pg_catalog.pg_auth_members m\n        join pg_catalog.pg_roles b on (m.roleid = b.oid)\n        where m.member = r.oid) as memberof\n, r.rolreplication\n, r.rolbypassrls\nfrom pg_catalog.pg_roles r\nwhere r.rolname !~ '^pg_'\norder by 1;"

/-- The query executed in place of the `\du` text. -/
def psqlDuReplacement : String :=
  "SELECT '' FROM dual LIMIT 0;"

/-- How the lowercased text `psql` sends for `\d table_name` begins. -/
def psqlDTableStart : String :=
  "select c.oid,\n  n.nspname,\n  c.relname\nfrom pg_catalog.pg_class c\n     left join pg_catalog.pg_namespace n on n.oid = c.relnamespace\nwhere c.relname operator(pg_catalog.~) '^("

/-- How the lowercased text `psql` sends for `\d table_name` ends. -/
def psqlDTableEnd : String :=
  ")$' collate pg_catalog.default\n  and pg_catalog.pg_table_is_visible(c.oid)\norder by 2, 3;"

/-- The method `handledPSQLCommands`: whether the statement was handled, and the error (or
panic) of handling it. -/
def handledPSQLCommands (l : Listener τ σ) (st : State σ) (statement : String) :
    Bool × Ret × State σ :=
  let statement := l.ToLower statement
  if statement = psqlL then
    (true, l.execute st { AST := none, String := psqlLReplacement })
  else if statement = psqlDt then
    (true, l.execute st { AST := none, String := psqlDtReplacement })
  else if statement = psqlD then
    (true, l.execute st { AST := none, String := psqlDReplacement })
  else if strings.HasPrefix statement psqlDTableStart &&
      strings.HasSuffix statement psqlDTableEnd then
    (true, .returned (some "PSQL command not yet supported"), st)
  else if statement = psqlDn then
    (true, l.execute st { AST := none, String := psqlDnReplacement })
  else if statement = psqlDf then
    (true, l.execute st { AST := none, String := psqlDfReplacement })
  else if statement = psqlDv then
    (true, l.execute st { AST := none, String := psqlDvReplacement })
  else if statement = psqlDu then
    (true, l.execute st { AST := none, String := psqlDuReplacement })
  else (false, .returned none, st)

/-! ## The connection loop -/

/-- How the handling of one message leaves the loop `ReadMessages`: on to the next message,
`break ReadMessages`, `return` from `HandleConnection` with `returnErr`, or a panic. -/
inductive Flow where
  | next
  | brk
  | ret (returnErr : Option String)
  | panicked (v : String)
  deriving DecidableEq, Repr

/-- The statements `l.endOfMessages(conn, err); break ReadMessages`. -/
def endOfMessagesBreak (st : State σ) (err : Option String) : Flow × State σ :=
  match endOfMessages st.conn err with
  | (.panicked v, conn1) => (.panicked v, { st with conn := conn1 })
  | (.normal, conn1) => (.brk, { st with conn := conn1 })

/-- The statement `l.endOfMessages(conn, err)` at the end of a `case`, after which the loop
goes on to the next message. -/
def endOfMessagesNext (st : State σ) (err : Option String) : Flow × State σ :=
  match endOfMessages st.conn err with
  | (.panicked v, conn1) => (.panicked v, { st with conn := conn1 })
  | (.normal, conn1) => (.next, { st with conn := conn1 })

/-- The body of the loop `ReadMessages`: the type switch on one received message. -/
def handleMessage (l : Listener τ σ) (st : State σ) (message : Message) : Flow × State σ :=
  match message with
  | .Terminate => (.ret none, st)
  | .Execute Portal _ =>
    match l.execute st (st.portals.index Portal) with
    | (.panicked v, st1) => (.panicked v, st1)
    | (.returned (some err), st1) => endOfMessagesBreak st1 (some err)
    | (.returned none, st1) => (.next, st1)
  | .Query String =>
    match l.handledPSQLCommands st String with
    | (_, .panicked v, st1) => (.panicked v, st1)
    | (ok, .returned err, st1) =>
      if !ok && err.isNone then
        match l.convertQuery String with
        | .panicked v => (.panicked v, st1)
        | .error err => endOfMessagesBreak st1 (some err)
        | .ok query =>
          match query.AST with
          | some (.Deallocate Name) =>
            match st1.preparedStatements Name with
            | none => (.brk, st1)
            | some _ =>
              let st2 := { st1 with preparedStatements := st1.preparedStatements.delete Name }
              match connection.Send st2.conn (.CommandComplete query.String 0) with
              | (some err, conn1) => (.ret (some err), { st2 with conn := conn1 })
              | (none, conn1) => endOfMessagesNext { st2 with conn := conn1 } none
          | _ =>
            match l.execute st1 query with
            | (.panicked v, st2) => (.panicked v, st2)
            | (.returned err, st2) => endOfMessagesNext st2 err
      else endOfMessagesNext st1 err
  | .Parse Name Query _ =>
    match l.convertQuery Query with
    | .panicked v => (.panicked v, st)
    | .error err => endOfMessagesBreak st (some err)
    | .ok query =>
      let st1 := { st with preparedStatements := st.preparedStatements.set Name query }
      match connection.Send st1.conn .ParseComplete with
      | (some err, conn1) => endOfMessagesBreak { st1 with conn := conn1 } (some err)
      | (none, conn1) => (.next, { st1 with conn := conn1 })
  | .Describe IsPrepared Target =>
    let query :=
      if IsPrepared then st.preparedStatements.index Target else st.portals.index Target
    match l.describe st query with
    | (.panicked v, st1) => (.panicked v, st1)
    | (.returned (some err), st1) => endOfMessagesBreak st1 (some err)
    | (.returned none, st1) => (.next, st1)
  | .Sync => endOfMessagesNext st none
  | .Bind DestinationPortal SourcePreparedStatement _ =>
    let bound := st.preparedStatements.index SourcePreparedStatement
    let st1 := { st with portals := st.portals.set DestinationPortal bound }
    match connection.Send st1.conn .BindComplete with
    | (some err, conn1) => endOfMessagesBreak { st1 with conn := conn1 } (some err)
    | (none, conn1) => (.next, { st1 with conn := conn1 })
  | .Other Name => endOfMessagesBreak st (some ("Unexpected message \"" ++ Name ++ "\""))

/-- The loop `ReadMessages` over the messages of one received batch. -/
def readMessages (l : Listener τ σ) : State σ → List Message → Flow × State σ
  | st, [] => (.next, st)
  | st, message :: rest =>
    match l.handleMessage st message with
    | (.next, st1) => readMessages l st1 rest
    | (flow, st1) => (flow, st1)

/-- How `HandleConnection` stands when the script of receive events is used up: it has
returned, it has panicked, or it is blocked in a receive. -/
inductive Exit where
  | returned (returnErr : Option String)
  | panicked (v : String)
  | waiting
  deriving DecidableEq, Repr

/-- The loop `for` of `HandleConnection` after startup: one iteration per received batch,
with a fresh portal table each. -/
def connectionLoop (l : Listener τ σ) : State σ → List (Received Message) → Exit × State σ
  | st, [] => (.waiting, st)
  | st, .eof :: _ => (.returned (some "EOF"), st)
  | st, .error err :: _ => (.returned (some err), st)
  | st, .messages receivedMessages :: rest =>
    if receivedMessages.length = 0 then
      (.returned (some "data received but contained no messages, terminating connection"), st)
    else
      match l.readMessages { st with portals := fun _ => none } receivedMessages with
      | (.ret returnErr, st1) => (.returned returnErr, st1)
      | (.panicked v, st1) => (.panicked v, st1)
      | (_, st1) => connectionLoop l st1 rest

/-- The method `sendClientStartupMessages`. -/
def sendClientStartupMessages (l : Listener τ σ) (st : State σ)
    (Parameters : List (String × String)) : Option String × State σ :=
  let mysqlConn : MysqlConn :=
    match Parameters.lookup "user" with
    | some user =>
      if user.length > 0 then
        let host :=
          if st.conn.Network = "unix" then "localhost"
          else if st.conn.Host.length = 0 then "localhost" else st.conn.Host
        { st.mysqlConn with User := user, UserData := some { User := user, Host := host } }
      else
        { st.mysqlConn with User := "doltgres",
                            UserData := some { User := "doltgres", Host := "localhost" } }
    | none =>
      { st.mysqlConn with User := "doltgres",
                          UserData := some { User := "doltgres", Host := "localhost" } }
  let st := { st with mysqlConn := mysqlConn }
  match connection.Send st.conn .AuthenticationOk with
  | (some err, conn1) => (some err, { st with conn := conn1 })
  | (none, conn1) =>
    match connection.Send conn1 (.ParameterStatus "server_version" "15.0") with
    | (some err, conn2) => (some err, { st with conn := conn2 })
    | (none, conn2) =>
      match connection.Send conn2 (.ParameterStatus "client_encoding" "UTF8") with
      | (some err, conn3) => (some err, { st with conn := conn3 })
      | (none, conn3) =>
        match connection.Send conn3 (.BackendKeyData l.processID 0) with
        | (some err, conn4) => (some err, { st with conn := conn4 })
        | (none, conn4) => (none, { st with conn := conn4 })

/-- How the loop `InitialMessageLoop` ends: with the startup message, or with the end of
`HandleConnection`. -/
inductive Initial where
  | startup (Parameters : List (String × String))
  | exit (e : Exit)
  deriving DecidableEq, Repr

/-- The loop `InitialMessageLoop`. -/
def initialMessageLoop (l : Listener τ σ) :
    State σ → List (Received InitialMessage) → Initial × State σ
  | st, [] => (.exit .waiting, st)
  | st, .eof :: _ => (.exit (.returned none), st)
  | st, .error err :: _ => (.exit (.returned (some err)), st)
  | st, .messages initialMessages :: rest =>
    match initialMessages with
    | [initialMessage] =>
      match initialMessage with
      | .StartupMessage Parameters => (.startup Parameters, st)
      | .SSLRequest =>
        let hasCertificate := decide (l.certificate.length > 0)
        match connection.Send st.conn (.SSLResponse hasCertificate) with
        | (some err, conn1) => (.exit (.returned (some err)), { st with conn := conn1 })
        | (none, conn1) =>
          if hasCertificate then
            initialMessageLoop l { st with conn := { conn1 with tls := true } } rest
          else initialMessageLoop l { st with conn := conn1 } rest
      | .GSSENCRequest =>
        match connection.Send st.conn (.GSSENCResponse false) with
        | (some err, conn1) => (.exit (.returned (some err)), { st with conn := conn1 })
        | (none, conn1) => initialMessageLoop l { st with conn := conn1 } rest
      | .Other =>
        (.exit (.returned (some "Unexpected initial message, terminating connection")), st)
    | _ =>
      (.exit (.returned
        (some "Expected a single message upon starting connection, terminating connection")), st)

/-- The rest of `HandleConnection` once the database has been selected: the first
`ReadyForQuery`, the empty prepared-statement table, and the connection loop. -/
def serve (l : Listener τ σ) (st : State σ) (input : List (Received Message)) :
    Exit × State σ :=
  match connection.Send st.conn (.ReadyForQuery .Idle) with
  | (some err, conn1) => (.returned (some err), { st with conn := conn1 })
  | (none, conn1) =>
    l.connectionLoop { st with conn := conn1, preparedStatements := fun _ => none } input

/-- The part of `HandleConnection` that follows the initial message loop. -/
def startup (l : Listener τ σ) (st : State σ) (Parameters : List (String × String))
    (input : List (Received Message)) : Exit × State σ :=
  match l.sendClientStartupMessages st Parameters with
  | (some err, st1) => (.returned (some err), st1)
  | (none, st1) =>
    let userDatabase : Exit × State σ :=
      l.serve (l.ComQuery st1 ("USE `" ++ st1.mysqlConn.User ++ "`;") nilCallback ()).2 input
    match Parameters.lookup "database" with
    | some db =>
      if db.length > 0 then
        match l.ComQuery st1 ("USE `" ++ db ++ "`;") nilCallback () with
        | (.panicked v, st2) => (.panicked v, st2)
        | (.returned (some err) _, st2) =>
          (.returned (some err),
            { st2 with conn := (connection.Send st2.conn (.ErrorResponse .Fatal "3D000"
                ("\"database \"" ++ db ++ "\" does not exist\"") "InitPostgres")).2 })
        | (.returned none _, st2) => l.serve st2 input
      else userDatabase
    | none => userDatabase

/-- The deferred function of `HandleConnection`: the handler is told that the connection
is closed, and the connection is closed. -/
def deferred (l : Listener τ σ) (st : State σ) : State σ :=
  { st with engine := l.Handler.ConnectionClosed st.mysqlConn st.engine,
            calls := st.calls ++ [.ConnectionClosed],
            conn := { st.conn with closed := true } }

/-- The method `HandleConnection` on a connection `conn`, an engine in state `engine`, the
value of `connectionIDCounter`, and what the client sends: `initial` are the returns of
`ReceiveIntoAny` (read up to the startup message), `input` the returns of `Receive`. -/
def HandleConnection (l : Listener τ σ) (conn : Conn) (engine : σ) (connectionIDCounter : Nat)
    (initial : List (Received InitialMessage)) (input : List (Received Message)) :
    Exit × State σ :=
  let mysqlConn : MysqlConn :=
    { ConnectionID := uint32 (connectionIDCounter + 1), User := "", UserData := none }
  let st : State σ :=
    { conn := conn, mysqlConn := mysqlConn,
      engine := l.Handler.NewConnection mysqlConn engine, calls := [.NewConnection],
      preparedStatements := fun _ => none, portals := fun _ => none }
  let body : Exit × State σ :=
    match l.initialMessageLoop st initial with
    | (.exit e, st1) => (e, st1)
    | (.startup Parameters, st1) => l.startup st1 Parameters input
  match body with
  | (.waiting, st1) => (.waiting, st1)
  | (e, st1) => (e, l.deferred st1)

end Listener

/-! ## Vocabulary of the statements -/

/-- The connection after the frames `frames` have been written to it. -/
def Conn.emit (conn : Conn) (frames : List BackendMessage) : Conn :=
  { conn with sent := conn.sent ++ frames }

/-- All sends on the connection succeed, from now on. -/
def Conn.Reliable (conn : Conn) : Prop := conn.sendErrors = fun _ => none

/-- The results a handler call hands to the row callback, in order, when every callback
returns nil. -/
def HandlerRun.delivered {σ : Type} : HandlerRun σ → List (Option Result)
  | .ret _ _ => []
  | .callback res _ k => res :: (k none).delivered

/-- The error a handler call returns and the engine state it leaves, when every callback
returns nil. -/
def HandlerRun.outcome {σ : Type} : HandlerRun σ → Option String × σ
  | .ret err s => (err, s)
  | .callback _ _ k => (k none).outcome

/-- Whether a frame is a `ReadyForQuery`. -/
def BackendMessage.isReadyForQuery : BackendMessage → Bool
  | .ReadyForQuery _ => true
  | _ => false

/-- Whether a frame is a `RowDescription`. -/
def BackendMessage.isRowDescription : BackendMessage → Bool
  | .RowDescription _ => true
  | _ => false

/-- Whether a frame is a `CommandComplete`. -/
def BackendMessage.isCommandComplete : BackendMessage → Bool
  | .CommandComplete _ _ => true
  | _ => false

/-- The frames the callback of `execute` writes for one result: its `RowDescription`, then
one `DataRow` per row. -/
def resultFrames (res : Result) : List BackendMessage :=
  .RowDescription res.Fields :: res.Rows.map .DataRow

/-- The call `comQuery` makes on the handler for a query, in a given session and engine
state. -/
def Listener.handlerRun {τ σ : Type} (l : Listener τ σ) (mysqlConn : MysqlConn) (engine : σ)
    (query : ConvertedQuery) : HandlerRun σ :=
  match query.AST with
  | none => l.Handler.ComQuery mysqlConn engine query.String
  | some parsed => l.Handler.ComParsedQuery mysqlConn engine query.String parsed

/-- The entry `comQuery` adds to the call log for a query. -/
def Listener.handlerCall (query : ConvertedQuery) : HandlerCall :=
  match query.AST with
  | none => .ComQuery query.String
  | some parsed => .ComParsedQuery query.String parsed

/-- The frames the callback of `describe` writes for the results handed to it: a
`RowDescription` for every result that is not nil. -/
def describeFrames (delivered : List (Option Result)) : List BackendMessage :=
  delivered.filterMap fun res => res.map fun r => BackendMessage.RowDescription r.Fields

/-- The frames the callback of `execute` writes for the results handed to it, up to the
first nil result (on which it panics). -/
def executeFrames : List (Option Result) → List BackendMessage
  | [] => []
  | none :: _ => []
  | some res :: rest => resultFrames res ++ executeFrames rest

/-- The connection a handler call leaves. -/
def RunResult.conn {σ γ : Type} : RunResult σ γ → Conn
  | .returned _ _ conn _ => conn
  | .panicked _ conn _ => conn

/-- The value of `commandComplete.Rows` after the callback of `execute` has seen the
results `results`, starting from `rows`. -/
def Listener.rowsAfter {τ σ : Type} (l : Listener τ σ) (query : String) : Int → List Result → Int
  | rows, [] => rows
  | rows, res :: rest =>
    Listener.rowsAfter l query
      (if l.IsIUD query then int32 res.RowsAffected else int32 (rows + int32 res.Rows.length)) rest

/-- Whether a message is a `Sync` or a simple `Query`: the two messages whose arm of the
loop calls `endOfMessages` when nothing fails. -/
def Message.isSyncOrQuery : Message → Bool
  | .Sync => true
  | .Query _ => true
  | _ => false

/-- The frames contain exactly one `ReadyForQuery`, and it is the last frame. -/
def ExactlyOneReadyForQueryLast (frames : List BackendMessage) : Prop :=
  frames.countP BackendMessage.isReadyForQuery = 1 ∧
    frames.getLast? = some (.ReadyForQuery .Idle)

instance (frames : List BackendMessage) : Decidable (ExactlyOneReadyForQueryLast frames) :=
  inferInstanceAs (Decidable (_ ∧ _))

/-- The frames `endOfMessages` writes: the `ErrorResponse` of `sendError` when there is an
error, then `ReadyForQuery`. -/
def endFrames : Option String → List BackendMessage
  | some err => [.ErrorResponse .Error "XX000" err "", .ReadyForQuery .Idle]
  | none => [.ReadyForQuery .Idle]

/-- The frames end in the one `ReadyForQuery` they contain. -/
def Ended (fs : List BackendMessage) : Prop :=
  ∃ fs0, fs = fs0 ++ [.ReadyForQuery .Idle] ∧ ∀ f ∈ fs0, f.isReadyForQuery = false

/-- The user name `sendClientStartupMessages` records: the `user` parameter of the startup
message when it is there and not empty, else `doltgres`. -/
def startupUser (Parameters : List (String × String)) : String :=
  match Parameters.lookup "user" with
  | some user => if user.length > 0 then user else "doltgres"
  | none => "doltgres"

/-- The state of `HandleConnection` when it enters the initial message loop: the handler
has been told of the new connection. -/
def Listener.accepted {τ σ : Type} (l : Listener τ σ) (conn : Conn) (engine : σ)
    (connectionIDCounter : Nat) : State σ :=
  { conn := conn
    mysqlConn := { ConnectionID := uint32 (connectionIDCounter + 1), User := "", UserData := none }
    engine := l.Handler.NewConnection
      { ConnectionID := uint32 (connectionIDCounter + 1), User := "", UserData := none } engine
    calls := [.NewConnection]
    preparedStatements := fun _ => none
    portals := fun _ => none }

/-- The state of `HandleConnection` after `sendClientStartupMessages`, for a connection
whose first frame is the startup message with the given parameters. -/
def Listener.authenticated {τ σ : Type} (l : Listener τ σ) (conn : Conn) (engine : σ)
    (connectionIDCounter : Nat) (Parameters : List (String × String)) : State σ :=
  (l.sendClientStartupMessages (l.accepted conn engine connectionIDCounter) Parameters).2

/-- The four frames of `sendClientStartupMessages`. -/
def Listener.startupFrames {τ σ : Type} (l : Listener τ σ) : List BackendMessage :=
  [.AuthenticationOk, .ParameterStatus "server_version" "15.0",
    .ParameterStatus "client_encoding" "UTF8", .BackendKeyData l.processID 0]

/-- Whether a frame is a `DataRow`. -/
def BackendMessage.isDataRow : BackendMessage → Bool
  | .DataRow _ => true
  | _ => false

/-- The total number of rows in a list of results. -/
def totalRows (results : List Result) : Nat :=
  (results.map fun res => res.Rows.length).sum

/-- The sum of the affected-row counts of a list of results. -/
def totalRowsAffected (results : List Result) : Nat :=
  (results.map fun res => res.RowsAffected).sum

/-- The row count `execute` reports for the results handed to its callback: for an
INSERT, UPDATE or DELETE the affected-row count of the last result (0 when there was no
result), otherwise the total number of rows; both as an `int32`. -/
def Listener.commandCompleteRows {τ σ : Type} (l : Listener τ σ) (query : String)
    (results : List Result) : Int :=
  if l.IsIUD query then
    match results.getLast? with
    | some res => int32 res.RowsAffected
    | none => 0
  else int32 (totalRows results)

/-- The connection with the frames `frames` written before everything else. -/
def Conn.shift (frames : List BackendMessage) (conn : Conn) : Conn :=
  { conn with sent := frames ++ conn.sent }

/-- The session on the connection shifted by `frames`. -/
def State.shift {σ : Type} (frames : List BackendMessage) (st : State σ) : State σ :=
  { st with conn := st.conn.shift frames }

/-- A callback result on the connection shifted by `frames`. -/
def CallbackResult.shift {γ : Type} (frames : List BackendMessage) :
    CallbackResult γ → CallbackResult γ
  | .returned err conn g => .returned err (conn.shift frames) g
  | .panicked v conn g => .panicked v (conn.shift frames) g

/-- The end of a handler call on the connection shifted by `frames`. -/
def RunResult.shift {σ γ : Type} (frames : List BackendMessage) :
    RunResult σ γ → RunResult σ γ
  | .returned err s conn g => .returned err s (conn.shift frames) g
  | .panicked v conn g => .panicked v (conn.shift frames) g

/-- The answer of the server to a request of the startup phase when it has no certificate:
`SSLResponse` and `GSSENCResponse` saying no. -/
def startupResponse : InitialMessage → List BackendMessage
  | .SSLRequest => [.SSLResponse false]
  | .GSSENCRequest => [.GSSENCResponse false]
  | _ => []

/-- What can make the handling of a message panic when all sends succeed: the parser
returns, without error, no statement at all for some text, or the handler hands a nil
result to the row callback in some call. -/
def Listener.PanicCause {τ σ : Type} (l : Listener τ σ) : Prop :=
  (∃ query, l.Parse query = .ok []) ∨
    ∃ mysqlConn engine query, none ∈ (l.handlerRun mysqlConn engine query).delivered

/-! ## A small listener to run the model on -/

namespace Example

/-- ASCII lowercasing. -/
def ToLower (s : String) : String := String.mk (s.data.map Char.toLower)

/-- A parser over statements that are their own text: the empty text has no statement,
`SELEC 1` is a syntax error, `SELECT 1; SELECT 2` has two statements. -/
def Parse (query : String) : Except String (List String) :=
  if query = "" then .ok []
  else if query = "SELEC 1" then .error "syntax error at position 6 near 'SELEC'"
  else if query = "SELECT 1; SELECT 2" then .ok ["SELECT 1", "SELECT 2"]
  else .ok [query]

/-- A converter that knows `DEALLOCATE name`. -/
def Convert (statement : String) : Except String (Option sqlparser.Statement) :=
  if strings.HasPrefix statement "DEALLOCATE " then
    .ok (some (.Deallocate (String.mk (statement.data.drop 11))))
  else .ok (some (.Other 0))

/-- The statements whose first word is INSERT, UPDATE or DELETE. -/
def IsIUD (query : String) : Bool :=
  strings.HasPrefix (ToLower query) "insert" || strings.HasPrefix (ToLower query) "update" ||
    strings.HasPrefix (ToLower query) "delete"

/-- One row of one column. -/
def selectOne : Result := { Fields := ["?column?"], Rows := [["1"]], RowsAffected := 0 }

/-- An engine whose state is the number of statements it has run. `SELECT 1` yields one
result of one field and one row; `SELECT * FROM t` yields two results; `INSERT INTO t`
reports its affected rows in two results; `UPDATE t` reports 2^31 affected rows;
`SELECT * FROM missing` fails. -/
def ComParsedQuery (_ : MysqlConn) (engine : Nat) (query : String) (_ : sqlparser.Statement) :
    HandlerRun Nat :=
  if query = "SELECT 1" then .callback (some selectOne) false fun _ => .ret none (engine + 1)
  else if query = "SELECT * FROM t" then
    .callback (some { Fields := ["a"], Rows := [["1"], ["2"]], RowsAffected := 0 }) true fun _ =>
      .callback (some { Fields := ["a"], Rows := [["3"]], RowsAffected := 0 }) false fun _ =>
        .ret none (engine + 1)
  else if query = "INSERT INTO t" then
    .callback (some { Fields := [], Rows := [], RowsAffected := 1 }) true fun _ =>
      .callback (some { Fields := [], Rows := [], RowsAffected := 2 }) false fun _ =>
        .ret none (engine + 1)
  else if query = "UPDATE t" then
    .callback (some { Fields := [], Rows := [], RowsAffected := 2147483648 }) false fun _ =>
      .ret none (engine + 1)
  else if query = "SELECT * FROM missing" then .ret (some "table not found: missing") engine
  else .ret none (engine + 1)

/-- The engine on unparsed text: using the database `missing` fails. -/
def ComQuery (_ : MysqlConn) (engine : Nat) (query : String) : HandlerRun Nat :=
  if query = "USE `missing`;" then .ret (some "database not found: missing") engine
  else .ret none (engine + 1)

/-- The example handler. -/
def handler : Handler Nat :=
  { NewConnection := fun _ engine => engine
    ConnectionClosed := fun _ engine => engine
    ComQuery := ComQuery
    ComParsedQuery := ComParsedQuery }

/-- The example listener: no certificate, process id 42. -/
def listener : Listener String Nat :=
  { Handler := handler
    processID := 42
    certificate := []
    Parse := Parse
    ASTString := fun statement => statement
    Convert := Convert
    ToLower := ToLower
    IsIUD := IsIUD
    ImplicitlyCommits := fun _ => false }

/-- A connection on which nothing has been written and every send succeeds. -/
def conn : Conn :=
  { sent := [], sendErrors := fun _ => none, Network := "tcp", Host := "127.0.0.1",
    tls := false, closed := false }

/-- A session that has completed startup as user `alice`, with empty tables. -/
def ready : State Nat :=
  { conn := conn
    mysqlConn := { ConnectionID := 1, User := "alice",
                   UserData := some { User := "alice", Host := "127.0.0.1" } }
    engine := 0
    calls := []
    preparedStatements := fun _ => none
    portals := fun _ => none }

end Example

namespace Example

/-- A handler whose parser rejects every statement handed to it. -/
def rejecting : Handler Nat :=
  { NewConnection := fun _ engine => engine
    ConnectionClosed := fun _ engine => engine
    ComQuery := fun _ engine _ => .ret (some "syntax error at position 7 near 'FROM'") engine
    ComParsedQuery := fun _ engine _ _ =>
      .ret (some "syntax error at position 7 near 'FROM'") engine }

/-- The example listener in front of the rejecting handler. -/
def strict : Listener String Nat := { listener with Handler := rejecting }

/-- The example listener with `CREATE TABLE t (a INT)` as a statement that implicitly
commits. -/
def guarded : Listener String Nat :=
  { listener with ImplicitlyCommits := fun query => decide (query = "CREATE TABLE t (a INT)") }

end Example

namespace Example

/-- The example listener with a converter that has no tree for any statement, so that the
engine parses the canonical text again; the canonical text ends in a semicolon. -/
def reparsing : Listener String Nat :=
  { listener with Convert := fun _ => .ok none
                  ASTString := fun statement => statement ++ ";" }

end Example

/-! ## The type collection

The package `core/typecollection`. A Go map is the list of its entries: the keys of a map
are distinct, and a `range` visits the entries in the order of the list, which is one of
the orders Go may choose. The calls on a collection are taken one at a time, so the mutex
is not modelled. -/

namespace id

/-- Modelled from the spec: the identifier `id.Type` of a type, declared in a package that
is not among the sources; the collection reads its `SchemaName()` and its `TypeName()`. -/
structure TypeID where
  SchemaName : String
  TypeName : String
  deriving DecidableEq, Repr

end id

namespace types

/-- Modelled from the spec: the values of the field `TypType`, of which the collection
compares with `TypeType_Domain`. -/
inductive TypeType where
  | Base
  | Domain
  | Enum
  | Other (code : String)
  deriving DecidableEq, Repr

/-- Modelled from the spec: the struct `DoltgresType`, whose declaration is not among the
sources, with what the collection reads of it: the field `ID`, the result of the method
`Name()` and the field `TypType`. -/
structure DoltgresType where
  ID : id.TypeID
  Name : String
  TypType : TypeType
  deriving DecidableEq, Repr

/-- The errors `ErrTypeAlreadyExists.New(name)` and `ErrTypeDoesNotExist.New(name)`. -/
inductive Error where
  | ErrTypeAlreadyExists (name : String)
  | ErrTypeDoesNotExist (name : String)
  deriving DecidableEq, Repr

end types

/-- Go's `a < b` on strings: the order of the bytes, first difference first, which for
UTF-8 is the order of the characters. -/
def stringLess (a b : String) : Bool := decide (a.data < b.data)

namespace sort

/-- Go's `sort.Slice(x, less)`, as an insertion sort. Go does not say in which order
elements come out that `less` does not tell apart; it is the order of arrival here. -/
def Slice {α : Type} (x : List α) (less : α → α → Bool) : List α :=
  x.insertionSort fun a b => less b a = false

end sort

/-- A Go map with string keys. -/
abbrev GoMap (β : Type) := List (String × β)

namespace GoMap

variable {β : Type}

/-- The read `v, ok := m[key]`. -/
def index : GoMap β → String → Option β
  | [], _ => none
  | e :: m, key => if e.1 = key then some e.2 else index m key

/-- The assignment `m[key] = v`. -/
def set : GoMap β → String → β → GoMap β
  | [], key, v => [(key, v)]
  | e :: m, key, v => if e.1 = key then (key, v) :: m else e :: set m key v

/-- The builtin `delete(m, key)`. -/
def delete (m : GoMap β) (key : String) : GoMap β :=
  m.filter fun e => decide (e.1 ≠ key)

/-- The keys, in the order of a `range`. -/
def keys (m : GoMap β) : List String := m.map Prod.fst

/-- The values, in the order of a `range`. -/
def values (m : GoMap β) : List β := m.map Prod.snd

end GoMap

namespace typecollection

open types

/-- The struct `TypeCollection`. -/
structure TypeCollection where
  schemaMap : GoMap (GoMap DoltgresType)
  deriving DecidableEq, Repr

/-- The three results of `GetAllTypes`. The count is an `int` in Go; it counts values held
in memory, which are fewer than 2^63, so that it is a natural number here. -/
structure AllTypes where
  typesMap : GoMap (List DoltgresType)
  schemaNames : List String
  totalCount : Nat
  deriving DecidableEq, Repr

namespace TypeCollection

/-- The method `Clone`. -/
def Clone (pgs : TypeCollection) : TypeCollection :=
  { schemaMap :=
      pgs.schemaMap.foldl
        (fun newSchemaMap e =>
          if e.2.length = 0 then newSchemaMap
          else if e.1 = "pg_catalog" then newSchemaMap
          else
            GoMap.set newSchemaMap e.1
              (e.2.foldl (fun clonedNameMap kv => GoMap.set clonedNameMap kv.1 kv.2) []))
        [] }

/-- The method `CreateType`. -/
def CreateType (pgs : TypeCollection) (schName : String) (typ : DoltgresType) :
    Option Error × TypeCollection :=
  let nameMap : GoMap DoltgresType := (GoMap.index pgs.schemaMap schName).getD []
  let schemaMap1 :=
    match GoMap.index pgs.schemaMap schName with
    | some _ => pgs.schemaMap
    | none => GoMap.set pgs.schemaMap schName []
  match GoMap.index nameMap typ.Name with
  | some _ => (some (.ErrTypeAlreadyExists typ.Name), { schemaMap := schemaMap1 })
  | none =>
    (none, { schemaMap := GoMap.set schemaMap1 schName (GoMap.set nameMap typ.Name typ) })

/-- The method `DropType`. -/
def DropType (pgs : TypeCollection) (schName typName : String) :
    Option Error × TypeCollection :=
  match GoMap.index pgs.schemaMap schName with
  | some nameMap =>
    match GoMap.index nameMap typName with
    | some _ =>
      (none, { schemaMap := GoMap.set pgs.schemaMap schName (GoMap.delete nameMap typName) })
    | none => (some (.ErrTypeDoesNotExist typName), pgs)
  | none => (some (.ErrTypeDoesNotExist typName), pgs)

/-- The map `pgCatTypeMap` that `addSupportedBuiltInTypes` fills; `builtIns` is what
`types.GetAllBuitInTypes()` returns. -/
def pgCatTypeMap (builtIns : List DoltgresType) : GoMap DoltgresType :=
  builtIns.foldl (fun pgCatTypeMap t => GoMap.set pgCatTypeMap t.Name t) []

/-- The method `addSupportedBuiltInTypes`. -/
def addSupportedBuiltInTypes (builtIns : List DoltgresType) (pgs : TypeCollection) :
    TypeCollection :=
  match GoMap.index pgs.schemaMap "pg_catalog" with
  | some _ => pgs
  | none => { schemaMap := GoMap.set pgs.schemaMap "pg_catalog" (pgCatTypeMap builtIns) }

/-- The method `GetAllTypes`. -/
def GetAllTypes (builtIns : List DoltgresType) (pgs : TypeCollection) :
    AllTypes × TypeCollection :=
  let pgs1 := addSupportedBuiltInTypes builtIns pgs
  let r : AllTypes :=
    pgs1.schemaMap.foldl
      (fun r e =>
        let typs := GoMap.values e.2
        { typesMap :=
            GoMap.set r.typesMap e.1 (sort.Slice typs fun a b => stringLess a.Name b.Name)
          schemaNames := r.schemaNames ++ [e.1]
          totalCount := r.totalCount + typs.length })
      { typesMap := [], schemaNames := [], totalCount := 0 }
  ({ typesMap := r.typesMap
     schemaNames := sort.Slice r.schemaNames stringLess
     totalCount := r.totalCount }, pgs1)

/-- The method `GetType`. -/
def GetType (builtIns : List DoltgresType) (pgs : TypeCollection) (internalID : id.TypeID) :
    (Option DoltgresType × Bool) × TypeCollection :=
  let pgs1 := addSupportedBuiltInTypes builtIns pgs
  match GoMap.index pgs1.schemaMap internalID.SchemaName with
  | some nameMap =>
    match GoMap.index nameMap internalID.TypeName with
    | some typ => ((some typ, true), pgs1)
    | none => ((none, false), pgs1)
  | none => ((none, false), pgs1)

/-- The method `GetDomainType`. -/
def GetDomainType (builtIns : List DoltgresType) (pgs : TypeCollection)
    (internalID : id.TypeID) : (Option DoltgresType × Bool) × TypeCollection :=
  match GetType builtIns pgs internalID with
  | ((some t, true), pgs1) =>
    if t.TypType = .Domain then ((some t, true), pgs1) else ((none, false), pgs1)
  | ((_, _), pgs1) => ((none, false), pgs1)

/-- The method `GetTypeByID`; `AsId` is the method of that name of `id.Type`, into the
identifiers `Id` of the package `id`. -/
def GetTypeByID {Id : Type} [DecidableEq Id] (AsId : id.TypeID → Id)
    (builtIns : List DoltgresType) (pgs : TypeCollection) (internalID : Id) :
    (Option DoltgresType × Bool) × TypeCollection :=
  let pgs1 := addSupportedBuiltInTypes builtIns pgs
  match pgs1.schemaMap.findSome? fun e =>
      e.2.findSome? fun kv => if AsId kv.2.ID = internalID then some kv.2 else none with
  | some typ => ((some typ, true), pgs1)
  | none => ((none, false), pgs1)

/-- The method `HasType`. -/
def HasType (builtIns : List DoltgresType) (pgs : TypeCollection) (schema typName : String) :
    Bool × TypeCollection :=
  let pgs1 := addSupportedBuiltInTypes builtIns pgs
  let nameMap : GoMap DoltgresType := (GoMap.index pgs1.schemaMap schema).getD []
  let schemaMap1 :=
    match GoMap.index pgs1.schemaMap schema with
    | some _ => pgs1.schemaMap
    | none => GoMap.set pgs1.schemaMap schema []
  ((GoMap.index nameMap typName).isSome, { schemaMap := schemaMap1 })

/-- The method `IterateTypes`; the function `f` returns its error, if any. -/
def IterateTypes (builtIns : List DoltgresType) (pgs : TypeCollection)
    (f : String → DoltgresType → Option String) : Option String × TypeCollection :=
  let pgs1 := addSupportedBuiltInTypes builtIns pgs
  (pgs1.schemaMap.findSome? fun e => e.2.findSome? fun kv => f e.1 kv.2, pgs1)

end TypeCollection

end typecollection

namespace typecollection

open types

/-! ### Vocabulary of the statements about the type collection -/

namespace TypeCollection

/-- A collection as Go holds it: the keys of each map are distinct. Moreover every type is
stored under its name, which is how `CreateType` and `addSupportedBuiltInTypes` store. -/
def WellFormed (pgs : TypeCollection) : Prop :=
  (GoMap.keys pgs.schemaMap).Nodup ∧
    ∀ e ∈ pgs.schemaMap, (GoMap.keys e.2).Nodup ∧ ∀ kv ∈ e.2, kv.1 = kv.2.Name

instance (pgs : TypeCollection) : Decidable pgs.WellFormed :=
  inferInstanceAs (Decidable (_ ∧ _))

end TypeCollection

/-- A lookup with its arguments. -/
inductive Lookup (Id : Type) where
  | GetType (internalID : id.TypeID)
  | GetTypeByID (internalID : Id)
  | GetDomainType (internalID : id.TypeID)
  | HasType (schema typName : String)
  | GetAllTypes
  | IterateTypes (f : String → DoltgresType → Option String)

/-- The collection as a lookup leaves it. -/
def Lookup.leaves {Id : Type} [DecidableEq Id] (AsId : id.TypeID → Id)
    (builtIns : List DoltgresType) (pgs : TypeCollection) : Lookup Id → TypeCollection
  | .GetType internalID => (pgs.GetType builtIns internalID).2
  | .GetTypeByID internalID => (pgs.GetTypeByID AsId builtIns internalID).2
  | .GetDomainType internalID => (pgs.GetDomainType builtIns internalID).2
  | .HasType schema typName => (pgs.HasType builtIns schema typName).2
  | .GetAllTypes => (pgs.GetAllTypes builtIns).2
  | .IterateTypes f => (pgs.IterateTypes builtIns f).2

/-- The collections reached from an empty one by `CreateType`, `DropType`, `Clone` and the
lookups, when no type is created or dropped in the schema `pg_catalog`. -/
inductive Reachable {Id : Type} [DecidableEq Id] (AsId : id.TypeID → Id)
    (builtIns : List DoltgresType) : TypeCollection → Prop where
  | empty : Reachable AsId builtIns { schemaMap := [] }
  | CreateType {pgs : TypeCollection} (schName : String) (typ : DoltgresType) :
    Reachable AsId builtIns pgs → schName ≠ "pg_catalog" →
    Reachable AsId builtIns (pgs.CreateType schName typ).2
  | DropType {pgs : TypeCollection} (schName typName : String) :
    Reachable AsId builtIns pgs → schName ≠ "pg_catalog" →
    Reachable AsId builtIns (pgs.DropType schName typName).2
  | Clone {pgs : TypeCollection} :
    Reachable AsId builtIns pgs → Reachable AsId builtIns pgs.Clone
  | lookup {pgs : TypeCollection} (call : Lookup Id) :
    Reachable AsId builtIns pgs → Reachable AsId builtIns (call.leaves AsId builtIns pgs)

end typecollection

namespace Example

open typecollection types

/-- The built-in type `int4`. -/
def int4 : DoltgresType :=
  { ID := { SchemaName := "pg_catalog", TypeName := "int4" }, Name := "int4", TypType := .Base }

/-- The built-in type `bool`. -/
def bool : DoltgresType :=
  { ID := { SchemaName := "pg_catalog", TypeName := "bool" }, Name := "bool", TypType := .Base }

/-- A domain type of a user. -/
def email : DoltgresType :=
  { ID := { SchemaName := "public", TypeName := "email" }, Name := "email",
    TypType := .Domain }

/-- Two built-in types. -/
def builtIns : List DoltgresType := [int4, bool]

/-- An empty collection, as `Clone` starts from. -/
def fresh : TypeCollection := { schemaMap := [] }

/-- A general identifier made of the two names of a type. -/
def AsId (t : id.TypeID) : String := t.SchemaName ++ "." ++ t.TypeName

end Example

/-! ## The message `Sync`

The file `postgres/messages/sync.go`, over the descriptors of the package `connection`. -/

namespace connection

/-- Modelled from the spec: the types a field of a descriptor can have, which are declared
in the package `connection`, not among the sources: the wire primitives and the
`Repeated` sentinel. -/
inductive FieldType where
  | Byte1
  | Int8
  | Int16
  | Int32
  | String
  | ByteN
  | Repeated
  deriving DecidableEq, Repr

/-- Modelled from the spec: the flags of a field, a set out of `Header`,
`MessageLengthInclusive`, `MessageLengthExclusive`, `RepeatedTerminator` and
`ExcludeInLength`. -/
structure FieldFlags where
  Header : Bool
  MessageLengthInclusive : Bool
  MessageLengthExclusive : Bool
  RepeatedTerminator : Bool
  ExcludeInLength : Bool
  deriving DecidableEq, Repr

/-- The flag set `connection.Header`. -/
def Header : FieldFlags :=
  { Header := true, MessageLengthInclusive := false, MessageLengthExclusive := false,
    RepeatedTerminator := false, ExcludeInLength := false }

/-- The flag set `connection.MessageLengthInclusive`. -/
def MessageLengthInclusive : FieldFlags :=
  { Header := false, MessageLengthInclusive := true, MessageLengthExclusive := false,
    RepeatedTerminator := false, ExcludeInLength := false }

/-- Modelled from the spec: the data a field holds, of Go type `any`. -/
inductive FieldData where
  | nil
  | Int32 (v : Int)
  | String (s : String)
  | Bytes (b : List Nat)
  deriving DecidableEq, Repr

/-- Modelled from the spec: a field of a descriptor, with its name, type, flags and data;
the field `Type` is `Typ` here, `Type` being a reserved word. The reference `ParentCount`
of the fields of a repeated group is left out. -/
structure Field where
  Name : String
  Typ : FieldType
  Flags : FieldFlags
  Data : FieldData
  deriving DecidableEq, Repr

/-- Modelled from the spec: the descriptor `MessageFormat`, a name and the ordered
sequence of the fields. -/
structure MessageFormat where
  Name : String
  Fields : List Field
  deriving DecidableEq, Repr

/-- The error of `MatchesStructure`. -/
inductive StructureError where
  | mismatch
  deriving DecidableEq, Repr

namespace MessageFormat

/-- Modelled from the spec: the method `Copy`, which is not among the sources; encoding
starts with a copy of the default descriptor. -/
def Copy (m : MessageFormat) : MessageFormat :=
  { Name := m.Name
    Fields := m.Fields.map fun f =>
      { Name := f.Name, Typ := f.Typ, Flags := f.Flags, Data := f.Data } }

/-- Modelled from the spec: the method `MatchesStructure`, which is not among the sources:
success when both descriptors have the same sequence of fields with the same types and
flags; the data the fields hold is not looked at. -/
def MatchesStructure (m otherMessage : MessageFormat) : Option StructureError :=
  if (m.Fields.map fun f => (f.Name, f.Typ, f.Flags)) =
      otherMessage.Fields.map fun f => (f.Name, f.Typ, f.Flags) then none
  else some .mismatch

/-- Modelled from the spec: the number of bytes that follow the header byte on the wire,
for a descriptor whose fields all have a fixed width: one byte for `Byte1` and `Int8`, two
for `Int16`, four for `Int32`. -/
def bytesAfterHeader (m : MessageFormat) : Option Nat :=
  (m.Fields.filter fun f => !f.Flags.Header).foldl
    (fun total f =>
      match total, f.Typ with
      | some n, .Byte1 => some (n + 1)
      | some n, .Int8 => some (n + 1)
      | some n, .Int16 => some (n + 2)
      | some n, .Int32 => some (n + 4)
      | _, _ => none)
    (some 0)

end MessageFormat

end connection

namespace messages

/-- The struct `Sync`. -/
structure Sync where
  deriving DecidableEq, Repr

/-- The variable `syncDefault`. -/
def syncDefault : connection.MessageFormat :=
  { Name := "Sync",
    Fields :=
      [ { Name := "Header", Typ := .Byte1, Flags := connection.Header,
          Data := .Int32 (int32 (Int.ofNat 'S'.toNat)) },
        { Name := "MessageLength", Typ := .Int32, Flags := connection.MessageLengthInclusive,
          Data := .Int32 (int32 4) } ] }

namespace Sync

/-- The method `DefaultMessage`. -/
def DefaultMessage (_ : Sync) : connection.MessageFormat := syncDefault

/-- The method `Encode`. -/
def Encode (m : Sync) : Except connection.StructureError connection.MessageFormat :=
  .ok m.DefaultMessage.Copy

/-- The method `Decode`. -/
def Decode (m : Sync) (s : connection.MessageFormat) : Except connection.StructureError Sync :=
  match s.MatchesStructure m.DefaultMessage with
  | some err => .error err
  | none => .ok {}

end Sync

end messages

/-! # Theorems -/

open Listener

/-! ## Basic facts about the connection and handler runs -/

section Basics

variable {τ σ γ : Type}

theorem emit_nil (conn : Conn) : conn.emit [] = conn := by
  simp [Conn.emit]

theorem emit_emit (conn : Conn) (a b : List BackendMessage) :
    (conn.emit a).emit b = conn.emit (a ++ b) := by
  simp [Conn.emit]

theorem emit_sent (conn : Conn) (a : List BackendMessage) :
    (conn.emit a).sent = conn.sent ++ a := rfl

theorem reliable_emit {conn : Conn} (h : conn.Reliable) (a : List BackendMessage) :
    (conn.emit a).Reliable := h

theorem reliable_emit_iff (conn : Conn) (a : List BackendMessage) :
    (conn.emit a).Reliable ↔ conn.Reliable := Iff.rfl

/-- On a reliable connection a send succeeds and appends the frame. -/
theorem send_reliable {conn : Conn} (h : conn.Reliable) (message : BackendMessage) :
    connection.Send conn message = (none, conn.emit [message]) := by
  obtain ⟨sent, errs, nw, host, tls, closed⟩ := conn
  simp only [Conn.Reliable] at h
  subst h
  simp [connection.Send, Conn.emit]

theorem sendDataRows_reliable {conn : Conn} (h : conn.Reliable) (rows : List (List String)) :
    sendDataRows conn rows = (none, conn.emit (rows.map .DataRow)) := by
  induction rows generalizing conn with
  | nil => simp [sendDataRows, emit_nil]
  | cons row rows ih =>
    simp [sendDataRows, send_reliable h, ih (reliable_emit h _), emit_emit]

theorem endOfMessages_reliable {conn : Conn} (h : conn.Reliable) (err : Option String) :
    endOfMessages conn err = (.normal, conn.emit (endFrames err)) := by
  cases err with
  | none => simp [endOfMessages, send_reliable h, endFrames]
  | some e =>
    simp [endOfMessages, sendError, send_reliable h, send_reliable (reliable_emit h _), emit_emit,
      endFrames]

/-- A handler call run against the callback that does nothing. -/
theorem run_nilCallback (t : HandlerRun σ) (conn : Conn) :
    t.run nilCallback conn () = .returned t.outcome.1 t.outcome.2 conn () := by
  induction t with
  | ret err s => rfl
  | callback res more k ih => simp [HandlerRun.run, nilCallback, HandlerRun.outcome, ih]

end Basics

section Runs

variable {τ σ γ : Type}

theorem comQuery_nilCallback (l : Listener τ σ) (st : State σ) (query : String) :
    l.ComQuery st query nilCallback () =
      (.returned (l.Handler.ComQuery st.mysqlConn st.engine query).outcome.1 (),
        { st with engine := (l.Handler.ComQuery st.mysqlConn st.engine query).outcome.2,
                  calls := st.calls ++ [.ComQuery query] }) := by
  simp [Listener.ComQuery, run_nilCallback]

theorem run_describeCallback (t : HandlerRun σ) {conn : Conn} (h : conn.Reliable) :
    t.run describeCallback conn () =
      .returned t.outcome.1 t.outcome.2 (conn.emit (describeFrames t.delivered)) () := by
  induction t generalizing conn with
  | ret err s => simp [HandlerRun.run, HandlerRun.outcome, HandlerRun.delivered, describeFrames, emit_nil]
  | callback res more k ih =>
    cases res with
    | none =>
      simp [HandlerRun.run, describeCallback, HandlerRun.outcome, HandlerRun.delivered, ih none h,
        describeFrames]
    | some r =>
      simp [HandlerRun.run, describeCallback, HandlerRun.outcome, HandlerRun.delivered,
        send_reliable h, ih none (reliable_emit h _), describeFrames, emit_emit]

theorem run_executeCallback_conn (l : Listener τ σ) (query : String) (t : HandlerRun σ)
    {conn : Conn} (h : conn.Reliable) (rows : Int) :
    (t.run (l.executeCallback query) conn rows).conn = conn.emit (executeFrames t.delivered) := by
  induction t generalizing conn rows with
  | ret err s => simp [HandlerRun.run, RunResult.conn, HandlerRun.delivered, executeFrames, emit_nil]
  | callback res more k ih =>
    cases res with
    | none =>
      simp [HandlerRun.run, executeCallback, RunResult.conn, HandlerRun.delivered, executeFrames,
        emit_nil]
    | some r =>
      by_cases hi : l.IsIUD query = true <;>
      simp [HandlerRun.run, executeCallback, HandlerRun.delivered, executeFrames,
        send_reliable h, sendDataRows_reliable (reliable_emit h _), emit_emit, hi,
        ih none (reliable_emit h _), resultFrames]

theorem run_executeCallback (l : Listener τ σ) (query : String) (t : HandlerRun σ)
    {conn : Conn} (h : conn.Reliable) (rows : Int) (results : List Result)
    (hd : t.delivered = results.map some) :
    t.run (l.executeCallback query) conn rows =
      .returned t.outcome.1 t.outcome.2 (conn.emit (results.flatMap resultFrames))
        (l.rowsAfter query rows results) := by
  induction t generalizing conn rows results with
  | ret err s =>
    cases results with
    | nil => simp [HandlerRun.run, HandlerRun.outcome, Listener.rowsAfter, emit_nil]
    | cons r rs => simp [HandlerRun.delivered] at hd
  | callback res more k ih =>
    cases results with
    | nil => simp [HandlerRun.delivered] at hd
    | cons r rs =>
      simp only [HandlerRun.delivered, List.map_cons, List.cons.injEq] at hd
      obtain ⟨hr, hrest⟩ := hd
      subst hr
      by_cases hi : l.IsIUD query = true <;>
      simp [HandlerRun.run, executeCallback, HandlerRun.outcome, Listener.rowsAfter,
        send_reliable h, sendDataRows_reliable (reliable_emit h _), emit_emit, hi,
        ih none (reliable_emit h _) _ rs hrest, resultFrames]

end Runs

section Methods

variable {τ σ γ : Type}

/-- The method `comQuery` in terms of the handler call it makes. -/
theorem comQuery_eq (l : Listener τ σ) (st : State σ) (query : ConvertedQuery)
    (callback : Callback γ) (g : γ) :
    l.comQuery st query callback g =
      match (l.handlerRun st.mysqlConn st.engine query).run callback st.conn g with
      | .returned err s conn g1 =>
        (.returned err g1,
          { st with conn := conn, engine := s, calls := st.calls ++ [handlerCall query] })
      | .panicked v conn _ =>
        (.panicked v, { st with conn := conn, calls := st.calls ++ [handlerCall query] }) := by
  unfold Listener.comQuery Listener.handlerRun Listener.handlerCall
  cases query.AST <;> rfl

/-- What `execute` does on a reliable connection when the handler hands the callback the
results `results`, none of them nil. -/
theorem execute_reliable (l : Listener τ σ) (st : State σ) (query : ConvertedQuery)
    (h : st.conn.Reliable) (results : List Result)
    (hd : (l.handlerRun st.mysqlConn st.engine query).delivered = results.map some) :
    l.execute st query =
      match (l.handlerRun st.mysqlConn st.engine query).outcome.1 with
      | some err =>
        (.returned (some (if strings.HasPrefix err "syntax error at position" then
            "This statement is not yet supported" else err)),
          { st with conn := st.conn.emit (results.flatMap resultFrames),
                    engine := (l.handlerRun st.mysqlConn st.engine query).outcome.2,
                    calls := st.calls ++ [handlerCall query] })
      | none =>
        (.returned none,
          { st with conn := st.conn.emit (results.flatMap resultFrames ++
                      [.CommandComplete query.String (l.rowsAfter query.String 0 results)]),
                    engine := (l.handlerRun st.mysqlConn st.engine query).outcome.2,
                    calls := st.calls ++ [handlerCall query] }) := by
  unfold Listener.execute
  rw [comQuery_eq, run_executeCallback l query.String _ h 0 results hd]
  cases he : (l.handlerRun st.mysqlConn st.engine query).outcome.1 with
  | none => simp [send_reliable (reliable_emit h _), emit_emit]
  | some err => by_cases hp : strings.HasPrefix err "syntax error at position" = true <;> simp [hp]

/-- No frame of the list is a `ReadyForQuery`. -/
theorem noReadyForQuery_executeFrames (delivered : List (Option Result)) :
    ∀ f ∈ executeFrames delivered, f.isReadyForQuery = false := by
  induction delivered with
  | nil => simp [executeFrames]
  | cons d ds ih =>
    cases d with
    | none => simp [executeFrames]
    | some r =>
      intro f hf
      simp only [executeFrames, resultFrames, List.cons_append, List.mem_cons, List.mem_append,
        List.mem_map] at hf
      rcases hf with rfl | ⟨row, _, rfl⟩ | hf
      · rfl
      · rfl
      · exact ih f hf

theorem noReadyForQuery_describeFrames (delivered : List (Option Result)) :
    ∀ f ∈ describeFrames delivered, f.isReadyForQuery = false := by
  intro f hf
  simp only [describeFrames, List.mem_filterMap, Option.map_eq_some'] at hf
  obtain ⟨_, _, r, _, rfl⟩ := hf
  rfl

/-- On a reliable connection `execute` only appends frames, none of them a
`ReadyForQuery`. -/
theorem execute_conn (l : Listener τ σ) (st : State σ) (query : ConvertedQuery)
    (h : st.conn.Reliable) :
    ∃ fs, (l.execute st query).2.conn = st.conn.emit fs ∧ ∀ f ∈ fs, f.isReadyForQuery = false := by
  have hc := run_executeCallback_conn l query.String
    (l.handlerRun st.mysqlConn st.engine query) h 0
  unfold Listener.execute
  rw [comQuery_eq]
  cases hr : (l.handlerRun st.mysqlConn st.engine query).run
      (l.executeCallback query.String) st.conn 0 with
  | panicked v conn g =>
    rw [hr] at hc
    exact ⟨_, hc, noReadyForQuery_executeFrames _⟩
  | returned err s conn g =>
    rw [hr] at hc
    simp only [RunResult.conn] at hc
    cases err with
    | some e =>
      refine ⟨executeFrames (l.handlerRun st.mysqlConn st.engine query).delivered, ?_,
        noReadyForQuery_executeFrames _⟩
      by_cases hp : strings.HasPrefix e "syntax error at position" = true <;> simp [hp, hc]
    | none =>
      subst hc
      refine ⟨executeFrames (l.handlerRun st.mysqlConn st.engine query).delivered ++
        [.CommandComplete query.String g], ?_, ?_⟩
      · simp [send_reliable (reliable_emit h _), emit_emit]
      · intro f hf
        rcases List.mem_append.1 hf with hf | hf
        · exact noReadyForQuery_executeFrames _ f hf
        · simp at hf; subst hf; rfl

/-- What `describe` does on a reliable connection. -/
theorem describe_reliable (l : Listener τ σ) (st : State σ) (statement : ConvertedQuery)
    (h : st.conn.Reliable) :
    l.describe st statement =
      if l.ImplicitlyCommits statement.String then
        (.returned (some "We do not yet support the Describe message for the given statement"),
          { st with conn := st.conn.emit [.ParameterDescription []] })
      else
        match (l.Handler.ComQuery st.mysqlConn st.engine "START TRANSACTION;").outcome with
        | (some err, s) =>
          (.returned (some err),
            { st with conn := st.conn.emit [.ParameterDescription []], engine := s,
                      calls := st.calls ++ [.ComQuery "START TRANSACTION;"] })
        | (none, s) =>
          (.returned (l.handlerRun st.mysqlConn s statement).outcome.1,
            { st with
                conn := st.conn.emit (.ParameterDescription [] ::
                  describeFrames (l.handlerRun st.mysqlConn s statement).delivered),
                engine := (l.Handler.ComQuery st.mysqlConn
                  (l.handlerRun st.mysqlConn s statement).outcome.2 "ROLLBACK;").outcome.2,
                calls := st.calls ++ [.ComQuery "START TRANSACTION;", handlerCall statement,
                  .ComQuery "ROLLBACK;"] }) := by
  unfold Listener.describe
  simp only [send_reliable h]
  by_cases hi : l.ImplicitlyCommits statement.String = true
  · simp [hi]
  · simp only [hi, comQuery_nilCallback, comQuery_eq]
    rcases ho : (l.Handler.ComQuery st.mysqlConn st.engine "START TRANSACTION;").outcome with ⟨e, s⟩
    cases e with
    | some err => simp
    | none =>
      simp [run_describeCallback _ (reliable_emit h _), emit_emit, comQuery_nilCallback]

end Methods

section Batch

variable {τ σ γ : Type}

theorem endOfMessagesBreak_reliable (st : State σ) (h : st.conn.Reliable) (err : Option String) :
    endOfMessagesBreak st err = (.brk, { st with conn := st.conn.emit (endFrames err) }) := by
  simp [endOfMessagesBreak, endOfMessages_reliable h]

theorem endOfMessagesNext_reliable (st : State σ) (h : st.conn.Reliable) (err : Option String) :
    endOfMessagesNext st err = (.next, { st with conn := st.conn.emit (endFrames err) }) := by
  simp [endOfMessagesNext, endOfMessages_reliable h]

/-- The three ways `handledPSQLCommands` can go. -/
theorem handledPSQLCommands_cases (l : Listener τ σ) (st : State σ) (statement : String) :
    (∃ query, l.handledPSQLCommands st statement = (true, l.execute st query)) ∨
    l.handledPSQLCommands st statement =
      (true, .returned (some "PSQL command not yet supported"), st) ∨
    l.handledPSQLCommands st statement = (false, .returned none, st) := by
  unfold Listener.handledPSQLCommands
  simp only
  split_ifs
  all_goals first
    | exact Or.inl ⟨_, rfl⟩
    | exact Or.inr (Or.inl rfl)
    | exact Or.inr (Or.inr rfl)

theorem ended_endFrames (fs : List BackendMessage) (err : Option String)
    (hq : ∀ f ∈ fs, f.isReadyForQuery = false) : Ended (fs ++ endFrames err) := by
  cases err with
  | none => exact ⟨fs, rfl, hq⟩
  | some e =>
    refine ⟨fs ++ [.ErrorResponse .Error "XX000" e ""], by simp [endFrames], ?_⟩
    intro f hf
    rcases List.mem_append.1 hf with hf | hf
    · exact hq f hf
    · simp at hf; subst hf; rfl

end Batch

section Steps

variable {τ σ γ : Type}

/-- The method `convertQuery` panics only on an empty list of statements. -/
theorem convertQuery_panicked (l : Listener τ σ) (q v : String)
    (h : l.convertQuery q = .panicked v) : l.Parse q = .ok [] := by
  unfold Listener.convertQuery at h
  split at h
  · cases h
  · rename_i s hs
    split at h
    · cases h
    · split at h
      · exact hs
      · split at h <;> cases h

theorem map_some_filterMap (delivered : List (Option Result)) (h : none ∉ delivered) :
    delivered = (delivered.filterMap id).map some := by
  induction delivered with
  | nil => rfl
  | cons d ds ih =>
    cases d with
    | none => exact absurd (List.mem_cons_self _ _) h
    | some r =>
      have := ih (fun hm => h (List.mem_cons_of_mem _ hm))
      simp only [List.filterMap_cons, id_eq, List.map_cons]
      rw [← this]

/-- On a reliable connection `execute` panics only when the handler hands a nil result to
the callback. -/
theorem execute_panicked (l : Listener τ σ) (st : State σ) (query : ConvertedQuery)
    (v : String) (h : st.conn.Reliable) (hp : (l.execute st query).1 = .panicked v) :
    none ∈ (l.handlerRun st.mysqlConn st.engine query).delivered := by
  by_contra hn
  rw [execute_reliable l st query h _ (map_some_filterMap _ hn)] at hp
  cases ho : (l.handlerRun st.mysqlConn st.engine query).outcome.1 with
  | none => rw [ho] at hp; cases hp
  | some err => rw [ho] at hp; cases hp

/-- On a reliable connection `describe` only appends frames, none of them a
`ReadyForQuery`, and does not panic. -/
theorem describe_conn (l : Listener τ σ) (st : State σ) (statement : ConvertedQuery)
    (h : st.conn.Reliable) :
    ∃ fs err, (l.describe st statement).2.conn = st.conn.emit fs ∧
      (l.describe st statement).1 = .returned err ∧ ∀ f ∈ fs, f.isReadyForQuery = false := by
  rw [describe_reliable l st statement h]
  by_cases hi : l.ImplicitlyCommits statement.String = true
  · rw [if_pos hi]
    exact ⟨[.ParameterDescription []], _, rfl, rfl, by simp [BackendMessage.isReadyForQuery]⟩
  · rw [if_neg hi]
    rcases (l.Handler.ComQuery st.mysqlConn st.engine "START TRANSACTION;").outcome with ⟨e, s⟩
    cases e with
    | some err =>
      exact ⟨[.ParameterDescription []], _, rfl, rfl, by simp [BackendMessage.isReadyForQuery]⟩
    | none =>
      refine ⟨.ParameterDescription [] ::
        describeFrames (l.handlerRun st.mysqlConn s statement).delivered, _, rfl, rfl, ?_⟩
      intro f hf
      rcases List.mem_cons.1 hf with rfl | hf
      · rfl
      · exact noReadyForQuery_describeFrames _ f hf

/-- One message of the extended-query flow on a reliable connection: the loop goes on
without a `ReadyForQuery`, or it breaks after an error with exactly one, or it panics. -/
theorem handleMessage_extended (l : Listener τ σ) (st : State σ) (m : Message)
    (h : st.conn.Reliable) (hT : m ≠ .Terminate) (hS : m.isSyncOrQuery = false) :
    ∃ fs, (l.handleMessage st m).2.conn = st.conn.emit fs ∧
      (((l.handleMessage st m).1 = .next ∧ ∀ f ∈ fs, f.isReadyForQuery = false) ∨
       ((l.handleMessage st m).1 = .brk ∧ Ended fs) ∨
       ((∃ v, (l.handleMessage st m).1 = .panicked v) ∧ l.PanicCause)) := by
  cases m with
  | Terminate => exact absurd rfl hT
  | Sync => simp [Message.isSyncOrQuery] at hS
  | Query q => simp [Message.isSyncOrQuery] at hS
  | Execute p n =>
    obtain ⟨fs, hfs, hq⟩ := execute_conn l st (st.portals.index p) h
    simp only [Listener.handleMessage]
    rcases hx : l.execute st (st.portals.index p) with ⟨r, st1⟩
    rw [hx] at hfs
    simp only at hfs
    have h1 : st1.conn.Reliable := hfs ▸ reliable_emit h fs
    rcases r with (_ | e) | v
    · exact ⟨fs, hfs, Or.inl ⟨rfl, hq⟩⟩
    · refine ⟨fs ++ endFrames (some e), ?_, Or.inr (Or.inl ⟨?_, ended_endFrames fs _ hq⟩)⟩
      · simp [endOfMessagesBreak_reliable st1 h1, hfs, emit_emit]
      · simp [endOfMessagesBreak_reliable st1 h1]
    · exact ⟨fs, hfs, Or.inr (Or.inr ⟨⟨v, rfl⟩, Or.inr ⟨_, _, _,
        execute_panicked l st _ v h (by rw [hx])⟩⟩)⟩
  | Parse name q oids =>
    simp only [Listener.handleMessage]
    cases hc : l.convertQuery q with
    | panicked v =>
      exact ⟨[], by simp [emit_nil],
        Or.inr (Or.inr ⟨⟨v, rfl⟩, Or.inl ⟨q, convertQuery_panicked l q v hc⟩⟩)⟩
    | error e =>
      refine ⟨endFrames (some e), ?_, Or.inr (Or.inl ⟨?_, ?_⟩)⟩
      · simp [endOfMessagesBreak_reliable st h]
      · simp [endOfMessagesBreak_reliable st h]
      · simpa using ended_endFrames [] (some e) (by simp)
    | ok query =>
      refine ⟨[.ParseComplete], ?_, Or.inl ⟨?_, ?_⟩⟩
      · simp [send_reliable h]
      · simp [send_reliable h]
      · simp [BackendMessage.isReadyForQuery]
  | Describe isPrepared target =>
    simp only [Listener.handleMessage]
    generalize (if isPrepared = true then st.preparedStatements.index target
      else st.portals.index target) = statement
    obtain ⟨fs, err, hfs, hr, hq⟩ := describe_conn l st statement h
    rcases hx : l.describe st statement with ⟨r, st1⟩
    rw [hx] at hfs hr
    simp only at hfs hr
    subst hr
    have h1 : st1.conn.Reliable := hfs ▸ reliable_emit h fs
    cases err with
    | none => exact ⟨fs, hfs, Or.inl ⟨rfl, hq⟩⟩
    | some e =>
      refine ⟨fs ++ endFrames (some e), ?_, Or.inr (Or.inl ⟨?_, ended_endFrames fs _ hq⟩)⟩
      · simp [endOfMessagesBreak_reliable st1 h1, hfs, emit_emit]
      · simp [endOfMessagesBreak_reliable st1 h1]
  | Bind d s ps =>
    refine ⟨[.BindComplete], ?_, Or.inl ⟨?_, ?_⟩⟩
    · simp [Listener.handleMessage, send_reliable h]
    · simp [Listener.handleMessage, send_reliable h]
    · simp [BackendMessage.isReadyForQuery]
  | Other name =>
    refine ⟨endFrames (some ("Unexpected message \"" ++ name ++ "\"")), ?_,
      Or.inr (Or.inl ⟨?_, ?_⟩)⟩
    · simp [Listener.handleMessage, endOfMessagesBreak_reliable st h]
    · simp [Listener.handleMessage, endOfMessagesBreak_reliable st h]
    · simpa using ended_endFrames [] (some ("Unexpected message \"" ++ name ++ "\"")) (by simp)

end Steps

section BatchBoundary

variable {τ σ γ : Type}

/-- A `Sync` or a simple `Query` on a reliable connection ends with exactly one
`ReadyForQuery`, unless it panics, or it is a `Query` that deallocates a statement that is
not prepared, which leaves the loop with nothing sent. -/
theorem handleMessage_last (l : Listener τ σ) (st : State σ) (m : Message)
    (h : st.conn.Reliable) (hS : m.isSyncOrQuery = true) :
    ∃ fs, (l.handleMessage st m).2.conn = st.conn.emit fs ∧
      ((((l.handleMessage st m).1 = .next ∨ (l.handleMessage st m).1 = .brk) ∧ Ended fs) ∨
       ((∃ v, (l.handleMessage st m).1 = .panicked v) ∧ l.PanicCause) ∨
       ((l.handleMessage st m).1 = .brk ∧
         ∃ q query Name, m = .Query q ∧ l.convertQuery q = .ok query ∧
           query.AST = some (.Deallocate Name) ∧ st.preparedStatements Name = none)) := by
  cases m with
  | Terminate => simp [Message.isSyncOrQuery] at hS
  | Execute p n => simp [Message.isSyncOrQuery] at hS
  | Parse name q oids => simp [Message.isSyncOrQuery] at hS
  | Describe b t => simp [Message.isSyncOrQuery] at hS
  | Bind d s ps => simp [Message.isSyncOrQuery] at hS
  | Other name => simp [Message.isSyncOrQuery] at hS
  | Sync =>
    refine ⟨endFrames none, ?_, Or.inl ⟨Or.inl ?_, ?_⟩⟩
    · simp [Listener.handleMessage, endOfMessagesNext_reliable st h]
    · simp [Listener.handleMessage, endOfMessagesNext_reliable st h]
    · simpa using ended_endFrames [] none (by simp)
  | Query q =>
    have hexec : ∀ query : ConvertedQuery,
        ∃ fs, ((match l.execute st query with
            | (Ret.panicked v, st2) => (Flow.panicked v, st2)
            | (Ret.returned err, st2) => endOfMessagesNext st2 err).2.conn = st.conn.emit fs) ∧
          ((((match l.execute st query with
            | (Ret.panicked v, st2) => (Flow.panicked v, st2)
            | (Ret.returned err, st2) => endOfMessagesNext st2 err).1 = .next ∨
            (match l.execute st query with
            | (Ret.panicked v, st2) => (Flow.panicked v, st2)
            | (Ret.returned err, st2) => endOfMessagesNext st2 err).1 = .brk) ∧ Ended fs) ∨
          ((∃ v, (match l.execute st query with
            | (Ret.panicked v, st2) => (Flow.panicked v, st2)
            | (Ret.returned err, st2) => endOfMessagesNext st2 err).1 = .panicked v) ∧
            l.PanicCause)) := by
      intro query
      obtain ⟨fs, hfs, hq⟩ := execute_conn l st query h
      rcases hx : l.execute st query with ⟨r, st1⟩
      rw [hx] at hfs
      simp only at hfs
      have h1 : st1.conn.Reliable := hfs ▸ reliable_emit h fs
      rcases r with err | v
      · refine ⟨fs ++ endFrames err, ?_, Or.inl ⟨Or.inl ?_, ended_endFrames fs _ hq⟩⟩
        · simp [endOfMessagesNext_reliable st1 h1, hfs, emit_emit]
        · simp [endOfMessagesNext_reliable st1 h1]
      · exact ⟨fs, hfs, Or.inr ⟨⟨v, rfl⟩, Or.inr ⟨_, _, _,
          execute_panicked l st query v h (by rw [hx])⟩⟩⟩
    have hlift : ∀ query : ConvertedQuery, ∀ r : Flow × State σ,
        (∃ fs, r.2.conn = st.conn.emit fs ∧
          (((r.1 = .next ∨ r.1 = .brk) ∧ Ended fs) ∨
            ((∃ v, r.1 = .panicked v) ∧ l.PanicCause))) →
        ∃ fs, r.2.conn = st.conn.emit fs ∧
          (((r.1 = .next ∨ r.1 = .brk) ∧ Ended fs) ∨
            ((∃ v, r.1 = .panicked v) ∧ l.PanicCause) ∨
            (r.1 = .brk ∧
              ∃ q1 query Name, Message.Query q = .Query q1 ∧ l.convertQuery q1 = .ok query ∧
                query.AST = some (.Deallocate Name) ∧ st.preparedStatements Name = none)) := by
      rintro _ r ⟨fs, hfs, hc⟩
      rcases hc with hc | hc
      · exact ⟨fs, hfs, Or.inl hc⟩
      · exact ⟨fs, hfs, Or.inr (Or.inl hc)⟩
    simp only [Listener.handleMessage]
    rcases handledPSQLCommands_cases l st q with ⟨query, hh⟩ | hh | hh
    · rw [hh]
      refine hlift query _ ?_
      rcases hx : l.execute st query with ⟨r, st1⟩
      have := hexec query
      rw [hx] at this
      rcases r with err | v
      · simpa using this
      · simpa using this
    · rw [hh]
      refine ⟨endFrames (some "PSQL command not yet supported"), ?_, Or.inl ⟨Or.inl ?_, ?_⟩⟩
      · simp [endOfMessagesNext_reliable st h]
      · simp [endOfMessagesNext_reliable st h]
      · simpa using ended_endFrames [] (some "PSQL command not yet supported") (by simp)
    · rw [hh]
      simp only [Bool.not_false, Option.isNone_none, Bool.and_self, if_true]
      cases hc : l.convertQuery q with
      | panicked v =>
        exact ⟨[], by simp [emit_nil],
          Or.inr (Or.inl ⟨⟨v, rfl⟩, Or.inl ⟨q, convertQuery_panicked l q v hc⟩⟩)⟩
      | error e =>
        refine ⟨endFrames (some e), ?_, Or.inl ⟨Or.inr ?_, ?_⟩⟩
        · simp [endOfMessagesBreak_reliable st h]
        · simp [endOfMessagesBreak_reliable st h]
        · simpa using ended_endFrames [] (some e) (by simp)
      | ok query =>
        simp only
        rcases hast : query.AST with _ | (Name | node)
        · exact hlift query _ (by simpa using hexec query)
        · simp only
          cases hp : st.preparedStatements Name with
          | none =>
            exact ⟨[], by simp [emit_nil],
              Or.inr (Or.inr ⟨rfl, q, query, Name, rfl, hc, hast, hp⟩)⟩
          | some prepared =>
            refine ⟨[.CommandComplete query.String 0] ++ endFrames none, ?_,
              Or.inl ⟨Or.inl ?_, ended_endFrames _ none ?_⟩⟩
            · simp [send_reliable h, endOfMessagesNext_reliable, reliable_emit_iff, h, emit_emit]
            · simp [send_reliable h, endOfMessagesNext_reliable, reliable_emit_iff, h]
            · simp [BackendMessage.isReadyForQuery]
        · exact hlift query _ (by simpa using hexec query)

theorem readMessages_singleton (l : Listener τ σ) (st : State σ) (m : Message) :
    l.readMessages st [m] = l.handleMessage st m := by
  simp only [Listener.readMessages]
  rcases l.handleMessage st m with ⟨f, st1⟩
  cases f <;> rfl

theorem exactlyOne_of_ended {fs : List BackendMessage} (h : Ended fs) :
    ExactlyOneReadyForQueryLast fs := by
  obtain ⟨fs0, rfl, hq⟩ := h
  refine ⟨?_, by simp⟩
  have h0 : List.countP BackendMessage.isReadyForQuery fs0 = 0 := by
    rw [List.countP_eq_zero]
    intro f hf
    simp [hq f hf]
  simp [List.countP_append, h0, BackendMessage.isReadyForQuery]

/-- The batch lemma behind the batch-boundary theorem: on a reliable connection, a batch of
extended-query messages closed by a `Sync` or a simple `Query` is answered with exactly one
`ReadyForQuery`, at the end, and the loop goes on; or its handling panics, for one of the
two causes; or the closing `Query` deallocates a statement that is not prepared. -/
theorem readMessages_ended (l : Listener τ σ) (pre : List Message) (last : Message) :
    ∀ st : State σ, st.conn.Reliable →
    (∀ m ∈ pre, m ≠ .Terminate ∧ m.isSyncOrQuery = false) →
    last.isSyncOrQuery = true →
    (((l.readMessages st (pre ++ [last])).1 = .next ∨
        (l.readMessages st (pre ++ [last])).1 = .brk) ∧
      ∃ fs, (l.readMessages st (pre ++ [last])).2.conn = st.conn.emit fs ∧ Ended fs) ∨
    ((∃ v, (l.readMessages st (pre ++ [last])).1 = .panicked v) ∧ l.PanicCause) ∨
    ((l.readMessages st (pre ++ [last])).1 = .brk ∧
      ∃ q query Name, last = .Query q ∧ l.convertQuery q = .ok query ∧
        query.AST = some (.Deallocate Name) ∧
        (l.readMessages st pre).2.preparedStatements Name = none) := by
  induction pre with
  | nil =>
    intro st h _ hlast
    simp only [List.nil_append, readMessages_singleton]
    have e : l.readMessages st [] = (.next, st) := rfl
    rw [e]
    obtain ⟨fs, hfs, hcase⟩ := handleMessage_last l st last h hlast
    rcases hcase with ⟨hflow, hend⟩ | hp | hd
    · exact Or.inl ⟨hflow, fs, hfs, hend⟩
    · exact Or.inr (Or.inl hp)
    · exact Or.inr (Or.inr hd)
  | cons m pre ih =>
    intro st h hpre hlast
    have hm := hpre m (List.mem_cons_self _ _)
    obtain ⟨fs, hfs, hcase⟩ := handleMessage_extended l st m h hm.1 hm.2
    simp only [List.cons_append, Listener.readMessages]
    rcases hx : l.handleMessage st m with ⟨f, st1⟩
    rw [hx] at hfs hcase
    simp only at hfs hcase ⊢
    rcases hcase with ⟨rfl, hq⟩ | ⟨rfl, hend⟩ | ⟨⟨v, rfl⟩, hcause⟩
    · have h1 : st1.conn.Reliable := hfs ▸ reliable_emit h fs
      simp only [List.append_eq]
      rcases ih st1 h1 (fun m hm => hpre m (List.mem_cons_of_mem _ hm)) hlast with
        ⟨hflow, fs1, hfs1, fs0, rfl, hq0⟩ | hp | hd
      · refine Or.inl ⟨hflow, fs ++ (fs0 ++ [.ReadyForQuery .Idle]), ?_, fs ++ fs0, by simp, ?_⟩
        · rw [hfs1, hfs, emit_emit]
        · intro f hf
          rcases List.mem_append.1 hf with hf | hf
          · exact hq f hf
          · exact hq0 f hf
      · exact Or.inr (Or.inl hp)
      · exact Or.inr (Or.inr hd)
    · exact Or.inl ⟨Or.inr rfl, fs, hfs, hend⟩
    · exact Or.inr (Or.inl ⟨⟨v, rfl⟩, hcause⟩)

/-- The handling of such a batch does not panic when the parser never returns an empty list
of statements and the handler never hands a nil result to the callback. -/
theorem readMessages_no_panic (l : Listener τ σ) (pre : List Message) (last : Message)
    (st : State σ) (hrel : st.conn.Reliable)
    (hpre : ∀ m ∈ pre, m ≠ .Terminate ∧ m.isSyncOrQuery = false)
    (hlast : last.isSyncOrQuery = true) (hcause : ¬ l.PanicCause) (v : String) :
    (l.readMessages st (pre ++ [last])).1 ≠ .panicked v := by
  intro hv
  rcases readMessages_ended l pre last st hrel hpre hlast with ⟨hflow, -⟩ | ⟨-, hc⟩ | ⟨hb, -⟩
  · rw [hv] at hflow
    rcases hflow with hflow | hflow <;> cases hflow
  · exact hcause hc
  · rw [hv] at hb
    cases hb

end BatchBoundary

section Claims

variable {τ σ : Type}

/-- C1 (as stated), refuted on the example listener, on a reliable connection and batches
without `Terminate`: the batch `Parse` alone is answered without any `ReadyForQuery`; the
batch of two simple queries is answered with two; and the batch `Query "DEALLOCATE missing"`
(nothing prepared) is answered with no frame at all. -/
theorem C1_counterexample :
    Example.ready.conn.Reliable ∧ Example.ready.conn.sent = [] ∧
    (Message.Terminate ∉ [Message.Parse "s1" "SELECT 1" []] ∧
      (Example.listener.readMessages Example.ready [.Parse "s1" "SELECT 1" []]).2.conn.sent =
        [.ParseComplete] ∧
      ¬ ExactlyOneReadyForQueryLast
        (Example.listener.readMessages Example.ready [.Parse "s1" "SELECT 1" []]).2.conn.sent) ∧
    (Message.Terminate ∉ [Message.Query "SELECT 1", Message.Query "SELECT 1"] ∧
      ((Example.listener.readMessages Example.ready
        [.Query "SELECT 1", .Query "SELECT 1"]).2.conn.sent.countP
          BackendMessage.isReadyForQuery = 2) ∧
      ¬ ExactlyOneReadyForQueryLast
        (Example.listener.readMessages Example.ready
          [.Query "SELECT 1", .Query "SELECT 1"]).2.conn.sent) ∧
    (Message.Terminate ∉ [Message.Query "DEALLOCATE missing"] ∧
      (Example.listener.readMessages Example.ready [.Query "DEALLOCATE missing"]).2.conn.sent =
        [] ∧
      ¬ ExactlyOneReadyForQueryLast
        (Example.listener.readMessages Example.ready
          [.Query "DEALLOCATE missing"]).2.conn.sent) :=
  ⟨rfl, rfl, by decide, by decide, by decide⟩

/-- C1 (amended): on a connection on which all sends succeed, for a received batch whose
last message is a `Sync` or a simple `Query` and none of whose earlier messages is a
`Terminate`, a `Sync` or a `Query`, for every translator and handler: if the handling of the
batch does not panic, and the final `Query` is not a `DEALLOCATE` of a name that is not
prepared at that point, then the loop goes on to the next batch and the frames emitted for
the batch contain exactly one `ReadyForQuery`, which is the last of them. (The handling
does not panic when the parser never returns an empty list of statements and the handler
never hands a nil result to the callback: `readMessages_no_panic`.) -/
theorem C1_batch_boundary (l : Listener τ σ) (st : State σ) (pre : List Message)
    (last : Message) (hrel : st.conn.Reliable)
    (hpre : ∀ m ∈ pre, m ≠ .Terminate ∧ m.isSyncOrQuery = false)
    (hlast : last.isSyncOrQuery = true)
    (hpanic : ∀ v, (l.readMessages st (pre ++ [last])).1 ≠ .panicked v)
    (hdealloc : ∀ q query Name, last = .Query q → l.convertQuery q = .ok query →
      query.AST = some (.Deallocate Name) →
      (l.readMessages st pre).2.preparedStatements Name ≠ none) :
    ((l.readMessages st (pre ++ [last])).1 = .next ∨
      (l.readMessages st (pre ++ [last])).1 = .brk) ∧
    ∃ frames, (l.readMessages st (pre ++ [last])).2.conn.sent = st.conn.sent ++ frames ∧
      ExactlyOneReadyForQueryLast frames := by
  rcases readMessages_ended l pre last st hrel hpre hlast with
    ⟨hflow, fs, hfs, hend⟩ | ⟨⟨v, hv⟩, -⟩ | ⟨-, q, query, Name, hq, hconv, hast, hnone⟩
  · exact ⟨hflow, fs, by rw [hfs, emit_sent], exactlyOne_of_ended hend⟩
  · exact absurd hv (hpanic v)
  · exact absurd hnone (hdealloc q query Name hq hconv hast)

/-- C1, witness: the example listener on the batch `Parse s1`, `Bind`, `Execute`, then
`Query "DEALLOCATE s1"`. -/
theorem C1_batch_boundary_witness :
    ((Example.listener.readMessages Example.ready
        ([.Parse "s1" "SELECT 1" [], .Bind "" "s1" [], .Execute "" 0] ++
          [.Query "DEALLOCATE s1"])).1 = .next ∨
      (Example.listener.readMessages Example.ready
        ([.Parse "s1" "SELECT 1" [], .Bind "" "s1" [], .Execute "" 0] ++
          [.Query "DEALLOCATE s1"])).1 = .brk) ∧
    ∃ frames, (Example.listener.readMessages Example.ready
        ([.Parse "s1" "SELECT 1" [], .Bind "" "s1" [], .Execute "" 0] ++
          [.Query "DEALLOCATE s1"])).2.conn.sent = Example.ready.conn.sent ++ frames ∧
      ExactlyOneReadyForQueryLast frames :=
  C1_batch_boundary Example.listener Example.ready
    [.Parse "s1" "SELECT 1" [], .Bind "" "s1" [], .Execute "" 0] (.Query "DEALLOCATE s1") rfl
    (by decide) rfl
    (fun v hv => by
      rw [show (Example.listener.readMessages Example.ready
        ([.Parse "s1" "SELECT 1" [], .Bind "" "s1" [], .Execute "" 0] ++
          [.Query "DEALLOCATE s1"])).1 = Flow.next from by decide] at hv
      cases hv)
    (fun q query Name hq hc ha => by
      cases hq
      rw [show Example.listener.convertQuery "DEALLOCATE s1" =
        .ok { AST := some (.Deallocate "s1"), String := "DEALLOCATE s1" } from by decide] at hc
      cases hc
      cases ha
      decide)

end Claims

section Claims2

variable {τ σ : Type}

/-- A query that `convertQuery` returns with a parsed statement keeps its text. -/
theorem convertQuery_string (l : Listener τ σ) (q : String) (query : ConvertedQuery)
    (parsed : sqlparser.Statement) (hc : l.convertQuery q = .ok query)
    (ha : query.AST = some parsed) : query.String = q := by
  unfold Listener.convertQuery at hc
  split at hc
  · cases hc
  · split at hc
    · cases hc
    · split at hc
      · cases hc
      · split at hc
        · cases hc
        · cases hc; cases ha
        · cases hc; rfl

/-- C2 (the code at the claim's input): a simple `Query` that is not a meta-query and
translates to a `Deallocate` of a name that is not in the prepared-statement table leaves
the loop by `break ReadMessages` with the state as it was: no `ErrorResponse`, no
`ReadyForQuery`, no frame at all is sent, and the handler is not called. -/
theorem C2_deallocate_unknown_sends_nothing (l : Listener τ σ) (st : State σ) (q : String)
    (query : ConvertedQuery) (Name : String)
    (hmeta : (l.handledPSQLCommands st q).1 = false)
    (hconv : l.convertQuery q = .ok query)
    (hast : query.AST = some (.Deallocate Name))
    (hunknown : st.preparedStatements Name = none) :
    l.handleMessage st (.Query q) = (.brk, st) := by
  have hh : l.handledPSQLCommands st q = (false, .returned none, st) := by
    rcases handledPSQLCommands_cases l st q with ⟨query, hh⟩ | hh | hh
    · rw [hh] at hmeta; cases hmeta
    · rw [hh] at hmeta; cases hmeta
    · exact hh
  simp [Listener.handleMessage, hh, hconv, hast, hunknown]

/-- C2, at the failing input: `Query "DEALLOCATE missing"` with nothing prepared, on the
example listener with all sends succeeding. -/
theorem C2_deallocate_unknown_witness :
    Example.listener.handleMessage Example.ready (.Query "DEALLOCATE missing") =
        (.brk, Example.ready) ∧
      Example.ready.conn.sent = [] :=
  ⟨C2_deallocate_unknown_sends_nothing Example.listener Example.ready "DEALLOCATE missing"
    { AST := some (.Deallocate "missing"), String := "DEALLOCATE missing" } "missing"
    (by decide) (by decide) rfl rfl, rfl⟩

/-- C3: a simple `Query` that is not a meta-query and translates to a `Deallocate` of a
name present in the prepared-statement table, with all sends succeeding: the loop goes on;
exactly `CommandComplete` with the statement text and `Rows = 0`, then
`ReadyForQuery(Idle)`, are sent; the entry of that name is gone and every other entry is
as before; the handler is not called and the engine and the portals are untouched. -/
theorem C3_deallocate_known (l : Listener τ σ) (st : State σ) (q : String)
    (query : ConvertedQuery) (Name : String) (prepared : ConvertedQuery)
    (hrel : st.conn.Reliable)
    (hmeta : (l.handledPSQLCommands st q).1 = false)
    (hconv : l.convertQuery q = .ok query)
    (hast : query.AST = some (.Deallocate Name))
    (hknown : st.preparedStatements Name = some prepared) :
    (l.handleMessage st (.Query q)).1 = .next ∧
    (l.handleMessage st (.Query q)).2.conn.sent =
      st.conn.sent ++ [.CommandComplete q 0, .ReadyForQuery .Idle] ∧
    (l.handleMessage st (.Query q)).2.preparedStatements Name = none ∧
    (∀ other, other ≠ Name →
      (l.handleMessage st (.Query q)).2.preparedStatements other =
        st.preparedStatements other) ∧
    (l.handleMessage st (.Query q)).2.calls = st.calls ∧
    (l.handleMessage st (.Query q)).2.engine = st.engine ∧
    (l.handleMessage st (.Query q)).2.portals = st.portals := by
  have hh : l.handledPSQLCommands st q = (false, .returned none, st) := by
    rcases handledPSQLCommands_cases l st q with ⟨query, hh⟩ | hh | hh
    · rw [hh] at hmeta; cases hmeta
    · rw [hh] at hmeta; cases hmeta
    · exact hh
  have hs : query.String = q := convertQuery_string l q query _ hconv hast
  have hstep : l.handleMessage st (.Query q) =
      (.next, { st with preparedStatements := st.preparedStatements.delete Name,
                        conn := st.conn.emit [.CommandComplete q 0, .ReadyForQuery .Idle] }) := by
    simp [Listener.handleMessage, hh, hconv, hast, hknown, send_reliable hrel,
      endOfMessagesNext_reliable, reliable_emit_iff, hrel, emit_emit, endFrames, hs]
  rw [hstep]
  refine ⟨rfl, rfl, ?_, ?_, rfl, rfl, rfl⟩
  · simp [StatementTable.delete]
  · intro other ho
    simp [StatementTable.delete, ho]

/-- C3, witness: `s1` is prepared by a `Parse`, then deallocated. -/
theorem C3_deallocate_known_witness :
    (Example.listener.handleMessage
      (Example.listener.handleMessage Example.ready (.Parse "s1" "SELECT 1" [])).2
      (.Query "DEALLOCATE s1")).2.conn.sent =
    (Example.listener.handleMessage Example.ready (.Parse "s1" "SELECT 1" [])).2.conn.sent ++
      [.CommandComplete "DEALLOCATE s1" 0, .ReadyForQuery .Idle] :=
  (C3_deallocate_known Example.listener
    (Example.listener.handleMessage Example.ready (.Parse "s1" "SELECT 1" [])).2
    "DEALLOCATE s1" { AST := some (.Deallocate "s1"), String := "DEALLOCATE s1" } "s1"
    { AST := some (.Other 0), String := "SELECT 1" } rfl (by decide) (by decide) rfl
    (by decide)).2.1

/-- C4 (the code at failing inputs), on the example listener with all sends succeeding.
In the batch `Query "SELECT * FROM missing"`, `Query "SELECT 1"` the handler fails on the
first query; `ErrorResponse` and `ReadyForQuery` are sent for it, and then the second query
of the same batch is processed all the same: it reaches the handler and its rows are sent.
In the batch `Query "DEALLOCATE missing"`, `Query "SELECT 1"` the first query produces an
error and the loop is left, but neither an `ErrorResponse` nor a `ReadyForQuery` is sent. -/
theorem C4_query_error_does_not_abort :
    (Example.listener.readMessages Example.ready
        [.Query "SELECT * FROM missing", .Query "SELECT 1"]).2.conn.sent =
      [.ErrorResponse .Error "XX000" "table not found: missing" "", .ReadyForQuery .Idle,
        .RowDescription ["?column?"], .DataRow ["1"], .CommandComplete "SELECT 1" 1,
        .ReadyForQuery .Idle] ∧
    (Example.listener.readMessages Example.ready
        [.Query "SELECT * FROM missing", .Query "SELECT 1"]).2.calls =
      [.ComParsedQuery "SELECT * FROM missing" (.Other 0),
        .ComParsedQuery "SELECT 1" (.Other 0)] ∧
    (Example.listener.readMessages Example.ready
        [.Query "DEALLOCATE missing", .Query "SELECT 1"]).1 = .brk ∧
    (Example.listener.readMessages Example.ready
        [.Query "DEALLOCATE missing", .Query "SELECT 1"]).2.conn.sent = [] := by
  decide

end Claims2

section Claims3

variable {τ σ : Type}

/-- C5 (as stated), refuted on the example listener, whose handler answers `SELECT 1` with
one result of one field and one row: the frames sent for the batch are eight, not the six
of the claim; `Describe` and `Execute` each send a `RowDescription`, and `Execute` sends
the `DataRow`. -/
theorem C5_counterexample :
    (Example.listener.readMessages Example.ready
        [.Parse "s1" "SELECT 1" [], .Bind "" "s1" [], .Describe false "", .Execute "" 0,
          .Sync]).2.conn.sent =
      [.ParseComplete, .BindComplete, .ParameterDescription [],
        .RowDescription ["?column?"], .RowDescription ["?column?"], .DataRow ["1"],
        .CommandComplete "SELECT 1" 1, .ReadyForQuery .Idle] ∧
    (Example.listener.readMessages Example.ready
        [.Parse "s1" "SELECT 1" [], .Bind "" "s1" [], .Describe false "", .Execute "" 0,
          .Sync]).2.conn.sent ≠
      [.ParseComplete, .BindComplete, .ParameterDescription [],
        .RowDescription ["?column?"], .CommandComplete "SELECT 1" 1, .ReadyForQuery .Idle] := by
  decide

/-- C5 (amended): with all sends succeeding, a translator that accepts `SELECT 1`, a
statement that does not implicitly commit, and a handler that starts a transaction without
error and answers the statement, without error, with one result `res` of one field and one
row: for the batch `Parse s1`, `Bind`, `Describe` (portal), `Execute`, `Sync` the frames
sent are exactly `ParseComplete`, `BindComplete`, `ParameterDescription` without object
ids, `RowDescription` (from `Describe`), `RowDescription` and `DataRow` (from `Execute`),
`CommandComplete`, `ReadyForQuery(Idle)`. -/
theorem C5_extended_query_frames (l : Listener τ σ) (st : State σ) (query : ConvertedQuery)
    (res : Result) (field : String) (row : List String) (oids : List Int)
    (params : List String) (rowMax : Int)
    (hrel : st.conn.Reliable)
    (hconv : l.convertQuery "SELECT 1" = .ok query)
    (hcommit : l.ImplicitlyCommits query.String = false)
    (hstart : ∀ s, (l.Handler.ComQuery st.mysqlConn s "START TRANSACTION;").outcome.1 = none)
    (hdelivered : ∀ s, (l.handlerRun st.mysqlConn s query).delivered = [some res])
    (hok : ∀ s, (l.handlerRun st.mysqlConn s query).outcome.1 = none)
    (hfields : res.Fields = [field]) (hrows : res.Rows = [row]) :
    (l.readMessages st
        [.Parse "s1" "SELECT 1" oids, .Bind "" "s1" params, .Describe false "",
          .Execute "" rowMax, .Sync]).1 = .next ∧
    (l.readMessages st
        [.Parse "s1" "SELECT 1" oids, .Bind "" "s1" params, .Describe false "",
          .Execute "" rowMax, .Sync]).2.conn.sent =
      st.conn.sent ++
        [.ParseComplete, .BindComplete, .ParameterDescription [], .RowDescription [field],
          .RowDescription [field], .DataRow row,
          .CommandComplete query.String
            (if l.IsIUD query.String then int32 res.RowsAffected else 1),
          .ReadyForQuery .Idle] := by
  have hone : l.rowsAfter query.String 0 [res] =
      if l.IsIUD query.String then int32 res.RowsAffected else 1 := by
    by_cases hi : l.IsIUD query.String = true <;> simp [Listener.rowsAfter, hi, hrows, int32]
  have hdescribe : ∀ st2 : State σ, st2.conn.Reliable → st2.mysqlConn = st.mysqlConn →
      ∃ st3 : State σ, l.describe st2 query = (.returned none, st3) ∧
        st3.conn = st2.conn.emit [.ParameterDescription [], .RowDescription [field]] ∧
        st3.mysqlConn = st.mysqlConn ∧ st3.portals = st2.portals := by
    intro st2 h2 hm
    rw [describe_reliable l st2 query h2, hm]
    rcases ho : (l.Handler.ComQuery st.mysqlConn st2.engine "START TRANSACTION;").outcome
      with ⟨e, s⟩
    have he : e = none := by simpa [ho] using hstart st2.engine
    subst he
    simp only [hcommit, Bool.false_eq_true, if_false, hok s, hdelivered s]
    exact ⟨_, rfl, by simp [describeFrames, hfields], rfl, rfl⟩
  have hexecute : ∀ st3 : State σ, st3.conn.Reliable → st3.mysqlConn = st.mysqlConn →
      ∃ st4 : State σ, l.execute st3 query = (.returned none, st4) ∧
        st4.conn = st3.conn.emit [.RowDescription [field], .DataRow row,
          .CommandComplete query.String
            (if l.IsIUD query.String then int32 res.RowsAffected else 1)] := by
    intro st3 h3 hm
    rw [execute_reliable l st3 query h3 [res] (by rw [hm]; simpa using hdelivered st3.engine),
      hm, hok st3.engine]
    exact ⟨_, rfl, by simp [resultFrames, hfields, hrows, hone]⟩
  have hparse : l.handleMessage st (.Parse "s1" "SELECT 1" oids) =
      (.next, { st with preparedStatements := st.preparedStatements.set "s1" query,
                        conn := st.conn.emit [.ParseComplete] }) := by
    simp [Listener.handleMessage, hconv, send_reliable hrel]
  have hbind : l.handleMessage
      { st with preparedStatements := st.preparedStatements.set "s1" query,
                conn := st.conn.emit [.ParseComplete] } (.Bind "" "s1" params) =
      (.next, { st with preparedStatements := st.preparedStatements.set "s1" query,
                        portals := st.portals.set "" query,
                        conn := st.conn.emit [.ParseComplete, .BindComplete] }) := by
    simp [Listener.handleMessage, send_reliable (reliable_emit hrel _), emit_emit,
      StatementTable.index, StatementTable.set]
  obtain ⟨st3, hd3, hc3, hm3, hp3⟩ := hdescribe
    { st with preparedStatements := st.preparedStatements.set "s1" query,
              portals := st.portals.set "" query,
              conn := st.conn.emit [.ParseComplete, .BindComplete] } (reliable_emit hrel _) rfl
  have h3 : st3.conn.Reliable := hc3 ▸ reliable_emit (reliable_emit hrel _) _
  obtain ⟨st4, hd4, hc4⟩ := hexecute st3 h3 hm3
  have h4 : st4.conn.Reliable := hc4 ▸ reliable_emit h3 _
  have hportal : st3.portals.index "" = query := by
    rw [hp3]; simp [StatementTable.index, StatementTable.set]
  simp only [Listener.readMessages, hparse, hbind]
  simp [Listener.handleMessage, StatementTable.index, StatementTable.set, hd3]
  simp only [StatementTable.index] at hportal
  simp [hportal, hd4, endOfMessagesNext_reliable st4 h4, hc4, hc3, emit_emit, endFrames,
    Conn.emit]

/-- C5, witness: the example listener and its `selectOne`. -/
theorem C5_extended_query_frames_witness :
    (Example.listener.readMessages Example.ready
        [.Parse "s1" "SELECT 1" [], .Bind "" "s1" [], .Describe false "", .Execute "" 0,
          .Sync]).2.conn.sent =
      Example.ready.conn.sent ++
        [.ParseComplete, .BindComplete, .ParameterDescription [],
          .RowDescription ["?column?"], .RowDescription ["?column?"], .DataRow ["1"],
          .CommandComplete "SELECT 1" 1, .ReadyForQuery .Idle] :=
  (C5_extended_query_frames Example.listener Example.ready
    { AST := some (.Other 0), String := "SELECT 1" } Example.selectOne "?column?" ["1"] [] [] 0
    rfl (by decide) rfl (fun _ => rfl) (fun _ => rfl) (fun _ => rfl) rfl rfl).2

end Claims3

section Startup

variable {τ σ : Type}

/-- What `sendClientStartupMessages` does on a reliable connection. -/
theorem sendClientStartupMessages_reliable (l : Listener τ σ) (st : State σ)
    (Parameters : List (String × String)) (h : st.conn.Reliable) :
    ∃ mysqlConn : MysqlConn,
      l.sendClientStartupMessages st Parameters =
        (none, { st with mysqlConn := mysqlConn, conn := st.conn.emit l.startupFrames }) ∧
      mysqlConn.User = startupUser Parameters ∧
      mysqlConn.ConnectionID = st.mysqlConn.ConnectionID := by
  unfold Listener.sendClientStartupMessages
  simp only [send_reliable h, send_reliable (reliable_emit h _), emit_emit]
  refine ⟨_, rfl, ?_, ?_⟩
  · unfold startupUser
    cases Parameters.lookup "user" with
    | none => rfl
    | some user => by_cases hu : user.length > 0 <;> simp [hu]
  · cases Parameters.lookup "user" with
    | none => rfl
    | some user => by_cases hu : user.length > 0 <;> simp [hu]

theorem handleConnection_startup (l : Listener τ σ) (conn : Conn) (engine : σ)
    (connectionIDCounter : Nat) (Parameters : List (String × String))
    (input : List (Received Message)) :
    l.HandleConnection conn engine connectionIDCounter
        [.messages [.StartupMessage Parameters]] input =
      match l.startup (l.accepted conn engine connectionIDCounter) Parameters input with
      | (.waiting, st1) => (.waiting, st1)
      | (e, st1) => (e, l.deferred st1) := by
  simp [Listener.HandleConnection, Listener.initialMessageLoop, Listener.accepted]

end Startup

section StartupClaims

variable {τ σ : Type}

/-- C6: a connection whose first frame is a `StartupMessage` without a `database`
parameter, or with an empty one, on which all sends succeed: the server sends exactly
`AuthenticationOk`, `ParameterStatus server_version 15.0`,
`ParameterStatus client_encoding UTF8`, `BackendKeyData` with the process id and secret key
0, and `ReadyForQuery(Idle)`, and then waits for the first batch. The handler is asked
exactly once, for `USE` with the session's user name (the `user` parameter, or `doltgres`);
the frames are the same whatever the handler does with it. -/
theorem C6_startup_frames (l : Listener τ σ) (conn : Conn) (engine : σ)
    (connectionIDCounter : Nat) (Parameters : List (String × String))
    (hrel : conn.Reliable)
    (hdb : Parameters.lookup "database" = none ∨ Parameters.lookup "database" = some "") :
    (l.HandleConnection conn engine connectionIDCounter
        [.messages [.StartupMessage Parameters]] []).1 = .waiting ∧
    (l.HandleConnection conn engine connectionIDCounter
        [.messages [.StartupMessage Parameters]] []).2.conn.sent =
      conn.sent ++ [.AuthenticationOk, .ParameterStatus "server_version" "15.0",
        .ParameterStatus "client_encoding" "UTF8", .BackendKeyData l.processID 0,
        .ReadyForQuery .Idle] ∧
    (l.HandleConnection conn engine connectionIDCounter
        [.messages [.StartupMessage Parameters]] []).2.mysqlConn.User =
      startupUser Parameters ∧
    (l.HandleConnection conn engine connectionIDCounter
        [.messages [.StartupMessage Parameters]] []).2.calls =
      [.NewConnection, .ComQuery ("USE `" ++ startupUser Parameters ++ "`;")] := by
  obtain ⟨mysqlConn, hs, hu, -⟩ := sendClientStartupMessages_reliable l
    (l.accepted conn engine connectionIDCounter) Parameters (show conn.Reliable from hrel)
  have hserve : l.startup (l.accepted conn engine connectionIDCounter) Parameters [] =
      l.serve (l.ComQuery { l.accepted conn engine connectionIDCounter with
          mysqlConn := mysqlConn, conn := conn.emit l.startupFrames }
        ("USE `" ++ mysqlConn.User ++ "`;") nilCallback ()).2 [] := by
    unfold Listener.startup
    rw [hs]
    rcases hdb with hdb | hdb <;> simp [hdb] <;> rfl
  rw [handleConnection_startup, hserve, comQuery_nilCallback]
  simp [Listener.serve, send_reliable (reliable_emit hrel _), Listener.connectionLoop,
    Listener.accepted, Listener.startupFrames, emit_emit, emit_sent, hu]

/-- C6, witness: the example listener and the startup message of user `alice`. -/
theorem C6_startup_frames_witness :
    (Example.listener.HandleConnection Example.conn 0 7
        [.messages [.StartupMessage [("user", "alice")]]] []).2.conn.sent =
      Example.conn.sent ++ [.AuthenticationOk, .ParameterStatus "server_version" "15.0",
        .ParameterStatus "client_encoding" "UTF8", .BackendKeyData 42 0,
        .ReadyForQuery .Idle] :=
  (C6_startup_frames Example.listener Example.conn 0 7 [("user", "alice")] rfl
    (Or.inl (by decide))).2.1

end StartupClaims

section DatabaseClaims

variable {τ σ : Type}

/-- C8: a connection whose first frame is a `StartupMessage` with a non-empty `database`
parameter `db`, on which all sends succeed and for which the handler's `USE` of `db`
fails with `err`: after the four startup frames the server sends `ErrorResponse` with
severity Fatal, SQLSTATE 3D000 and the message `"database "db" does not exist"` (the double
quotes included) and nothing more, so no `ReadyForQuery`; `HandleConnection` returns with
the handler's error whatever the client sends next, the handler has been told that the
connection is closed, after its only query, and the connection is closed. -/
theorem C8_unknown_database (l : Listener τ σ) (conn : Conn) (engine : σ)
    (connectionIDCounter : Nat) (Parameters : List (String × String)) (db err : String)
    (input : List (Received Message))
    (hrel : conn.Reliable)
    (hdb : Parameters.lookup "database" = some db) (hne : db.length > 0)
    (hfail : (l.Handler.ComQuery
        (l.authenticated conn engine connectionIDCounter Parameters).mysqlConn
        (l.authenticated conn engine connectionIDCounter Parameters).engine
        ("USE `" ++ db ++ "`;")).outcome.1 = some err) :
    (l.HandleConnection conn engine connectionIDCounter
        [.messages [.StartupMessage Parameters]] input).1 = .returned (some err) ∧
    (l.HandleConnection conn engine connectionIDCounter
        [.messages [.StartupMessage Parameters]] input).2.conn.sent =
      conn.sent ++ [.AuthenticationOk, .ParameterStatus "server_version" "15.0",
        .ParameterStatus "client_encoding" "UTF8", .BackendKeyData l.processID 0,
        .ErrorResponse .Fatal "3D000" ("\"database \"" ++ db ++ "\" does not exist\"")
          "InitPostgres"] ∧
    (l.HandleConnection conn engine connectionIDCounter
        [.messages [.StartupMessage Parameters]] input).2.calls =
      [.NewConnection, .ComQuery ("USE `" ++ db ++ "`;"), .ConnectionClosed] ∧
    (l.HandleConnection conn engine connectionIDCounter
        [.messages [.StartupMessage Parameters]] input).2.conn.closed = true := by
  obtain ⟨mysqlConn, hs, -, -⟩ := sendClientStartupMessages_reliable l
    (l.accepted conn engine connectionIDCounter) Parameters (show conn.Reliable from hrel)
  have ha : l.authenticated conn engine connectionIDCounter Parameters =
      { l.accepted conn engine connectionIDCounter with
          mysqlConn := mysqlConn, conn := conn.emit l.startupFrames } := by
    unfold Listener.authenticated
    rw [hs]
    rfl
  rw [ha] at hfail
  simp only at hfail
  have hstart : l.startup (l.accepted conn engine connectionIDCounter) Parameters input =
      (.returned (some err),
        { l.accepted conn engine connectionIDCounter with
            mysqlConn := mysqlConn
            engine := (l.Handler.ComQuery mysqlConn
              (l.accepted conn engine connectionIDCounter).engine
              ("USE `" ++ db ++ "`;")).outcome.2
            calls := [.NewConnection, .ComQuery ("USE `" ++ db ++ "`;")]
            conn := conn.emit (l.startupFrames ++
              [.ErrorResponse .Fatal "3D000" ("\"database \"" ++ db ++ "\" does not exist\"")
                "InitPostgres"]) }) := by
    have hrel1 : (l.accepted conn engine connectionIDCounter).conn.Reliable := hrel
    unfold Listener.startup
    rw [hs]
    simp only [hdb, hne, if_true, comQuery_nilCallback, hfail,
      send_reliable (reliable_emit hrel1 l.startupFrames), emit_emit]
    rfl
  rw [handleConnection_startup, hstart]
  simp [Listener.deferred, Listener.startupFrames, emit_sent]

/-- C8, witness: the example listener, whose engine has no database `missing`. -/
theorem C8_unknown_database_witness :
    (Example.listener.HandleConnection Example.conn 0 7
        [.messages [.StartupMessage [("user", "u"), ("database", "missing")]]]
        [.messages [.Query "SELECT 1"]]).2.conn.sent =
      Example.conn.sent ++ [.AuthenticationOk, .ParameterStatus "server_version" "15.0",
        .ParameterStatus "client_encoding" "UTF8", .BackendKeyData 42 0,
        .ErrorResponse .Fatal "3D000" "\"database \"missing\" does not exist\""
          "InitPostgres"] :=
  (C8_unknown_database Example.listener Example.conn 0 7
    [("user", "u"), ("database", "missing")] "missing" "database not found: missing"
    [.messages [.Query "SELECT 1"]] rfl (by decide) (by decide) (by decide)).2.1

end DatabaseClaims

section ExecuteClaims

variable {τ σ : Type}

theorem int32_add_int32 (a b : Int) : int32 (a + int32 b) = int32 (a + b) := by
  unfold int32; omega

theorem int32_int32_add (a b : Int) : int32 (int32 a + b) = int32 (a + b) := by
  unfold int32; omega

theorem totalRows_cons (res : Result) (rest : List Result) :
    totalRows (res :: rest) = res.Rows.length + totalRows rest := by
  simp [totalRows]

/-- The callback's running count when the statement is not an INSERT, UPDATE or DELETE. -/
theorem rowsAfter_select (l : Listener τ σ) (query : String) (h : l.IsIUD query = false)
    (results : List Result) (rows : Int) :
    int32 (l.rowsAfter query rows results) = int32 (rows + totalRows results) ∧
      (results ≠ [] → l.rowsAfter query rows results = int32 (rows + totalRows results)) := by
  induction results generalizing rows with
  | nil => simp [Listener.rowsAfter, totalRows]
  | cons res rest ih =>
    simp only [Listener.rowsAfter, h, Bool.false_eq_true, if_false, totalRows_cons]
    obtain ⟨h1, h2⟩ := ih (int32 (rows + int32 res.Rows.length))
    have e : int32 (int32 (rows + int32 ↑res.Rows.length) + ↑(totalRows rest)) =
        int32 (rows + ↑(res.Rows.length + totalRows rest)) := by
      rw [int32_int32_add, add_assoc, add_comm (int32 _) _, ← add_assoc, int32_add_int32]
      congr 1
      push_cast
      ring
    refine ⟨by rw [h1, e], fun _ => ?_⟩
    cases rest with
    | nil =>
      simp [Listener.rowsAfter, totalRows, int32_add_int32]
    | cons r rs => rw [h2 (by simp), e]

/-- The callback's running count when the statement is an INSERT, UPDATE or DELETE. -/
theorem rowsAfter_iud (l : Listener τ σ) (query : String) (h : l.IsIUD query = true)
    (results : List Result) (rows : Int) :
    l.rowsAfter query rows results =
      match results.getLast? with
      | some res => int32 res.RowsAffected
      | none => rows := by
  induction results generalizing rows with
  | nil => simp [Listener.rowsAfter]
  | cons res rest ih =>
    simp only [Listener.rowsAfter, h, if_true]
    rw [ih]
    cases rest with
    | nil => simp
    | cons r rs =>
      rw [List.getLast?_cons_cons, List.getLast?_eq_getLast (r :: rs) (by simp)]

theorem rowsAfter_zero (l : Listener τ σ) (query : String) (results : List Result) :
    l.rowsAfter query 0 results = l.commandCompleteRows query results := by
  unfold Listener.commandCompleteRows
  by_cases h : l.IsIUD query = true
  · simp only [h, if_true]
    exact rowsAfter_iud l query h results 0
  · have h' : l.IsIUD query = false := by simpa using h
    simp only [h', Bool.false_eq_true, if_false]
    cases results with
    | nil => simp [Listener.rowsAfter, totalRows, int32]
    | cons r rs => simpa using (rowsAfter_select l query h' (r :: rs) 0).2 (by simp)

end ExecuteClaims

section ExecuteClaims2

variable {τ σ : Type}

theorem countP_resultFrames (results : List Result) :
    (results.flatMap resultFrames).countP BackendMessage.isCommandComplete = 0 ∧
    (results.flatMap resultFrames).countP BackendMessage.isDataRow = totalRows results ∧
    (results.flatMap resultFrames).countP BackendMessage.isRowDescription = results.length := by
  induction results with
  | nil => simp [totalRows]
  | cons res rest ih =>
    obtain ⟨h1, h2, h3⟩ := ih
    have e1 : List.countP BackendMessage.isCommandComplete
        (List.map BackendMessage.DataRow res.Rows) = 0 := by
      rw [List.countP_eq_zero]
      intro f hf
      obtain ⟨row, -, rfl⟩ := List.mem_map.1 hf
      simp [BackendMessage.isCommandComplete]
    have e2 : List.countP BackendMessage.isRowDescription
        (List.map BackendMessage.DataRow res.Rows) = 0 := by
      rw [List.countP_eq_zero]
      intro f hf
      obtain ⟨row, -, rfl⟩ := List.mem_map.1 hf
      simp [BackendMessage.isRowDescription]
    have e3 : List.countP BackendMessage.isDataRow
        (List.map BackendMessage.DataRow res.Rows) = res.Rows.length := by
      rw [List.countP_eq_length.2, List.length_map]
      intro f hf
      obtain ⟨row, -, rfl⟩ := List.mem_map.1 hf
      rfl
    refine ⟨?_, ?_, ?_⟩
    · simp [resultFrames, List.countP_cons, List.countP_append, h1, e1,
        BackendMessage.isCommandComplete]
    · simp [resultFrames, List.countP_cons, List.countP_append, h2, e3, totalRows_cons,
        BackendMessage.isDataRow]
    · simp [resultFrames, List.countP_cons, List.countP_append, h3, e2,
        BackendMessage.isRowDescription]

/-- C9 (as stated), refuted on the example listener with all sends succeeding. For
`INSERT INTO t` the handler succeeds after two results with 1 and 2 affected rows: the
`CommandComplete` reports 2, the count of the last result, not the 3 accumulated over the
results. For `UPDATE t` the handler reports 2^31 affected rows in one result: the
`CommandComplete` reports -2^31. -/
theorem C9_counterexample :
    Example.listener.IsIUD "INSERT INTO t" = true ∧
    (Example.listener.handlerRun Example.ready.mysqlConn Example.ready.engine
        { AST := some (.Other 0), String := "INSERT INTO t" }).delivered =
      [some { Fields := [], Rows := [], RowsAffected := 1 },
        some { Fields := [], Rows := [], RowsAffected := 2 }] ∧
    (Example.listener.handlerRun Example.ready.mysqlConn Example.ready.engine
        { AST := some (.Other 0), String := "INSERT INTO t" }).outcome.1 = none ∧
    (Example.listener.execute Example.ready
        { AST := some (.Other 0), String := "INSERT INTO t" }).2.conn.sent =
      [.RowDescription [], .RowDescription [], .CommandComplete "INSERT INTO t" 2] ∧
    totalRowsAffected [{ Fields := [], Rows := [], RowsAffected := 1 },
      { Fields := [], Rows := [], RowsAffected := 2 }] = 3 ∧
    Example.listener.IsIUD "UPDATE t" = true ∧
    (Example.listener.handlerRun Example.ready.mysqlConn Example.ready.engine
        { AST := some (.Other 0), String := "UPDATE t" }).delivered =
      [some { Fields := [], Rows := [], RowsAffected := 2147483648 }] ∧
    (Example.listener.execute Example.ready
        { AST := some (.Other 0), String := "UPDATE t" }).2.conn.sent =
      [.RowDescription [], .CommandComplete "UPDATE t" (-2147483648)] := by
  decide

/-- C9 (amended): with all sends succeeding, when the handler call for a query succeeds
after handing the results `results` to the callback, `execute` returns without error and
sends, after the frames of the results, exactly one `CommandComplete`, with the query's
text and with `Rows` equal, as an `int32`, to the affected-row count of the last result (0
when there is no result) when the statement is an INSERT, UPDATE or DELETE, and otherwise
to the total number of rows returned, which is the number of `DataRow` frames sent. -/
theorem C9_command_complete (l : Listener τ σ) (st : State σ) (query : ConvertedQuery)
    (results : List Result) (hrel : st.conn.Reliable)
    (hd : (l.handlerRun st.mysqlConn st.engine query).delivered = results.map some)
    (hok : (l.handlerRun st.mysqlConn st.engine query).outcome.1 = none) :
    (l.execute st query).1 = .returned none ∧
    (l.execute st query).2.conn.sent =
      st.conn.sent ++ results.flatMap resultFrames ++
        [.CommandComplete query.String
          (if l.IsIUD query.String then
            match results.getLast? with
            | some res => int32 res.RowsAffected
            | none => 0
          else int32 (totalRows results))] ∧
    (results.flatMap resultFrames).countP BackendMessage.isCommandComplete = 0 ∧
    (results.flatMap resultFrames).countP BackendMessage.isDataRow = totalRows results := by
  rw [execute_reliable l st query hrel results hd, hok]
  refine ⟨rfl, ?_, (countP_resultFrames results).1, (countP_resultFrames results).2.1⟩
  simp [emit_sent, rowsAfter_zero, Listener.commandCompleteRows]

/-- C9, witness: the example listener on `SELECT * FROM t`, which returns three rows in
two results. -/
theorem C9_command_complete_witness :
    (Example.listener.execute Example.ready
        { AST := some (.Other 0), String := "SELECT * FROM t" }).2.conn.sent =
      Example.ready.conn.sent ++
        [{ Fields := ["a"], Rows := [["1"], ["2"]], RowsAffected := 0 },
          { Fields := ["a"], Rows := [["3"]], RowsAffected := 0 }].flatMap resultFrames ++
        [.CommandComplete "SELECT * FROM t" 3] :=
  (C9_command_complete Example.listener Example.ready
    { AST := some (.Other 0), String := "SELECT * FROM t" }
    [{ Fields := ["a"], Rows := [["1"], ["2"]], RowsAffected := 0 },
      { Fields := ["a"], Rows := [["3"]], RowsAffected := 0 }] rfl rfl rfl).2.1

/-- C10: with all sends succeeding, when the handler hands the results `results` to the
callback of `execute`, the frames sent are, for each result in order, one `RowDescription`
with the result's fields followed by one `DataRow` per row of the result, in row order,
and after them the `CommandComplete` when the handler succeeded; so `execute` sends as
many `RowDescription` frames as there are results. -/
theorem C10_row_description_per_result (l : Listener τ σ) (st : State σ)
    (query : ConvertedQuery) (results : List Result) (hrel : st.conn.Reliable)
    (hd : (l.handlerRun st.mysqlConn st.engine query).delivered = results.map some) :
    (l.execute st query).2.conn.sent =
      st.conn.sent ++
        (results.flatMap fun res =>
          BackendMessage.RowDescription res.Fields :: res.Rows.map BackendMessage.DataRow) ++
        (match (l.handlerRun st.mysqlConn st.engine query).outcome.1 with
          | none => [.CommandComplete query.String (l.commandCompleteRows query.String results)]
          | some _ => []) ∧
    (l.execute st query).2.conn.sent.countP BackendMessage.isRowDescription =
      st.conn.sent.countP BackendMessage.isRowDescription + results.length := by
  have hf : (results.flatMap fun res =>
      BackendMessage.RowDescription res.Fields :: res.Rows.map BackendMessage.DataRow) =
      results.flatMap resultFrames := rfl
  rw [execute_reliable l st query hrel results hd, hf]
  cases (l.handlerRun st.mysqlConn st.engine query).outcome.1 with
  | none =>
    simp [emit_sent, rowsAfter_zero, List.countP_append, (countP_resultFrames results).2.2,
      BackendMessage.isRowDescription]
  | some err =>
    simp [emit_sent, List.countP_append, (countP_resultFrames results).2.2]

/-- C10, witness: the example listener on `SELECT * FROM t`: two results, two
`RowDescription` frames. -/
theorem C10_row_description_per_result_witness :
    (Example.listener.execute Example.ready
        { AST := some (.Other 0), String := "SELECT * FROM t" }).2.conn.sent =
      [.RowDescription ["a"], .DataRow ["1"], .DataRow ["2"], .RowDescription ["a"],
        .DataRow ["3"], .CommandComplete "SELECT * FROM t" 3] :=
  (C10_row_description_per_result Example.listener Example.ready
    { AST := some (.Other 0), String := "SELECT * FROM t" }
    [{ Fields := ["a"], Rows := [["1"], ["2"]], RowsAffected := 0 },
      { Fields := ["a"], Rows := [["3"]], RowsAffected := 0 }] rfl rfl).1

end ExecuteClaims2

section Shift

variable {τ σ γ : Type}

theorem send_shift (p : List BackendMessage) (conn : Conn) (m : BackendMessage) :
    connection.Send (conn.shift p) m =
      ((connection.Send conn m).1, (connection.Send conn m).2.shift p) := by
  unfold connection.Send
  cases h : conn.sendErrors 0 <;> simp [Conn.shift, h]

theorem sendDataRows_shift (p : List BackendMessage) (conn : Conn) (rows : List (List String)) :
    sendDataRows (conn.shift p) rows =
      ((sendDataRows conn rows).1, (sendDataRows conn rows).2.shift p) := by
  induction rows generalizing conn with
  | nil => rfl
  | cons row rows ih =>
    simp only [sendDataRows, send_shift]
    rcases connection.Send conn (.DataRow row) with ⟨_ | e, conn1⟩
    · simp [ih]
    · simp

theorem nilCallback_shift (p : List BackendMessage) (conn : Conn) (g : Unit)
    (res : Option Result) (more : Bool) :
    nilCallback (conn.shift p) g res more = (nilCallback conn g res more).shift p := rfl

theorem describeCallback_shift (p : List BackendMessage) (conn : Conn) (g : Unit)
    (res : Option Result) (more : Bool) :
    describeCallback (conn.shift p) g res more = (describeCallback conn g res more).shift p := by
  cases res with
  | none => rfl
  | some r =>
    simp only [describeCallback, send_shift]
    rcases connection.Send conn (.RowDescription r.Fields) with ⟨_ | e, conn1⟩ <;> rfl

theorem executeCallback_shift (l : Listener τ σ) (query : String) (p : List BackendMessage)
    (conn : Conn) (g : Int) (res : Option Result) (more : Bool) :
    l.executeCallback query (conn.shift p) g res more =
      (l.executeCallback query conn g res more).shift p := by
  cases res with
  | none => rfl
  | some r =>
    simp only [Listener.executeCallback, send_shift]
    rcases connection.Send conn (.RowDescription r.Fields) with ⟨_ | e, conn1⟩
    · simp only [sendDataRows_shift]
      rcases sendDataRows conn1 r.Rows with ⟨_ | e, conn2⟩
      · by_cases hi : l.IsIUD query = true <;> simp [hi, CallbackResult.shift]
      · rfl
    · rfl

/-- A handler call on a shifted connection, for a callback that does not look at what has
been sent. -/
theorem run_shift (cb : Callback γ) (p : List BackendMessage)
    (hcb : ∀ conn g res more, cb (conn.shift p) g res more = (cb conn g res more).shift p)
    (t : HandlerRun σ) (conn : Conn) (g : γ) :
    t.run cb (conn.shift p) g = (t.run cb conn g).shift p := by
  induction t generalizing conn g with
  | ret err s => rfl
  | callback res more k ih =>
    simp only [HandlerRun.run, hcb]
    rcases cb conn g res more with ⟨err, conn1, g1⟩ | ⟨v, conn1, g1⟩
    · simp [CallbackResult.shift, ih]
    · rfl

end Shift

section Shift2

variable {τ σ γ : Type}

theorem shift_conn (p : List BackendMessage) (st : State σ) :
    (st.shift p).conn = st.conn.shift p := rfl

theorem shift_mysqlConn (p : List BackendMessage) (st : State σ) :
    (st.shift p).mysqlConn = st.mysqlConn := rfl

theorem shift_engine (p : List BackendMessage) (st : State σ) :
    (st.shift p).engine = st.engine := rfl

theorem shift_calls (p : List BackendMessage) (st : State σ) :
    (st.shift p).calls = st.calls := rfl

theorem shift_preparedStatements (p : List BackendMessage) (st : State σ) :
    (st.shift p).preparedStatements = st.preparedStatements := rfl

theorem shift_portals (p : List BackendMessage) (st : State σ) :
    (st.shift p).portals = st.portals := rfl

theorem comQuery_handler_shift (l : Listener τ σ) (cb : Callback γ) (p : List BackendMessage)
    (hcb : ∀ conn g res more, cb (conn.shift p) g res more = (cb conn g res more).shift p)
    (st : State σ) (query : String) (g : γ) :
    l.ComQuery (st.shift p) query cb g =
      ((l.ComQuery st query cb g).1, (l.ComQuery st query cb g).2.shift p) := by
  simp only [Listener.ComQuery, shift_conn, shift_mysqlConn, shift_engine, shift_calls,
    shift_preparedStatements, shift_portals, run_shift cb p hcb]
  rcases (l.Handler.ComQuery st.mysqlConn st.engine query).run cb st.conn g
    with ⟨err, s, conn1, g1⟩ | ⟨v, conn1, g1⟩ <;> rfl

theorem comParsedQuery_shift (l : Listener τ σ) (cb : Callback γ) (p : List BackendMessage)
    (hcb : ∀ conn g res more, cb (conn.shift p) g res more = (cb conn g res more).shift p)
    (st : State σ) (query : String) (parsed : sqlparser.Statement) (g : γ) :
    l.ComParsedQuery (st.shift p) query parsed cb g =
      ((l.ComParsedQuery st query parsed cb g).1,
        (l.ComParsedQuery st query parsed cb g).2.shift p) := by
  simp only [Listener.ComParsedQuery, shift_conn, shift_mysqlConn, shift_engine, shift_calls,
    shift_preparedStatements, shift_portals, run_shift cb p hcb]
  rcases (l.Handler.ComParsedQuery st.mysqlConn st.engine query parsed).run
    cb st.conn g with ⟨err, s, conn1, g1⟩ | ⟨v, conn1, g1⟩ <;> rfl

theorem comQuery_shift (l : Listener τ σ) (cb : Callback γ) (p : List BackendMessage)
    (hcb : ∀ conn g res more, cb (conn.shift p) g res more = (cb conn g res more).shift p)
    (st : State σ) (query : ConvertedQuery) (g : γ) :
    l.comQuery (st.shift p) query cb g =
      ((l.comQuery st query cb g).1, (l.comQuery st query cb g).2.shift p) := by
  unfold Listener.comQuery
  cases query.AST with
  | none => exact comQuery_handler_shift l cb p hcb st _ g
  | some parsed => exact comParsedQuery_shift l cb p hcb st _ parsed g

theorem execute_shift (l : Listener τ σ) (p : List BackendMessage) (st : State σ)
    (query : ConvertedQuery) :
    l.execute (st.shift p) query = ((l.execute st query).1, (l.execute st query).2.shift p) := by
  simp only [Listener.execute, comQuery_shift l _ p (executeCallback_shift l query.String p)]
  rcases l.comQuery st query (l.executeCallback query.String) 0 with ⟨(⟨_ | err, rows⟩ | v), st1⟩
  · simp only [shift_conn, send_shift]
    rcases connection.Send st1.conn (.CommandComplete query.String rows) with ⟨_ | e, conn1⟩ <;> rfl
  · by_cases hp : strings.HasPrefix err "syntax error at position" = true <;> simp [hp]
  · rfl

theorem describe_shift (l : Listener τ σ) (p : List BackendMessage) (st : State σ)
    (statement : ConvertedQuery) :
    l.describe (st.shift p) statement =
      ((l.describe st statement).1, (l.describe st statement).2.shift p) := by
  simp only [Listener.describe, shift_conn, send_shift]
  rcases connection.Send st.conn (.ParameterDescription []) with ⟨_ | e, conn1⟩
  · simp only
    by_cases hi : l.ImplicitlyCommits statement.String = true
    · simp [hi]; rfl
    · simp only [hi, Bool.false_eq_true, if_false]
      have e1 : ({ st.shift p with conn := conn1.shift p } : State σ) =
          ({ st with conn := conn1 } : State σ).shift p := rfl
      rw [e1, comQuery_handler_shift l nilCallback p (nilCallback_shift p)]
      rcases l.ComQuery { st with conn := conn1 } "START TRANSACTION;" nilCallback ()
        with ⟨(⟨_ | err, u⟩ | v), st2⟩
      · simp only [comQuery_shift l describeCallback p (describeCallback_shift p)]
        rcases l.comQuery st2 statement describeCallback () with ⟨(⟨err, u⟩ | v), st3⟩ <;>
          simp [comQuery_handler_shift l nilCallback p (nilCallback_shift p)]
      · rfl
      · rfl
  · rfl

end Shift2

section Shift3

variable {τ σ γ : Type}

theorem endOfMessages_shift (p : List BackendMessage) (conn : Conn) (err : Option String) :
    endOfMessages (conn.shift p) err =
      ((endOfMessages conn err).1, (endOfMessages conn err).2.shift p) := by
  cases err with
  | none =>
    simp only [endOfMessages, send_shift]
    rcases connection.Send conn (.ReadyForQuery .Idle) with ⟨_ | e, conn1⟩ <;> rfl
  | some e =>
    simp only [endOfMessages, sendError, send_shift]
    rcases connection.Send conn (.ErrorResponse .Error "XX000" e "") with ⟨_ | e1, conn1⟩
    · simp only [send_shift]
      rcases connection.Send conn1 (.ReadyForQuery .Idle) with ⟨_ | e2, conn2⟩ <;> rfl
    · rfl

theorem endOfMessagesBreak_shift (p : List BackendMessage) (st : State σ)
    (err : Option String) :
    endOfMessagesBreak (st.shift p) err =
      ((endOfMessagesBreak st err).1, (endOfMessagesBreak st err).2.shift p) := by
  simp only [endOfMessagesBreak, shift_conn, endOfMessages_shift]
  rcases endOfMessages st.conn err with ⟨_ | v, conn1⟩ <;> rfl

theorem endOfMessagesNext_shift (p : List BackendMessage) (st : State σ)
    (err : Option String) :
    endOfMessagesNext (st.shift p) err =
      ((endOfMessagesNext st err).1, (endOfMessagesNext st err).2.shift p) := by
  simp only [endOfMessagesNext, shift_conn, endOfMessages_shift]
  rcases endOfMessages st.conn err with ⟨_ | v, conn1⟩ <;> rfl

theorem handledPSQLCommands_shift (l : Listener τ σ) (p : List BackendMessage) (st : State σ)
    (statement : String) :
    l.handledPSQLCommands (st.shift p) statement =
      ((l.handledPSQLCommands st statement).1, (l.handledPSQLCommands st statement).2.1,
        (l.handledPSQLCommands st statement).2.2.shift p) := by
  unfold Listener.handledPSQLCommands
  simp only [execute_shift]
  split_ifs <;> rfl

theorem handleMessage_shift (l : Listener τ σ) (p : List BackendMessage) (st : State σ)
    (message : Message) :
    l.handleMessage (st.shift p) message =
      ((l.handleMessage st message).1, (l.handleMessage st message).2.shift p) := by
  cases message with
  | Terminate => rfl
  | Sync => exact endOfMessagesNext_shift p st none
  | Other name => exact endOfMessagesBreak_shift p st _
  | Execute portal rowMax =>
    simp only [Listener.handleMessage, shift_portals, execute_shift]
    rcases l.execute st (st.portals.index portal) with ⟨(_ | err) | v, st1⟩
    · rfl
    · exact endOfMessagesBreak_shift p st1 _
    · rfl
  | Describe isPrepared target =>
    simp only [Listener.handleMessage, shift_portals, shift_preparedStatements, describe_shift]
    rcases l.describe st (if isPrepared = true then st.preparedStatements.index target
      else st.portals.index target) with ⟨(_ | err) | v, st1⟩
    · rfl
    · exact endOfMessagesBreak_shift p st1 _
    · rfl
  | Parse name query oids =>
    simp only [Listener.handleMessage]
    cases l.convertQuery query with
    | panicked v => rfl
    | error err => exact endOfMessagesBreak_shift p st _
    | ok converted =>
      simp only [shift_conn, shift_preparedStatements, send_shift]
      rcases connection.Send st.conn .ParseComplete with ⟨_ | e, conn1⟩
      · rfl
      · exact endOfMessagesBreak_shift p
          { st with preparedStatements := st.preparedStatements.set name converted,
                    conn := conn1 } _
  | Bind destination source params =>
    simp only [Listener.handleMessage, shift_conn, shift_preparedStatements, shift_portals,
      send_shift]
    rcases connection.Send st.conn .BindComplete with ⟨_ | e, conn1⟩
    · rfl
    · exact endOfMessagesBreak_shift p
        { st with portals := st.portals.set destination (st.preparedStatements.index source),
                  conn := conn1 } _
  | Query text =>
    simp only [Listener.handleMessage, handledPSQLCommands_shift]
    rcases l.handledPSQLCommands st text with ⟨ok, err | v, st1⟩
    · simp only
      by_cases hc : (!ok && err.isNone) = true
      · simp only [hc, if_true]
        cases l.convertQuery text with
        | panicked v => rfl
        | error e => exact endOfMessagesBreak_shift p st1 _
        | ok converted =>
          simp only
          rcases converted.AST with _ | (name | node)
          · simp only [execute_shift]
            rcases l.execute st1 converted with ⟨err1 | v, st2⟩
            · exact endOfMessagesNext_shift p st2 _
            · rfl
          · simp only [shift_preparedStatements, shift_conn, send_shift]
            cases st1.preparedStatements name with
            | none => rfl
            | some prepared =>
              simp only
              rcases connection.Send st1.conn (.CommandComplete converted.String 0)
                with ⟨_ | e, conn1⟩
              · exact endOfMessagesNext_shift p
                  { st1 with preparedStatements := st1.preparedStatements.delete name,
                             conn := conn1 } _
              · rfl
          · simp only [execute_shift]
            rcases l.execute st1 converted with ⟨err1 | v, st2⟩
            · exact endOfMessagesNext_shift p st2 _
            · rfl
      · simp only [hc, Bool.false_eq_true, if_false]
        exact endOfMessagesNext_shift p st1 _
    · rfl

end Shift3

section Shift4

variable {τ σ γ : Type}

theorem readMessages_shift (l : Listener τ σ) (p : List BackendMessage)
    (messages : List Message) (st : State σ) :
    l.readMessages (st.shift p) messages =
      ((l.readMessages st messages).1, (l.readMessages st messages).2.shift p) := by
  induction messages generalizing st with
  | nil => rfl
  | cons message rest ih =>
    simp only [Listener.readMessages, handleMessage_shift]
    rcases l.handleMessage st message with ⟨flow, st1⟩
    cases flow with
    | next => exact ih st1
    | brk => rfl
    | ret e => rfl
    | panicked v => rfl

theorem connectionLoop_shift (l : Listener τ σ) (p : List BackendMessage)
    (input : List (Received Message)) (st : State σ) :
    l.connectionLoop (st.shift p) input =
      ((l.connectionLoop st input).1, (l.connectionLoop st input).2.shift p) := by
  induction input generalizing st with
  | nil => rfl
  | cons received rest ih =>
    cases received with
    | eof => rfl
    | error err => rfl
    | messages receivedMessages =>
      simp only [Listener.connectionLoop]
      by_cases h0 : receivedMessages.length = 0
      · simp only [h0, if_true]
      · simp only [h0, if_false]
        have e1 : ({ st.shift p with portals := fun _ => none } : State σ) =
            ({ st with portals := fun _ => none } : State σ).shift p := rfl
        rw [e1, readMessages_shift]
        rcases l.readMessages { st with portals := fun _ => none } receivedMessages
          with ⟨flow, st1⟩
        cases flow with
        | next => exact ih st1
        | brk => exact ih st1
        | ret e => rfl
        | panicked v => rfl

theorem serve_shift (l : Listener τ σ) (p : List BackendMessage)
    (input : List (Received Message)) (st : State σ) :
    l.serve (st.shift p) input = ((l.serve st input).1, (l.serve st input).2.shift p) := by
  simp only [Listener.serve, shift_conn, send_shift]
  rcases connection.Send st.conn (.ReadyForQuery .Idle) with ⟨_ | e, conn1⟩
  · exact connectionLoop_shift l p input
      { st with conn := conn1, preparedStatements := fun _ => none }
  · rfl

theorem sendClientStartupMessages_shift (l : Listener τ σ) (p : List BackendMessage)
    (st : State σ) (Parameters : List (String × String)) :
    l.sendClientStartupMessages (st.shift p) Parameters =
      ((l.sendClientStartupMessages st Parameters).1,
        (l.sendClientStartupMessages st Parameters).2.shift p) := by
  simp only [Listener.sendClientStartupMessages, shift_conn, send_shift]
  rcases connection.Send st.conn .AuthenticationOk with ⟨_ | e, conn1⟩
  · simp only [send_shift]
    rcases connection.Send conn1 (.ParameterStatus "server_version" "15.0") with ⟨_ | e, conn2⟩
    · simp only [send_shift]
      rcases connection.Send conn2 (.ParameterStatus "client_encoding" "UTF8")
        with ⟨_ | e, conn3⟩
      · simp only [send_shift]
        rcases connection.Send conn3 (.BackendKeyData l.processID 0) with ⟨_ | e, conn4⟩ <;> rfl
      · rfl
    · rfl
  · rfl

theorem startup_shift (l : Listener τ σ) (p : List BackendMessage) (st : State σ)
    (Parameters : List (String × String)) (input : List (Received Message)) :
    l.startup (st.shift p) Parameters input =
      ((l.startup st Parameters input).1, (l.startup st Parameters input).2.shift p) := by
  simp only [Listener.startup, sendClientStartupMessages_shift]
  rcases l.sendClientStartupMessages st Parameters with ⟨_ | e, st1⟩
  · simp only [comQuery_handler_shift l nilCallback p (nilCallback_shift p), serve_shift,
      shift_mysqlConn]
    cases Parameters.lookup "database" with
    | none => rfl
    | some db =>
      simp only
      by_cases hdb : db.length > 0
      · simp only [hdb, if_true]
        rcases l.ComQuery st1 ("USE `" ++ db ++ "`;") nilCallback () with ⟨(⟨_ | err, u⟩ | v), st2⟩
        · exact serve_shift l p input st2
        · simp only [shift_conn, send_shift]
          rfl
        · rfl
      · simp only [hdb, if_false]
  · rfl

theorem deferred_shift (l : Listener τ σ) (p : List BackendMessage) (st : State σ) :
    l.deferred (st.shift p) = (l.deferred st).shift p := rfl

end Shift4

section Negotiation

variable {τ σ : Type}

/-- Without a certificate and with all sends succeeding, the initial message loop answers
each `SSLRequest` and `GSSENCRequest` with its refusal and goes on with the next receive. -/
theorem initialMessageLoop_requests (l : Listener τ σ) (hcert : l.certificate = [])
    (requests : List InitialMessage)
    (hreq : ∀ r ∈ requests, r = .SSLRequest ∨ r = .GSSENCRequest)
    (rest : List (Received InitialMessage)) (st : State σ) (hrel : st.conn.Reliable) :
    l.initialMessageLoop st ((requests.map fun r => Received.messages [r]) ++ rest) =
      l.initialMessageLoop
        { st with conn := st.conn.emit (requests.flatMap startupResponse) } rest := by
  induction requests generalizing st with
  | nil => simp [emit_nil]
  | cons r requests ih =>
    have hr := hreq r (List.mem_cons_self _ _)
    have hrest : ∀ r ∈ requests, r = .SSLRequest ∨ r = .GSSENCRequest :=
      fun r hr => hreq r (List.mem_cons_of_mem _ hr)
    rcases hr with rfl | rfl
    · simp only [List.map_cons, List.cons_append, Listener.initialMessageLoop, hcert,
        List.length_nil, gt_iff_lt, lt_self_iff_false, decide_False, send_reliable hrel,
        Bool.false_eq_true, if_false, List.append_eq]
      rw [ih hrest { st with conn := st.conn.emit [.SSLResponse false] } (reliable_emit hrel _)]
      simp [emit_emit, startupResponse]
    · simp only [List.map_cons, List.cons_append, Listener.initialMessageLoop,
        send_reliable hrel, List.append_eq]
      rw [ih hrest { st with conn := st.conn.emit [.GSSENCResponse false] }
        (reliable_emit hrel _)]
      simp [emit_emit, startupResponse]

/-- After the refused requests the session goes on as `HandleConnection` does on the
connection that holds the refusals. -/
theorem handleConnection_requests (l : Listener τ σ) (hcert : l.certificate = [])
    (requests : List InitialMessage)
    (hreq : ∀ r ∈ requests, r = .SSLRequest ∨ r = .GSSENCRequest)
    (rest : List (Received InitialMessage)) (conn : Conn) (hrel : conn.Reliable) (engine : σ)
    (connectionIDCounter : Nat) (input : List (Received Message)) :
    l.HandleConnection conn engine connectionIDCounter
        ((requests.map fun r => Received.messages [r]) ++ rest) input =
      l.HandleConnection (conn.emit (requests.flatMap startupResponse)) engine
        connectionIDCounter rest input := by
  unfold Listener.HandleConnection
  simp only
  rw [initialMessageLoop_requests l hcert requests hreq rest _ hrel]

theorem handleConnection_shift (l : Listener τ σ) (p : List BackendMessage) (conn : Conn)
    (engine : σ) (connectionIDCounter : Nat) (Parameters : List (String × String))
    (input : List (Received Message)) :
    l.HandleConnection (conn.shift p) engine connectionIDCounter
        [.messages [.StartupMessage Parameters]] input =
      ((l.HandleConnection conn engine connectionIDCounter
          [.messages [.StartupMessage Parameters]] input).1,
        (l.HandleConnection conn engine connectionIDCounter
          [.messages [.StartupMessage Parameters]] input).2.shift p) := by
  have ha : l.accepted (conn.shift p) engine connectionIDCounter =
      (l.accepted conn engine connectionIDCounter).shift p := rfl
  simp only [handleConnection_startup, ha, startup_shift]
  rcases l.startup (l.accepted conn engine connectionIDCounter) Parameters input with ⟨e, st1⟩
  cases e <;> rfl

end Negotiation

section NegotiationClaim

variable {τ σ : Type}

/-- A receive that returns no frame or several frames ends the session. -/
theorem handleConnection_not_single (l : Listener τ σ) (conn : Conn) (engine : σ)
    (connectionIDCounter : Nat) (initialMessages : List InitialMessage)
    (hlen : initialMessages.length ≠ 1) (rest : List (Received InitialMessage))
    (input : List (Received Message)) :
    l.HandleConnection conn engine connectionIDCounter
        (.messages initialMessages :: rest) input =
      (.returned
          (some "Expected a single message upon starting connection, terminating connection"),
        l.deferred (l.accepted conn engine connectionIDCounter)) := by
  rcases initialMessages with _ | ⟨a, _ | ⟨b, tl⟩⟩
  · rfl
  · exact absurd rfl hlen
  · rfl

/-- C7 (as stated), refuted on the example listener, which has no certificate, with all
sends succeeding: the client sends an `SSLRequest` and a `GSSENCRequest` before its
`StartupMessage`, and the two requests reach the server in one receive. Neither request is
answered: nothing at all is sent, `HandleConnection` returns with the error `Expected a
single message upon starting connection, terminating connection`, and the connection is
closed without the `StartupMessage` being read; the handler is told of the new connection
and of its end, where a connection whose first frame is the `StartupMessage` goes on to
select the database and run the query. -/
theorem C7_counterexample :
    (Example.listener.HandleConnection Example.conn 0 7
        [.messages [.SSLRequest, .GSSENCRequest],
         .messages [.StartupMessage [("user", "alice")]]]
        [.messages [.Query "SELECT 1"]]).1 =
      .returned
        (some "Expected a single message upon starting connection, terminating connection") ∧
    (Example.listener.HandleConnection Example.conn 0 7
        [.messages [.SSLRequest, .GSSENCRequest],
         .messages [.StartupMessage [("user", "alice")]]]
        [.messages [.Query "SELECT 1"]]).2.conn.sent = [] ∧
    (Example.listener.HandleConnection Example.conn 0 7
        [.messages [.SSLRequest, .GSSENCRequest],
         .messages [.StartupMessage [("user", "alice")]]]
        [.messages [.Query "SELECT 1"]]).2.conn.closed = true ∧
    (Example.listener.HandleConnection Example.conn 0 7
        [.messages [.SSLRequest, .GSSENCRequest],
         .messages [.StartupMessage [("user", "alice")]]]
        [.messages [.Query "SELECT 1"]]).2.calls = [.NewConnection, .ConnectionClosed] ∧
    (Example.listener.HandleConnection Example.conn 0 7
        [.messages [.StartupMessage [("user", "alice")]]]
        [.messages [.Query "SELECT 1"]]).2.calls =
      [.NewConnection, .ComQuery "USE `alice`;", .ComParsedQuery "SELECT 1" (.Other 0)] :=
  ⟨rfl, rfl, rfl, rfl, rfl⟩

/-- C7 as amended: with no certificate configured and all sends succeeding, when the
client sends any finite sequence of `SSLRequest` and `GSSENCRequest` frames before its
`StartupMessage` and every one of these frames reaches the server in a receive of its own
(one frame per return of `ReceiveIntoAny`):
the requests are answered with exactly one `SSLResponse` saying no per `SSLRequest` and one
`GSSENCResponse` saying no per `GSSENCRequest`, in order, the handler has only been told of
the new connection, the stream is not wrapped in TLS, and the server waits for the next
initial message; and once the
`StartupMessage` arrives, the way the session ends, the handler calls and the frames after
the refusals are those of a connection whose first frame is that `StartupMessage`,
whatever the client sends afterwards. A receive that returns no frame or several frames
instead, after requests answered so, gets no answer: `HandleConnection` returns with the
error `Expected a single message upon starting connection, terminating connection`, only
the refusals of the earlier requests have been sent, and the connection is closed. -/
theorem C7_refused_requests_then_startup (l : Listener τ σ) (hcert : l.certificate = [])
    (requests : List InitialMessage)
    (hreq : ∀ r ∈ requests, r = .SSLRequest ∨ r = .GSSENCRequest)
    (conn : Conn) (hrel : conn.Reliable) (engine : σ) (connectionIDCounter : Nat)
    (Parameters : List (String × String)) (input : List (Received Message)) :
    ((l.HandleConnection conn engine connectionIDCounter
        (requests.map fun r => Received.messages [r]) input).1 = .waiting ∧
      (l.HandleConnection conn engine connectionIDCounter
        (requests.map fun r => Received.messages [r]) input).2.conn.sent =
          conn.sent ++ requests.flatMap startupResponse ∧
      (l.HandleConnection conn engine connectionIDCounter
        (requests.map fun r => Received.messages [r]) input).2.calls = [.NewConnection] ∧
      (l.HandleConnection conn engine connectionIDCounter
        (requests.map fun r => Received.messages [r]) input).2.conn.tls = conn.tls) ∧
    (l.HandleConnection conn engine connectionIDCounter
        ((requests.map fun r => Received.messages [r]) ++
          [.messages [.StartupMessage Parameters]]) input).1 =
      (l.HandleConnection conn engine connectionIDCounter
        [.messages [.StartupMessage Parameters]] input).1 ∧
    (l.HandleConnection conn engine connectionIDCounter
        ((requests.map fun r => Received.messages [r]) ++
          [.messages [.StartupMessage Parameters]]) input).2.calls =
      (l.HandleConnection conn engine connectionIDCounter
        [.messages [.StartupMessage Parameters]] input).2.calls ∧
    (l.HandleConnection conn engine connectionIDCounter
        ((requests.map fun r => Received.messages [r]) ++
          [.messages [.StartupMessage Parameters]]) input).2.conn.sent =
      conn.sent ++ requests.flatMap startupResponse ++
        (l.HandleConnection conn engine connectionIDCounter
          [.messages [.StartupMessage Parameters]] input).2.conn.sent.drop conn.sent.length ∧
    (∀ (initialMessages : List InitialMessage) (rest : List (Received InitialMessage)),
      initialMessages.length ≠ 1 →
      (l.HandleConnection conn engine connectionIDCounter
          ((requests.map fun r => Received.messages [r]) ++
            .messages initialMessages :: rest) input).1 =
        .returned
          (some "Expected a single message upon starting connection, terminating connection") ∧
      (l.HandleConnection conn engine connectionIDCounter
          ((requests.map fun r => Received.messages [r]) ++
            .messages initialMessages :: rest) input).2.conn.sent =
        conn.sent ++ requests.flatMap startupResponse ∧
      (l.HandleConnection conn engine connectionIDCounter
          ((requests.map fun r => Received.messages [r]) ++
            .messages initialMessages :: rest) input).2.conn.closed = true ∧
      (l.HandleConnection conn engine connectionIDCounter
          ((requests.map fun r => Received.messages [r]) ++
            .messages initialMessages :: rest) input).2.calls =
        [.NewConnection, .ConnectionClosed]) := by
  have hwait := handleConnection_requests l hcert requests hreq [] conn hrel engine
    connectionIDCounter input
  rw [List.append_nil] at hwait
  have hstart := handleConnection_requests l hcert requests hreq
    [.messages [.StartupMessage Parameters]] conn hrel engine connectionIDCounter input
  have hbase : conn = Conn.shift conn.sent { conn with sent := [] } := by
    simp [Conn.shift]
  have hemit : conn.emit (requests.flatMap startupResponse) =
      Conn.shift (conn.sent ++ requests.flatMap startupResponse) { conn with sent := [] } := by
    simp [Conn.shift, Conn.emit]
  refine ⟨?_, ?_, ?_, ?_, ?_⟩
  · rw [hwait]
    simp [Listener.HandleConnection, Listener.initialMessageLoop, emit_sent, Conn.emit]
  · rw [hstart, hemit, handleConnection_shift]
    conv_rhs => rw [hbase, handleConnection_shift]
  · rw [hstart, hemit, handleConnection_shift]
    conv_rhs => rw [hbase, handleConnection_shift]
    rfl
  · rw [hstart, hemit, handleConnection_shift]
    conv_rhs => rw [hbase, handleConnection_shift]
    simp [State.shift, Conn.shift]
  · intro initialMessages rest hlen
    rw [handleConnection_requests l hcert requests hreq (.messages initialMessages :: rest)
      conn hrel engine connectionIDCounter input,
      handleConnection_not_single l _ engine connectionIDCounter initialMessages hlen rest
        input]
    exact ⟨rfl, by simp [Listener.deferred, Listener.accepted, Conn.emit], rfl, rfl⟩

/-- C7, witness: the example listener, an `SSLRequest` and a `GSSENCRequest`, each in a
receive of its own, before the startup message of `alice`, then a query. -/
theorem C7_refused_requests_then_startup_witness :
    (Example.listener.HandleConnection Example.conn 0 7
        (([.SSLRequest, .GSSENCRequest].map fun r => Received.messages [r]) ++
          [.messages [.StartupMessage [("user", "alice")]]])
        [.messages [.Query "SELECT 1"]]).2.conn.sent =
      Example.conn.sent ++ [.SSLRequest, .GSSENCRequest].flatMap startupResponse ++
        (Example.listener.HandleConnection Example.conn 0 7
          [.messages [.StartupMessage [("user", "alice")]]]
          [.messages [.Query "SELECT 1"]]).2.conn.sent.drop Example.conn.sent.length :=
  (C7_refused_requests_then_startup Example.listener rfl [.SSLRequest, .GSSENCRequest]
    (by decide) Example.conn rfl 0 7 [("user", "alice")]
    [.messages [.Query "SELECT 1"]]).2.2.2.1

end NegotiationClaim

section ExecuteErrors

variable {τ σ : Type}

/-- A send appends the frame or nothing, whatever its outcome. -/
theorem send_sent (conn : Conn) (message : BackendMessage) :
    (connection.Send conn message).2.sent = conn.sent ∨
      (connection.Send conn message).2.sent = conn.sent ++ [message] := by
  unfold connection.Send
  cases conn.sendErrors 0 with
  | none => exact Or.inr rfl
  | some err => exact Or.inl rfl

theorem sendDataRows_sent (conn : Conn) (rows : List (List String)) :
    ∃ fs, (sendDataRows conn rows).2.sent = conn.sent ++ fs ∧
      ∀ f ∈ fs, f.isCommandComplete = false := by
  induction rows generalizing conn with
  | nil => exact ⟨[], by simp [sendDataRows], by simp⟩
  | cons row rows ih =>
    simp only [sendDataRows]
    have hs := send_sent conn (.DataRow row)
    rcases hx : connection.Send conn (.DataRow row) with ⟨_ | e, conn1⟩
    · rw [hx] at hs
      simp only at hs ⊢
      obtain ⟨fs, hfs, hq⟩ := ih conn1
      rcases hs with hs | hs
      · exact ⟨fs, by rw [hfs, hs], hq⟩
      · refine ⟨.DataRow row :: fs, by rw [hfs, hs]; simp, ?_⟩
        intro f hf
        rcases List.mem_cons.1 hf with rfl | hf
        · rfl
        · exact hq f hf
    · rw [hx] at hs
      simp only at hs ⊢
      rcases hs with hs | hs
      · exact ⟨[], by simp [hs], by simp⟩
      · exact ⟨[.DataRow row], hs, by simp [BackendMessage.isCommandComplete]⟩

/-- The connection a callback invocation leaves. -/
theorem executeCallback_sent (l : Listener τ σ) (query : String) (conn : Conn) (rows : Int)
    (res : Option Result) (more : Bool) :
    ∃ fs, (match l.executeCallback query conn rows res more with
        | .returned _ conn1 _ => conn1
        | .panicked _ conn1 _ => conn1).sent = conn.sent ++ fs ∧
      ∀ f ∈ fs, f.isCommandComplete = false := by
  cases res with
  | none => exact ⟨[], by simp [Listener.executeCallback], by simp⟩
  | some r =>
    simp only [Listener.executeCallback]
    have hs := send_sent conn (.RowDescription r.Fields)
    rcases hx : connection.Send conn (.RowDescription r.Fields) with ⟨_ | e, conn1⟩
    · rw [hx] at hs
      simp only at hs ⊢
      have hfirst : ∃ fs, conn1.sent = conn.sent ++ fs ∧
          ∀ f ∈ fs, f.isCommandComplete = false := by
        rcases hs with hs | hs
        · exact ⟨[], by simp [hs], by simp⟩
        · exact ⟨[.RowDescription r.Fields], hs, by simp [BackendMessage.isCommandComplete]⟩
      obtain ⟨fs1, hfs1, hq1⟩ := hfirst
      obtain ⟨fs2, hfs2, hq2⟩ := sendDataRows_sent conn1 r.Rows
      have hall : ∀ f ∈ fs1 ++ fs2, f.isCommandComplete = false := by
        intro f hf
        rcases List.mem_append.1 hf with hf | hf
        · exact hq1 f hf
        · exact hq2 f hf
      rcases hy : sendDataRows conn1 r.Rows with ⟨_ | e, conn2⟩
      · rw [hy] at hfs2
        simp only at hfs2 ⊢
        by_cases hi : l.IsIUD query = true
        · simp only [hi, if_true]
          exact ⟨fs1 ++ fs2, by rw [hfs2, hfs1, List.append_assoc], hall⟩
        · have hi' : l.IsIUD query = false := by simpa using hi
          simp only [hi', Bool.false_eq_true, if_false]
          exact ⟨fs1 ++ fs2, by rw [hfs2, hfs1, List.append_assoc], hall⟩
      · rw [hy] at hfs2
        simp only at hfs2 ⊢
        exact ⟨fs1 ++ fs2, by rw [hfs2, hfs1, List.append_assoc], hall⟩
    · rw [hx] at hs
      simp only at hs ⊢
      rcases hs with hs | hs
      · exact ⟨[], by simp [hs], by simp⟩
      · exact ⟨[.RowDescription r.Fields], hs, by simp [BackendMessage.isCommandComplete]⟩

/-- A handler call run against the callback of `execute` sends no `CommandComplete`,
whatever the sends do. -/
theorem run_executeCallback_sent (l : Listener τ σ) (query : String) (t : HandlerRun σ)
    (conn : Conn) (rows : Int) :
    ∃ fs, (t.run (l.executeCallback query) conn rows).conn.sent = conn.sent ++ fs ∧
      ∀ f ∈ fs, f.isCommandComplete = false := by
  induction t generalizing conn rows with
  | ret err s => exact ⟨[], by simp [HandlerRun.run, RunResult.conn], by simp⟩
  | callback res more k ih =>
    simp only [HandlerRun.run]
    obtain ⟨fs1, hfs1, hq1⟩ := executeCallback_sent l query conn rows res more
    rcases hx : l.executeCallback query conn rows res more with ⟨err, conn1, g1⟩ | ⟨v, conn1, g1⟩
    · rw [hx] at hfs1
      simp only at hfs1 ⊢
      obtain ⟨fs2, hfs2, hq2⟩ := ih err conn1 g1
      refine ⟨fs1 ++ fs2, by rw [hfs2, hfs1, List.append_assoc], ?_⟩
      intro f hf
      rcases List.mem_append.1 hf with hf | hf
      · exact hq1 f hf
      · exact hq2 f hf
    · rw [hx] at hfs1
      simp only at hfs1 ⊢
      exact ⟨fs1, hfs1, hq1⟩

/-- C11: whenever the handler call of `execute` returns an error `err`, whatever the sends
and the callback did before, `execute` returns the error with the message `This statement
is not yet supported` if `err` begins with `syntax error at position` and `err` itself
otherwise; it leaves the session as the handler call left it, so it sends nothing after the
call, and the frames sent since `execute` began contain no `CommandComplete`. -/
theorem C11_execute_handler_error (l : Listener τ σ) (st st1 : State σ)
    (query : ConvertedQuery) (err : String) (rows : Int)
    (hfail : l.comQuery st query (l.executeCallback query.String) 0 =
      (.returned (some err) rows, st1)) :
    l.execute st query =
      (.returned (some (if strings.HasPrefix err "syntax error at position" then
        "This statement is not yet supported" else err)), st1) ∧
    ∃ frames, st1.conn.sent = st.conn.sent ++ frames ∧
      ∀ f ∈ frames, f.isCommandComplete = false := by
  constructor
  · unfold Listener.execute
    rw [hfail]
    by_cases hp : strings.HasPrefix err "syntax error at position" = true <;> simp [hp]
  · obtain ⟨fs, hfs, hq⟩ := run_executeCallback_sent l query.String
      (l.handlerRun st.mysqlConn st.engine query) st.conn 0
    rw [comQuery_eq] at hfail
    rcases hx : (l.handlerRun st.mysqlConn st.engine query).run
        (l.executeCallback query.String) st.conn 0 with ⟨e, s, conn1, g1⟩ | ⟨v, conn1, g1⟩
    · rw [hx] at hfail hfs
      simp only [Prod.mk.injEq] at hfail
      obtain ⟨-, rfl⟩ := hfail
      exact ⟨fs, hfs, hq⟩
    · rw [hx] at hfail
      simp at hfail

/-- C11, witness: the rejecting handler fails with a syntax error, and `execute` returns
the fixed message; nothing is sent. -/
theorem C11_execute_handler_error_witness :
    Example.strict.execute Example.ready { AST := some (.Other 0), String := "SELECT FROM" } =
      (.returned (some "This statement is not yet supported"),
        { Example.ready with
            calls := [.ComParsedQuery "SELECT FROM" (.Other 0)] }) :=
  (C11_execute_handler_error Example.strict Example.ready
    { Example.ready with calls := [.ComParsedQuery "SELECT FROM" (.Other 0)] }
    { AST := some (.Other 0), String := "SELECT FROM" }
    "syntax error at position 7 near 'FROM'" 0 rfl).1

end ExecuteErrors

section TranslationErrors

variable {τ σ : Type}

/-- An error of the parser is the error of `convertQuery`. -/
theorem convertQuery_parse_error (l : Listener τ σ) (q err : String)
    (h : l.Parse q = .error err) : l.convertQuery q = .error err := by
  simp [Listener.convertQuery, h]

/-- An error of the conversion of the only statement is the error of `convertQuery`. -/
theorem convertQuery_convert_error (l : Listener τ σ) (q err : String) (s0 : τ)
    (hp : l.Parse q = .ok [s0]) (hc : l.Convert s0 = .error err) :
    l.convertQuery q = .error err := by
  simp [Listener.convertQuery, hp, hc]

/-- A `Parse` whose translation fails, on a reliable connection. -/
theorem handleMessage_parse_error (l : Listener τ σ) (st : State σ) (Name q err : String)
    (oids : List Int) (hrel : st.conn.Reliable) (hc : l.convertQuery q = .error err) :
    l.handleMessage st (.Parse Name q oids) =
      (.brk, { st with conn := st.conn.emit (endFrames (some err)) }) := by
  simp [Listener.handleMessage, hc, endOfMessagesBreak_reliable st hrel]

/-- A simple `Query` that is not a meta-query and whose translation fails, on a reliable
connection. -/
theorem handleMessage_query_error (l : Listener τ σ) (st : State σ) (q err : String)
    (hrel : st.conn.Reliable) (hmeta : (l.handledPSQLCommands st q).1 = false)
    (hc : l.convertQuery q = .error err) :
    l.handleMessage st (.Query q) =
      (.brk, { st with conn := st.conn.emit (endFrames (some err)) }) := by
  have hh : l.handledPSQLCommands st q = (false, .returned none, st) := by
    rcases handledPSQLCommands_cases l st q with ⟨query, hh⟩ | hh | hh
    · rw [hh] at hmeta; cases hmeta
    · rw [hh] at hmeta; cases hmeta
    · exact hh
  simp [Listener.handleMessage, hh, hc, endOfMessagesBreak_reliable st hrel]

/-- C12 (as stated), refuted on the example listener with all sends succeeding: the parser
fails on `SELEC 1` with `syntax error at position 6 near 'SELEC'`, and both for a simple
`Query` and for a `Parse` the `ErrorResponse` carries that text, not the fixed message. -/
theorem C12_counterexample :
    Example.listener.Parse "SELEC 1" = .error "syntax error at position 6 near 'SELEC'" ∧
    strings.HasPrefix "syntax error at position 6 near 'SELEC'" "syntax error at position"
      = true ∧
    (Example.listener.handleMessage Example.ready (.Query "SELEC 1")).2.conn.sent =
      [.ErrorResponse .Error "XX000" "syntax error at position 6 near 'SELEC'" "",
        .ReadyForQuery .Idle] ∧
    (Example.listener.handleMessage Example.ready (.Parse "s1" "SELEC 1" [])).2.conn.sent =
      [.ErrorResponse .Error "XX000" "syntax error at position 6 near 'SELEC'" "",
        .ReadyForQuery .Idle] :=
  ⟨rfl, by decide, by decide, by decide⟩

/-- C12 (amended): with all sends succeeding, for every simple `Query` that is not a
meta-query and every `Parse` whose translation fails with an error `err`, of the parser or
of the conversion of the only statement, whatever `err` begins with: the server sends
exactly the frames `endFrames (some err)`, that is an `ErrorResponse` with severity Error,
SQLSTATE XX000 and `err` itself as message, then `ReadyForQuery(Idle)`, and leaves the loop
over the batch. -/
theorem C12_translation_error_text (l : Listener τ σ) (st : State σ) (Name q err : String)
    (oids : List Int) (hrel : st.conn.Reliable)
    (hfail : l.Parse q = .error err ∨
      ∃ s0, l.Parse q = .ok [s0] ∧ l.Convert s0 = .error err) :
    l.handleMessage st (.Parse Name q oids) =
      (.brk, { st with conn := st.conn.emit (endFrames (some err)) }) ∧
    ((l.handledPSQLCommands st q).1 = false →
      l.handleMessage st (.Query q) =
        (.brk, { st with conn := st.conn.emit (endFrames (some err)) })) := by
  have hc : l.convertQuery q = .error err := by
    rcases hfail with h | ⟨s0, hp, hc⟩
    · exact convertQuery_parse_error l q err h
    · exact convertQuery_convert_error l q err s0 hp hc
  exact ⟨handleMessage_parse_error l st Name q err oids hrel hc,
    fun hmeta => handleMessage_query_error l st q err hrel hmeta hc⟩

/-- C12, witness: the example listener on `SELEC 1`. -/
theorem C12_translation_error_text_witness :
    (Example.listener.handleMessage Example.ready (.Parse "s1" "SELEC 1" [])).2.conn.sent =
      [.ErrorResponse .Error "XX000" "syntax error at position 6 near 'SELEC'" "",
        .ReadyForQuery .Idle] :=
  congrArg (fun r => r.2.conn.sent)
    (C12_translation_error_text Example.listener Example.ready "s1" "SELEC 1"
      "syntax error at position 6 near 'SELEC'" [] rfl (Or.inl rfl)).1

end TranslationErrors

section DescribeClaims

variable {τ σ : Type}

/-- The log entry of a handler call through `comQuery`, whatever the callback does. -/
theorem comQuery_calls (l : Listener τ σ) (st : State σ) (query : ConvertedQuery)
    {γ : Type} (callback : Callback γ) (g : γ) :
    (l.comQuery st query callback g).2.calls = st.calls ++ [handlerCall query] ∧
      (l.comQuery st query callback g).2.mysqlConn = st.mysqlConn := by
  rw [comQuery_eq]
  rcases (l.handlerRun st.mysqlConn st.engine query).run callback st.conn g
    with ⟨err, s, conn1, g1⟩ | ⟨v, conn1, g1⟩ <;> exact ⟨rfl, rfl⟩

/-- The callback of `describe` does not panic, so the handler call returns. -/
theorem run_describeCallback_returned (t : HandlerRun σ) (conn : Conn) :
    ∃ err s conn1, t.run describeCallback conn () = .returned err s conn1 () := by
  induction t generalizing conn with
  | ret err s => exact ⟨err, s, conn, rfl⟩
  | callback res more k ih =>
    cases res with
    | none => simpa [HandlerRun.run, describeCallback] using ih none conn
    | some r =>
      simp only [HandlerRun.run, describeCallback]
      rcases connection.Send conn (.RowDescription r.Fields) with ⟨_ | e, conn1⟩
      · simpa using ih none conn1
      · simpa using ih (some e) conn1

/-- C13: for every `Describe` that gets as far as the handler (the `ParameterDescription`
was sent and the statement is not one that implicitly commits), whatever the later sends
do. When `START TRANSACTION;` succeeds, the handler receives from `describe` exactly
`START TRANSACTION;`, then the described statement, then `ROLLBACK;`, in this order, and
`describe` returns without panic after the `ROLLBACK;`, whether the statement succeeded or
failed. When `START TRANSACTION;` fails with `err`, it is the only call: the statement is
not executed, nothing is rolled back, and `describe` returns `err`. -/
theorem C13_describe_rolls_back (l : Listener τ σ) (st : State σ) (statement : ConvertedQuery)
    (conn1 : Conn)
    (hsend : connection.Send st.conn (.ParameterDescription []) = (none, conn1))
    (hcommit : l.ImplicitlyCommits statement.String = false) :
    ((l.Handler.ComQuery st.mysqlConn st.engine "START TRANSACTION;").outcome.1 = none →
      (l.describe st statement).2.calls =
        st.calls ++ [.ComQuery "START TRANSACTION;", handlerCall statement,
          .ComQuery "ROLLBACK;"] ∧
      ∃ result, (l.describe st statement).1 = .returned result) ∧
    (∀ err, (l.Handler.ComQuery st.mysqlConn st.engine "START TRANSACTION;").outcome.1 =
        some err →
      (l.describe st statement).2.calls = st.calls ++ [.ComQuery "START TRANSACTION;"] ∧
      (l.describe st statement).1 = .returned (some err)) := by
  unfold Listener.describe
  rw [hsend]
  simp only [hcommit, Bool.false_eq_true, if_false, comQuery_nilCallback]
  rcases (l.Handler.ComQuery st.mysqlConn st.engine "START TRANSACTION;").outcome with ⟨e, s⟩
  cases e with
  | some err =>
    refine ⟨fun h => absurd h (by simp), fun err' h => ?_⟩
    cases h
    exact ⟨rfl, rfl⟩
  | none =>
    refine ⟨fun _ => ?_, fun err' h => absurd h (by simp)⟩
    simp only
    rw [comQuery_eq]
    simp only
    obtain ⟨err, s1, conn2, hr⟩ := run_describeCallback_returned
      (l.handlerRun st.mysqlConn s statement) conn1
    rw [hr]
    exact ⟨by simp, err, rfl⟩

/-- C13, witness: the example listener describes `SELECT 1`. -/
theorem C13_describe_rolls_back_witness :
    (Example.listener.describe Example.ready
        { AST := some (.Other 0), String := "SELECT 1" }).2.calls =
      Example.ready.calls ++ [.ComQuery "START TRANSACTION;",
        handlerCall { AST := some (.Other 0), String := "SELECT 1" },
        .ComQuery "ROLLBACK;"] :=
  ((C13_describe_rolls_back Example.listener Example.ready
    { AST := some (.Other 0), String := "SELECT 1" }
    (Example.conn.emit [.ParameterDescription []]) rfl rfl).1 rfl).1

end DescribeClaims

section DescribeGuard

variable {τ σ : Type}

/-- C14: with all sends succeeding, for every `Describe`: the first frame `describe` sends
is a `ParameterDescription` without object ids; and when the text of the statement is one
that implicitly commits, `describe` returns the error `We do not yet support the Describe
message for the given statement` after that one frame: no `RowDescription` is sent, the
handler is not called (no `START TRANSACTION;`, no execution, no `ROLLBACK;`) and the
engine is as it was. -/
theorem C14_describe_implicit_commit (l : Listener τ σ) (st : State σ)
    (statement : ConvertedQuery) (hrel : st.conn.Reliable) :
    (∃ rest, (l.describe st statement).2.conn.sent =
      st.conn.sent ++ BackendMessage.ParameterDescription [] :: rest) ∧
    (l.ImplicitlyCommits statement.String = true →
      (l.describe st statement).1 = .returned
        (some "We do not yet support the Describe message for the given statement") ∧
      (l.describe st statement).2.conn.sent = st.conn.sent ++ [.ParameterDescription []] ∧
      (l.describe st statement).2.calls = st.calls ∧
      (l.describe st statement).2.engine = st.engine) := by
  rw [describe_reliable l st statement hrel]
  by_cases hi : l.ImplicitlyCommits statement.String = true
  · rw [if_pos hi]
    exact ⟨⟨[], rfl⟩, fun _ => ⟨rfl, rfl, rfl, rfl⟩⟩
  · rw [if_neg hi]
    refine ⟨?_, fun h => absurd h hi⟩
    rcases (l.Handler.ComQuery st.mysqlConn st.engine "START TRANSACTION;").outcome with ⟨e, s⟩
    cases e with
    | some err => exact ⟨[], rfl⟩
    | none => exact ⟨describeFrames (l.handlerRun st.mysqlConn s statement).delivered, rfl⟩

/-- C14, witness: the guarded example listener refuses to describe its `CREATE TABLE`. -/
theorem C14_describe_implicit_commit_witness :
    (Example.guarded.describe Example.ready
        { AST := some (.Other 0), String := "CREATE TABLE t (a INT)" }).1 = .returned
        (some "We do not yet support the Describe message for the given statement") ∧
      (Example.guarded.describe Example.ready
        { AST := some (.Other 0), String := "CREATE TABLE t (a INT)" }).2.conn.sent =
        Example.ready.conn.sent ++ [.ParameterDescription []] ∧
      (Example.guarded.describe Example.ready
        { AST := some (.Other 0), String := "CREATE TABLE t (a INT)" }).2.calls =
        Example.ready.calls ∧
      (Example.guarded.describe Example.ready
        { AST := some (.Other 0), String := "CREATE TABLE t (a INT)" }).2.engine =
        Example.ready.engine :=
  (C14_describe_implicit_commit Example.guarded Example.ready
    { AST := some (.Other 0), String := "CREATE TABLE t (a INT)" } rfl).2 (by decide)

end DescribeGuard

section ParseBind

variable {τ σ : Type}

/-- C15: with all sends succeeding, for every `Parse` with name `Name` (any name, the
empty one included) and text `q`. When the translation succeeds with `query`, the loop
goes on, the only frame sent is `ParseComplete`, the prepared-statement table maps `Name`
to `query` (whatever it held before) and every other name as before, and the portals, the
handler and the engine are untouched. When the translation does not succeed, the table is
as it was and no `ParseComplete` is among the frames sent. -/
theorem C15_parse_stores_statement (l : Listener τ σ) (st : State σ) (Name q : String)
    (oids : List Int) (hrel : st.conn.Reliable) :
    (∀ query, l.convertQuery q = .ok query →
      (l.handleMessage st (.Parse Name q oids)).1 = .next ∧
      (l.handleMessage st (.Parse Name q oids)).2.conn.sent =
        st.conn.sent ++ [.ParseComplete] ∧
      (l.handleMessage st (.Parse Name q oids)).2.preparedStatements Name = some query ∧
      (∀ other, other ≠ Name →
        (l.handleMessage st (.Parse Name q oids)).2.preparedStatements other =
          st.preparedStatements other) ∧
      (l.handleMessage st (.Parse Name q oids)).2.portals = st.portals ∧
      (l.handleMessage st (.Parse Name q oids)).2.calls = st.calls ∧
      (l.handleMessage st (.Parse Name q oids)).2.engine = st.engine) ∧
    ((∀ query, l.convertQuery q ≠ .ok query) →
      (l.handleMessage st (.Parse Name q oids)).2.preparedStatements =
        st.preparedStatements ∧
      ∃ frames, (l.handleMessage st (.Parse Name q oids)).2.conn.sent =
          st.conn.sent ++ frames ∧ BackendMessage.ParseComplete ∉ frames) := by
  constructor
  · intro query hc
    have hstep : l.handleMessage st (.Parse Name q oids) =
        (.next, { st with preparedStatements := st.preparedStatements.set Name query,
                          conn := st.conn.emit [.ParseComplete] }) := by
      simp [Listener.handleMessage, hc, send_reliable hrel]
    rw [hstep]
    refine ⟨rfl, rfl, ?_, ?_, rfl, rfl, rfl⟩
    · simp [StatementTable.set]
    · intro other ho
      simp [StatementTable.set, ho]
  · intro hfail
    cases hc : l.convertQuery q with
    | ok query => exact absurd hc (hfail query)
    | error err =>
      rw [handleMessage_parse_error l st Name q err oids hrel hc]
      exact ⟨rfl, endFrames (some err), rfl, by simp [endFrames]⟩
    | panicked v =>
      have hstep : l.handleMessage st (.Parse Name q oids) = (.panicked v, st) := by
        simp [Listener.handleMessage, hc]
      rw [hstep]
      exact ⟨rfl, [], by simp, by simp⟩

/-- C15, witness: the example listener stores `SELECT 1` under the empty name. -/
theorem C15_parse_stores_statement_witness :
    (Example.listener.handleMessage Example.ready (.Parse "" "SELECT 1" [])).2.conn.sent =
        Example.ready.conn.sent ++ [.ParseComplete] ∧
      (Example.listener.handleMessage Example.ready
        (.Parse "" "SELECT 1" [])).2.preparedStatements "" =
        some { AST := some (.Other 0), String := "SELECT 1" } :=
  let h := (C15_parse_stores_statement Example.listener Example.ready "" "SELECT 1" []
    rfl).1 { AST := some (.Other 0), String := "SELECT 1" } (by decide)
  ⟨h.2.1, h.2.2.1⟩

/-- C16: with all sends succeeding, for every `Bind` with destination portal `d`, source
statement `s` and any parameters: the loop goes on, the only frame sent is `BindComplete`,
the portal `d` holds what the prepared-statement table gives for `s` (the statement stored
under `s`, or the zero `ConvertedQuery` of Go when there is none), every other portal and
the prepared-statement table are as before, the handler and the engine are untouched, and
the parameters play no part. -/
theorem C16_bind_copies_statement (l : Listener τ σ) (st : State σ) (d s : String)
    (params : List String) (hrel : st.conn.Reliable) :
    (l.handleMessage st (.Bind d s params)).1 = .next ∧
    (l.handleMessage st (.Bind d s params)).2.conn.sent = st.conn.sent ++ [.BindComplete] ∧
    (l.handleMessage st (.Bind d s params)).2.portals d =
      some (st.preparedStatements.index s) ∧
    (∀ query, st.preparedStatements s = some query →
      (l.handleMessage st (.Bind d s params)).2.portals d = some query) ∧
    (∀ other, other ≠ d →
      (l.handleMessage st (.Bind d s params)).2.portals other = st.portals other) ∧
    (l.handleMessage st (.Bind d s params)).2.preparedStatements = st.preparedStatements ∧
    (l.handleMessage st (.Bind d s params)).2.calls = st.calls ∧
    (l.handleMessage st (.Bind d s params)).2.engine = st.engine ∧
    l.handleMessage st (.Bind d s params) = l.handleMessage st (.Bind d s []) := by
  have hstep : ∀ ps, l.handleMessage st (.Bind d s ps) =
      (.next, { st with portals := st.portals.set d (st.preparedStatements.index s),
                        conn := st.conn.emit [.BindComplete] }) := by
    intro ps
    simp [Listener.handleMessage, send_reliable hrel]
  rw [hstep, hstep]
  refine ⟨rfl, rfl, ?_, ?_, ?_, rfl, rfl, rfl, rfl⟩
  · simp [StatementTable.set]
  · intro query hq
    simp [StatementTable.set, StatementTable.index, hq]
  · intro other ho
    simp [StatementTable.set, ho]

/-- C16, witness: the example listener binds the unnamed portal to `s1`, prepared just
before. -/
theorem C16_bind_copies_statement_witness :
    (Example.listener.handleMessage
        (Example.listener.handleMessage Example.ready (.Parse "s1" "SELECT 1" [])).2
        (.Bind "" "s1" ["1", "2"])).2.portals "" =
      some { AST := some (.Other 0), String := "SELECT 1" } :=
  (C16_bind_copies_statement Example.listener
    (Example.listener.handleMessage Example.ready (.Parse "s1" "SELECT 1" [])).2 "" "s1"
    ["1", "2"] rfl).2.2.2.1 { AST := some (.Other 0), String := "SELECT 1" } (by decide)

end ParseBind

section Portals

variable {τ σ : Type}

/-- A message that breaks the loop ends the handling of its batch. -/
theorem readMessages_break (l : Listener τ σ) (st st1 : State σ) (m : Message)
    (ms : List Message) (h : l.handleMessage st m = (.brk, st1)) :
    l.readMessages st (m :: ms) = (.brk, st1) := by
  simp [Listener.readMessages, h]

/-- After a batch whose handling ends in a break, the connection loop reads the next
batch. -/
theorem connectionLoop_break (l : Listener τ σ) (st st1 : State σ) (m : Message)
    (ms : List Message) (rest : List (Received Message))
    (h : l.handleMessage { st with portals := fun _ => none } m = (.brk, st1)) :
    l.connectionLoop st (.messages (m :: ms) :: rest) = l.connectionLoop st1 rest := by
  simp [Listener.connectionLoop, readMessages_break l _ st1 m ms h]

/-- C17 (as stated), refuted on the example listener with all sends succeeding: in the
batch `Parse s1`, `Bind` of the unnamed portal, `Sync`, `Execute` of the unnamed portal,
the portal is still bound after the `Sync`, and the `Execute` that follows runs its
statement and sends its row. -/
theorem C17_counterexample :
    (Example.listener.readMessages Example.ready
        [.Parse "s1" "SELECT 1" [], .Bind "" "s1" [], .Sync]).2.portals "" =
      some { AST := some (.Other 0), String := "SELECT 1" } ∧
    (Example.listener.readMessages Example.ready
        [.Parse "s1" "SELECT 1" [], .Bind "" "s1" [], .Sync, .Execute "" 0]).2.conn.sent =
      [.ParseComplete, .BindComplete, .ReadyForQuery .Idle, .RowDescription ["?column?"],
        .DataRow ["1"], .CommandComplete "SELECT 1" 1] := by
  decide

/-- C17 (amended): the portal table is emptied when a received batch begins, not on
`Sync`. Whatever the sends do, handling a `Sync` leaves the portal table and the
prepared-statement table as they were, so a later message of the same batch finds the
portals bound before the `Sync`; and the handling of every received batch that holds a
message does not depend on the portals bound before it: it is the same as from the empty
portal table. -/
theorem C17_portals_per_batch (l : Listener τ σ) (st : State σ) (ms : List Message)
    (rest : List (Received Message)) (hms : ms ≠ []) :
    (l.handleMessage st .Sync).2.portals = st.portals ∧
    (l.handleMessage st .Sync).2.preparedStatements = st.preparedStatements ∧
    l.connectionLoop st (.messages ms :: rest) =
      l.connectionLoop { st with portals := fun _ => none } (.messages ms :: rest) := by
  refine ⟨?_, ?_, ?_⟩
  · simp only [Listener.handleMessage, endOfMessagesNext]
    rcases endOfMessages st.conn none with ⟨_ | v, conn1⟩ <;> rfl
  · simp only [Listener.handleMessage, endOfMessagesNext]
    rcases endOfMessages st.conn none with ⟨_ | v, conn1⟩ <;> rfl
  · cases ms with
    | nil => exact absurd rfl hms
    | cons m ms => simp [Listener.connectionLoop]

/-- C17, witness: the example listener; a portal bound in a first batch is not found by
the `Execute` of a second batch, which runs the zero query. -/
theorem C17_portals_per_batch_witness :
    Example.listener.connectionLoop
        (Example.listener.readMessages Example.ready
          [.Parse "s1" "SELECT 1" [], .Bind "" "s1" []]).2
        [.messages [.Execute "" 0]] =
      Example.listener.connectionLoop
        { (Example.listener.readMessages Example.ready
            [.Parse "s1" "SELECT 1" [], .Bind "" "s1" []]).2 with portals := fun _ => none }
        [.messages [.Execute "" 0]] :=
  (C17_portals_per_batch Example.listener
    (Example.listener.readMessages Example.ready
      [.Parse "s1" "SELECT 1" [], .Bind "" "s1" []]).2
    [.Execute "" 0] [] (by simp)).2.2

end Portals

section Unexpected

variable {τ σ : Type}

/-- C18 (as stated), refuted on the example listener with all sends succeeding: a session
receives, after startup, a batch with a message `Flush` the loop has no arm for, and then a
batch with a query. The `ErrorResponse` for `Flush` has severity Error and SQLSTATE XX000,
it is followed by `ReadyForQuery`, the next batch is read and answered, and at the end the
connection is open and waiting, `ConnectionClosed` not called. -/
theorem C18_counterexample :
    (Example.listener.HandleConnection Example.conn 0 7
        [.messages [.StartupMessage [("user", "alice")]]]
        [.messages [.Other "Flush"], .messages [.Query "SELECT 1"]]).1 = .waiting ∧
    (Example.listener.HandleConnection Example.conn 0 7
        [.messages [.StartupMessage [("user", "alice")]]]
        [.messages [.Other "Flush"], .messages [.Query "SELECT 1"]]).2.conn.sent =
      [.AuthenticationOk, .ParameterStatus "server_version" "15.0",
        .ParameterStatus "client_encoding" "UTF8", .BackendKeyData 42 0,
        .ReadyForQuery .Idle,
        .ErrorResponse .Error "XX000" "Unexpected message \"Flush\"" "",
        .ReadyForQuery .Idle,
        .RowDescription ["?column?"], .DataRow ["1"], .CommandComplete "SELECT 1" 1,
        .ReadyForQuery .Idle] ∧
    (Example.listener.HandleConnection Example.conn 0 7
        [.messages [.StartupMessage [("user", "alice")]]]
        [.messages [.Other "Flush"], .messages [.Query "SELECT 1"]]).2.conn.closed = false ∧
    (Example.listener.HandleConnection Example.conn 0 7
        [.messages [.StartupMessage [("user", "alice")]]]
        [.messages [.Other "Flush"], .messages [.Query "SELECT 1"]]).2.calls =
      [.NewConnection, .ComQuery "USE `alice`;", .ComParsedQuery "SELECT 1" (.Other 0)] := by
  decide

/-- C18 (amended): with all sends succeeding, a message the loop has no arm for, of name
`Name`, is answered with exactly an `ErrorResponse` of severity Error, SQLSTATE XX000 and
message `Unexpected message "Name"`, and `ReadyForQuery(Idle)`; the handler is not
called and the tables are as before; the rest of its batch is skipped, and the connection
stays open: the connection loop goes on with the next receive. -/
theorem C18_unexpected_message (l : Listener τ σ) (st : State σ) (Name : String)
    (ms : List Message) (rest : List (Received Message)) (hrel : st.conn.Reliable) :
    (l.handleMessage st (.Other Name)).1 = .brk ∧
    (l.handleMessage st (.Other Name)).2.conn.sent =
      st.conn.sent ++
        [.ErrorResponse .Error "XX000" ("Unexpected message \"" ++ Name ++ "\"") "",
          .ReadyForQuery .Idle] ∧
    (l.handleMessage st (.Other Name)).2.conn.closed = st.conn.closed ∧
    (l.handleMessage st (.Other Name)).2.calls = st.calls ∧
    (l.handleMessage st (.Other Name)).2.preparedStatements = st.preparedStatements ∧
    (l.handleMessage st (.Other Name)).2.portals = st.portals ∧
    l.connectionLoop st (.messages (.Other Name :: ms) :: rest) =
      l.connectionLoop
        (l.handleMessage { st with portals := fun _ => none } (.Other Name)).2 rest := by
  have hstep : ∀ st1 : State σ, ∀ h : st1.conn.Reliable, l.handleMessage st1 (.Other Name) = _ :=
    fun st1 h => endOfMessagesBreak_reliable st1 h
      (some ("Unexpected message \"" ++ Name ++ "\""))
  have hloop := connectionLoop_break l st _ (.Other Name) ms rest
    (hstep { st with portals := fun _ => none } hrel)
  rw [hloop, hstep st hrel, hstep { st with portals := fun _ => none } hrel]
  exact ⟨rfl, rfl, rfl, rfl, rfl, rfl, rfl⟩

/-- C18, witness: the example listener on the batch `Flush`, `Sync`. -/
theorem C18_unexpected_message_witness :
    (Example.listener.handleMessage Example.ready (.Other "Flush")).2.conn.sent =
      Example.ready.conn.sent ++
        [.ErrorResponse .Error "XX000" ("Unexpected message \"" ++ "Flush" ++ "\"") "",
          .ReadyForQuery .Idle] :=
  (C18_unexpected_message Example.listener Example.ready "Flush" [.Sync] [] rfl).2.1

end Unexpected

section Translation

variable {τ σ : Type}

/-- More than one statement is the error of `convertQuery`. -/
theorem convertQuery_many (l : Listener τ σ) (q : String) (s : List τ)
    (hp : l.Parse q = .ok s) (hlen : s.length > 1) :
    l.convertQuery q = .error "only a single statement at a time is currently supported" := by
  simp [Listener.convertQuery, hp, hlen]

/-- Whether `handledPSQLCommands` takes a statement depends on its text only. -/
theorem handledPSQLCommands_handled (l : Listener τ σ) (st st1 : State σ) (statement : String) :
    (l.handledPSQLCommands st statement).1 = (l.handledPSQLCommands st1 statement).1 := by
  unfold Listener.handledPSQLCommands
  simp only
  split_ifs <;> rfl

/-- C19: with all sends succeeding, for every text `q` that fails to parse or parses to
more than one statement, `convertQuery` returns an error `err` and no query, and `err` is
`only a single statement at a time is currently supported` in the second case. A `Parse`
of `q`, and a simple `Query` of `q` that is not a meta-query, is answered with exactly an
`ErrorResponse` of severity Error, SQLSTATE XX000 and message `err`, then
`ReadyForQuery(Idle)`; the handler is not called, the engine and the prepared statements
are as before; and the connection loop goes on with the next batch from there. -/
theorem C19_translation_rejects (l : Listener τ σ) (st : State σ) (Name q : String)
    (oids : List Int) (ms : List Message) (rest : List (Received Message))
    (hrel : st.conn.Reliable)
    (hfail : (∃ e, l.Parse q = .error e) ∨ ∃ s, l.Parse q = .ok s ∧ s.length > 1) :
    ∃ err, l.convertQuery q = .error err ∧
      ((∃ s, l.Parse q = .ok s ∧ s.length > 1) →
        err = "only a single statement at a time is currently supported") ∧
      (∀ m, m = Message.Parse Name q oids ∨
          (m = Message.Query q ∧ (l.handledPSQLCommands st q).1 = false) →
        (l.handleMessage st m).1 = .brk ∧
        (l.handleMessage st m).2.conn.sent =
          st.conn.sent ++ [.ErrorResponse .Error "XX000" err "", .ReadyForQuery .Idle] ∧
        (l.handleMessage st m).2.calls = st.calls ∧
        (l.handleMessage st m).2.engine = st.engine ∧
        (l.handleMessage st m).2.preparedStatements = st.preparedStatements ∧
        l.connectionLoop st (.messages (m :: ms) :: rest) =
          l.connectionLoop (l.handleMessage { st with portals := fun _ => none } m).2 rest) := by
  have hconv : ∃ err, l.convertQuery q = .error err ∧
      ((∃ s, l.Parse q = .ok s ∧ s.length > 1) →
        err = "only a single statement at a time is currently supported") := by
    rcases hfail with ⟨e, he⟩ | ⟨s, hs, hlen⟩
    · refine ⟨e, convertQuery_parse_error l q e he, ?_⟩
      rintro ⟨s, hs, -⟩
      rw [he] at hs
      cases hs
    · exact ⟨_, convertQuery_many l q s hs hlen, fun _ => rfl⟩
  obtain ⟨err, hc, hmany⟩ := hconv
  refine ⟨err, hc, hmany, ?_⟩
  have hstep : ∀ st1 : State σ, st1.conn.Reliable → ∀ m,
      (m = Message.Parse Name q oids ∨
        (m = Message.Query q ∧ (l.handledPSQLCommands st1 q).1 = false)) →
      l.handleMessage st1 m = (.brk, { st1 with conn := st1.conn.emit (endFrames (some err)) }) := by
    intro st1 h1 m hm
    rcases hm with rfl | ⟨rfl, hmeta⟩
    · exact handleMessage_parse_error l st1 Name q err oids h1 hc
    · exact handleMessage_query_error l st1 q err h1 hmeta hc
  intro m hm
  have hm0 : m = Message.Parse Name q oids ∨
      (m = Message.Query q ∧
        (l.handledPSQLCommands { st with portals := fun _ => none } q).1 = false) := by
    rcases hm with h | ⟨h, hmeta⟩
    · exact Or.inl h
    · exact Or.inr ⟨h, (handledPSQLCommands_handled l _ st q).trans hmeta⟩
  have hloop := connectionLoop_break l st _ m ms rest
    (hstep { st with portals := fun _ => none } hrel m hm0)
  rw [hloop, hstep st hrel m hm, hstep { st with portals := fun _ => none } hrel m hm0]
  exact ⟨rfl, rfl, rfl, rfl, rfl, rfl⟩

/-- C19, witness: the example listener on a `Parse` of two statements. -/
theorem C19_translation_rejects_witness :
    (Example.listener.handleMessage Example.ready
        (.Parse "s1" "SELECT 1; SELECT 2" [])).2.conn.sent =
      Example.ready.conn.sent ++
        [.ErrorResponse .Error "XX000"
            "only a single statement at a time is currently supported" "",
          .ReadyForQuery .Idle] := by
  obtain ⟨err, -, hmany, h⟩ := C19_translation_rejects Example.listener Example.ready "s1"
    "SELECT 1; SELECT 2" [] [] [] rfl (Or.inr ⟨["SELECT 1", "SELECT 2"], rfl, by decide⟩)
  have he := hmany ⟨["SELECT 1", "SELECT 2"], rfl, by decide⟩
  subst he
  exact (h _ (Or.inl rfl)).2.1

/-- C20: for every text `q` that parses to exactly one statement `s0`. When `Convert`
returns nil for `s0`, `convertQuery` returns the query without parsed statement whose text
is the canonical text of `s0`, and `comQuery` runs it as `Handler.ComQuery` on that text.
When `Convert` returns a tree, `convertQuery` returns the query with that tree whose text
is `q` itself, and `comQuery` runs it as `Handler.ComParsedQuery` on `q` and the tree. -/
theorem C20_convertQuery_result (l : Listener τ σ) (q : String) (s0 : τ)
    (hparse : l.Parse q = .ok [s0]) :
    (l.Convert s0 = .ok none →
      l.convertQuery q = .ok { AST := none, String := l.ASTString s0 } ∧
      ∀ (γ : Type) (st : State σ) (callback : Callback γ) (g : γ),
        l.comQuery st { AST := none, String := l.ASTString s0 } callback g =
          l.ComQuery st (l.ASTString s0) callback g) ∧
    (∀ tree, l.Convert s0 = .ok (some tree) →
      l.convertQuery q = .ok { AST := some tree, String := q } ∧
      ∀ (γ : Type) (st : State σ) (callback : Callback γ) (g : γ),
        l.comQuery st { AST := some tree, String := q } callback g =
          l.ComParsedQuery st q tree callback g) := by
  constructor
  · intro hc
    exact ⟨by simp [Listener.convertQuery, hparse, hc], fun _ _ _ _ => rfl⟩
  · intro tree hc
    exact ⟨by simp [Listener.convertQuery, hparse, hc], fun _ _ _ _ => rfl⟩

/-- C20, witness: the example listener converts `SELECT 1` to a tree, and the reparsing
listener to the canonical text `SELECT 1;` without tree. -/
theorem C20_convertQuery_result_witness :
    Example.listener.convertQuery "SELECT 1" =
        .ok { AST := some (.Other 0), String := "SELECT 1" } ∧
      Example.reparsing.convertQuery "SELECT 1" =
        .ok { AST := none, String := "SELECT 1;" } :=
  ⟨((C20_convertQuery_result Example.listener "SELECT 1" "SELECT 1" rfl).2 (.Other 0) rfl).1,
    ((C20_convertQuery_result Example.reparsing "SELECT 1" "SELECT 1" rfl).1 rfl).1⟩

end Translation

section MetaQueries

variable {τ σ : Type}

/-- The log entry of the handler call made by `execute`. -/
theorem execute_calls (l : Listener τ σ) (st : State σ) (query : ConvertedQuery) :
    (l.execute st query).2.calls = st.calls ++ [handlerCall query] := by
  have hc := (comQuery_calls l st query (l.executeCallback query.String) 0).1
  unfold Listener.execute
  rcases hq : l.comQuery st query (l.executeCallback query.String) 0 with ⟨r, st1⟩
  rw [hq] at hc
  rcases r with ⟨_ | err, rows⟩ | v
  · simp only
    rcases connection.Send st1.conn (.CommandComplete query.String rows) with ⟨_ | e, conn1⟩ <;>
      exact hc
  · simp only
    split_ifs <;> exact hc
  · exact hc

/-- C21: `handledPSQLCommands` reads the statement only through its lowercased text. For
two texts that are equal after lowercasing and from the same state, the whole outcome is
the same: the same handled flag, the same error or panic, the same frames sent, the same
handler calls and engine state. A text whose lowercased form is none of the seven
meta-query texts, and does not both begin and end as the text of `\d table_name`, is not
handled: the result is `(false, nil)` and the state, hence the frames sent and the handler
call log, is as before; and only such texts are not handled. -/
theorem C21_case_insensitive (l : Listener τ σ) (st : State σ) (a b : String)
    (h : l.ToLower a = l.ToLower b) :
    l.handledPSQLCommands st a = l.handledPSQLCommands st b ∧
    ((l.ToLower a ∉ [psqlL, psqlDt, psqlD, psqlDn, psqlDf, psqlDv, psqlDu] ∧
        ¬ (strings.HasPrefix (l.ToLower a) psqlDTableStart = true ∧
            strings.HasSuffix (l.ToLower a) psqlDTableEnd = true)) ↔
      (l.handledPSQLCommands st a).1 = false) ∧
    ((l.handledPSQLCommands st a).1 = false →
      l.handledPSQLCommands st a = (false, .returned none, st) ∧
      l.handledPSQLCommands st b = (false, .returned none, st)) := by
  have hab : l.handledPSQLCommands st a = l.handledPSQLCommands st b := by
    simp only [Listener.handledPSQLCommands, h]
  refine ⟨hab, ?_, ?_⟩
  · unfold Listener.handledPSQLCommands
    simp only [List.mem_cons, List.mem_singleton, List.not_mem_nil, or_false, not_or,
      Bool.and_eq_true]
    split_ifs <;> simp_all
  · intro hf
    have ha : l.handledPSQLCommands st a = (false, .returned none, st) := by
      rcases handledPSQLCommands_cases l st a with ⟨query, hh⟩ | hh | hh
      · rw [hh] at hf; cases hf
      · rw [hh] at hf; cases hf
      · exact hh
    exact ⟨ha, hab ▸ ha⟩

end MetaQueries

section MetaQueries2

variable {τ σ : Type}

/-- C21, witness: the text of `\dn` in capitals and in lower case, on the example listener. -/
theorem C21_case_insensitive_witness :
    Example.ToLower (String.mk (psqlDn.data.map Char.toUpper)) = Example.ToLower psqlDn ∧
    Example.listener.handledPSQLCommands Example.ready
        (String.mk (psqlDn.data.map Char.toUpper)) =
      Example.listener.handledPSQLCommands Example.ready psqlDn :=
  ⟨rfl, (C21_case_insensitive Example.listener Example.ready _ psqlDn rfl).1⟩

/-- The translator plays no part in `handledPSQLCommands`. -/
theorem handledPSQLCommands_translator (l : Listener τ σ) (st : State σ) (statement : String)
    (parse : String → Except String (List τ))
    (convert : τ → Except String (Option sqlparser.Statement)) (astString : τ → String) :
    Listener.handledPSQLCommands
        { l with Parse := parse, Convert := convert, ASTString := astString } st statement =
      l.handledPSQLCommands st statement := rfl

/-- A `Query` that `handledPSQLCommands` takes is answered without the translator. -/
theorem handleMessage_handled (l : Listener τ σ) (st : State σ) (statement : String)
    (h : (l.handledPSQLCommands st statement).1 = true) :
    l.handleMessage st (.Query statement) =
      match (l.handledPSQLCommands st statement).2 with
      | (.panicked v, st1) => (.panicked v, st1)
      | (.returned err, st1) => endOfMessagesNext st1 err := by
  simp only [Listener.handleMessage]
  rcases hh : l.handledPSQLCommands st statement with ⟨ok, r, st1⟩
  rw [hh] at h
  simp only at h
  subst h
  cases r <;> simp

/-- C22 (as stated), refuted on the example listener with all sends succeeding: a text
that begins and ends as the one `psql` sends for `\d t` is handled, but no query is
executed for it: the handler is not called, the error `PSQL command not yet supported` is
returned, and the client gets an `ErrorResponse` and `ReadyForQuery`. -/
theorem C22_counterexample :
    (Example.listener.handledPSQLCommands Example.ready
        (psqlDTableStart ++ "t" ++ psqlDTableEnd)).1 = true ∧
    (Example.listener.handledPSQLCommands Example.ready
        (psqlDTableStart ++ "t" ++ psqlDTableEnd)).2 =
      (.returned (some "PSQL command not yet supported"), Example.ready) ∧
    (Example.listener.handleMessage Example.ready
        (.Query (psqlDTableStart ++ "t" ++ psqlDTableEnd))).2.calls = [] ∧
    (Example.listener.handleMessage Example.ready
        (.Query (psqlDTableStart ++ "t" ++ psqlDTableEnd))).2.conn.sent =
      [.ErrorResponse .Error "XX000" "PSQL command not yet supported" "",
       .ReadyForQuery .Idle] :=
  ⟨rfl, rfl, rfl, rfl⟩

end MetaQueries2

section MetaQueries3

variable {τ σ : Type}

/-- The three ways `handledPSQLCommands` can go, with the query executed in the first. -/
theorem handledPSQLCommands_replacement (l : Listener τ σ) (st : State σ) (statement : String) :
    (∃ replacement ∈ [psqlLReplacement, psqlDtReplacement, psqlDReplacement,
        psqlDnReplacement, psqlDfReplacement, psqlDvReplacement, psqlDuReplacement],
      l.handledPSQLCommands st statement =
        (true, l.execute st { AST := none, String := replacement })) ∨
    ((strings.HasPrefix (l.ToLower statement) psqlDTableStart &&
        strings.HasSuffix (l.ToLower statement) psqlDTableEnd) = true ∧
      l.handledPSQLCommands st statement =
        (true, .returned (some "PSQL command not yet supported"), st)) ∨
    l.handledPSQLCommands st statement = (false, .returned none, st) := by
  unfold Listener.handledPSQLCommands
  simp only
  split_ifs with h1 h2 h3 h4 h5 h6 h7 h8
  · exact Or.inl ⟨_, List.mem_cons_self _ _, rfl⟩
  · exact Or.inl ⟨_, List.mem_cons_of_mem _ (List.mem_cons_self _ _), rfl⟩
  · exact Or.inl ⟨psqlDReplacement, by repeat (first | exact List.mem_cons_self _ _ | apply List.mem_cons_of_mem), rfl⟩
  · exact Or.inr (Or.inl ⟨h4, rfl⟩)
  · exact Or.inl ⟨psqlDnReplacement, by repeat (first | exact List.mem_cons_self _ _ | apply List.mem_cons_of_mem), rfl⟩
  · exact Or.inl ⟨psqlDfReplacement, by repeat (first | exact List.mem_cons_self _ _ | apply List.mem_cons_of_mem), rfl⟩
  · exact Or.inl ⟨psqlDvReplacement, by repeat (first | exact List.mem_cons_self _ _ | apply List.mem_cons_of_mem), rfl⟩
  · exact Or.inl ⟨psqlDuReplacement, by repeat (first | exact List.mem_cons_self _ _ | apply List.mem_cons_of_mem), rfl⟩
  · exact Or.inr (Or.inr rfl)

end MetaQueries3

section MetaQueries4

variable {τ σ : Type}

/-- C22 as amended: let `handledPSQLCommands` take the statement (handled = true). Then
the `Query` is answered without the translator: with any other parser, converter and
canonical-text function in the listener the outcome is the same. Either the lowercased
text begins and ends as the text of `\d table_name`, and then no query is executed: the
error `PSQL command not yet supported` is returned and the state, handler call log
included, is as before. Or exactly one of the seven canned queries is executed by
`execute` in place of the client's text, as a `ConvertedQuery` without a parsed statement,
so that the one handler call made is a `ComQuery` of the canned text. In particular, when
the lowercased text is the canonical `\dt` text the canned query is the one that selects
the columns Schema, Name, Type, Owner from INFORMATION_SCHEMA.TABLES for the base tables
of the current database. -/
theorem C22_meta_query_replacement (l : Listener τ σ) (st : State σ) (statement : String)
    (h : (l.handledPSQLCommands st statement).1 = true) :
    (∀ (parse : String → Except String (List τ))
        (convert : τ → Except String (Option sqlparser.Statement)) (astString : τ → String),
      Listener.handleMessage
          { l with Parse := parse, Convert := convert, ASTString := astString } st
          (.Query statement) =
        l.handleMessage st (.Query statement)) ∧
    ((strings.HasPrefix (l.ToLower statement) psqlDTableStart = true ∧
        strings.HasSuffix (l.ToLower statement) psqlDTableEnd = true ∧
        l.handledPSQLCommands st statement =
          (true, .returned (some "PSQL command not yet supported"), st)) ∨
      ∃ replacement ∈ [psqlLReplacement, psqlDtReplacement, psqlDReplacement,
          psqlDnReplacement, psqlDfReplacement, psqlDvReplacement, psqlDuReplacement],
        l.handledPSQLCommands st statement =
          (true, l.execute st { AST := none, String := replacement }) ∧
        (l.handledPSQLCommands st statement).2.2.calls =
          st.calls ++ [.ComQuery replacement]) ∧
    (l.ToLower statement = psqlDt →
      l.handledPSQLCommands st statement =
        (true, l.execute st
          { AST := none,
            String := "SELECT 'public' AS 'Schema', TABLE_NAME AS 'Name', 'table' AS 'Type', 'postgres' AS 'Owner' FROM INFORMATION_SCHEMA.TABLES WHERE TABLE_SCHEMA = database() AND TABLE_TYPE = 'BASE TABLE' ORDER BY 2;" }) ∧
      (l.handledPSQLCommands st statement).2.2.calls =
        st.calls ++ [.ComQuery "SELECT 'public' AS 'Schema', TABLE_NAME AS 'Name', 'table' AS 'Type', 'postgres' AS 'Owner' FROM INFORMATION_SCHEMA.TABLES WHERE TABLE_SCHEMA = database() AND TABLE_TYPE = 'BASE TABLE' ORDER BY 2;"]) := by
  refine ⟨?_, ?_, ?_⟩
  · intro parse convert astString
    have h1 : (Listener.handledPSQLCommands
        { l with Parse := parse, Convert := convert, ASTString := astString }
        st statement).1 = true := h
    rw [handleMessage_handled _ st statement h1, handleMessage_handled l st statement h]
    rfl
  · rcases handledPSQLCommands_replacement l st statement with ⟨r, hr, hh⟩ | ⟨hp, hh⟩ | hh
    · refine Or.inr ⟨r, hr, hh, ?_⟩
      rw [hh]
      exact execute_calls l st _
    · rw [Bool.and_eq_true] at hp
      exact Or.inl ⟨hp.1, hp.2, hh⟩
    · rw [hh] at h
      cases h
  · intro hdt
    have hne : ¬ psqlDt = psqlL := by decide
    have hh : l.handledPSQLCommands st statement =
        (true, l.execute st { AST := none, String := psqlDtReplacement }) := by
      unfold Listener.handledPSQLCommands
      simp only [hdt, hne, if_false, if_true]
    refine ⟨hh, ?_⟩
    rw [hh]
    exact execute_calls l st _

set_option maxRecDepth 100000 in
/-- C22, witness: the text of `\dt` in capitals, on the example listener. -/
theorem C22_meta_query_replacement_witness :
    (Example.listener.handledPSQLCommands Example.ready
        (String.mk (psqlDt.data.map Char.toUpper))).1 = true ∧
    (Example.listener.handledPSQLCommands Example.ready
        (String.mk (psqlDt.data.map Char.toUpper))).2.2.calls =
      Example.ready.calls ++ [.ComQuery "SELECT 'public' AS 'Schema', TABLE_NAME AS 'Name', 'table' AS 'Type', 'postgres' AS 'Owner' FROM INFORMATION_SCHEMA.TABLES WHERE TABLE_SCHEMA = database() AND TABLE_TYPE = 'BASE TABLE' ORDER BY 2;"] :=
  ⟨rfl, ((C22_meta_query_replacement Example.listener Example.ready
    (String.mk (psqlDt.data.map Char.toUpper)) rfl).2.2 rfl).2⟩

end MetaQueries4

section EmptyParse

variable {τ σ : Type}

/-- C28, what the code does: when the parser returns no error and no statement for the
text `q`, `convertQuery` reads `s[0]` of the empty list and panics, returning neither a
`ConvertedQuery` nor an error; a panic of `convertQuery` has no other cause. A `Parse` of
`q`, and a `Query` of `q` (which `handledPSQLCommands` does not take), then panics in
`HandleConnection` with nothing sent for it, and the connection loop ends there: later
batches are not read. -/
theorem C28_convertQuery_empty_parse (l : Listener τ σ) (q : String)
    (h : l.Parse q = .ok []) :
    l.convertQuery q = .panicked "runtime error: index out of range [0] with length 0" ∧
    (∀ q1 v, l.convertQuery q1 = .panicked v → l.Parse q1 = .ok []) ∧
    (∀ (st : State σ) (Name : String) (oids : List Int),
      l.handleMessage st (.Parse Name q oids) =
        (.panicked "runtime error: index out of range [0] with length 0", st)) ∧
    (∀ st : State σ, (l.handledPSQLCommands st q).1 = false →
      l.handleMessage st (.Query q) =
        (.panicked "runtime error: index out of range [0] with length 0", st)) ∧
    (∀ (st : State σ) (ms : List Message) (rest : List (Received Message)),
      (l.handledPSQLCommands st q).1 = false →
      l.connectionLoop st (.messages (.Query q :: ms) :: rest) =
        (.panicked "runtime error: index out of range [0] with length 0",
          { st with portals := fun _ => none })) := by
  have hc : l.convertQuery q =
      .panicked "runtime error: index out of range [0] with length 0" := by
    simp [Listener.convertQuery, h]
  have hq : ∀ st : State σ, (l.handledPSQLCommands st q).1 = false →
      l.handleMessage st (.Query q) =
        (.panicked "runtime error: index out of range [0] with length 0", st) := by
    intro st hf
    have hh : l.handledPSQLCommands st q = (false, .returned none, st) := by
      rcases handledPSQLCommands_cases l st q with ⟨query, hh⟩ | hh | hh
      · rw [hh] at hf; cases hf
      · rw [hh] at hf; cases hf
      · exact hh
    simp [Listener.handleMessage, hh, hc]
  refine ⟨hc, fun q1 v hv => convertQuery_panicked l q1 v hv, ?_, hq, ?_⟩
  · intro st Name oids
    simp [Listener.handleMessage, hc]
  · intro st ms rest hf
    have hf1 : (l.handledPSQLCommands { st with portals := fun _ => none } q).1 = false :=
      (handledPSQLCommands_handled l _ st q).trans hf
    simp [Listener.connectionLoop, Listener.readMessages, hq _ hf1]

/-- C28, at the failing input: the example parser returns no statement for the empty
text. -/
theorem C28_convertQuery_empty_parse_witness :
    Example.listener.Parse "" = .ok [] ∧
    Example.listener.convertQuery "" =
      .panicked "runtime error: index out of range [0] with length 0" :=
  ⟨rfl, (C28_convertQuery_empty_parse Example.listener "" rfl).1⟩

end EmptyParse

namespace GoMap

variable {β : Type}

theorem index_set (m : GoMap β) (key : String) (v : β) (k : String) :
    index (set m key v) k = if key = k then some v else index m k := by
  induction m with
  | nil => simp [set, index]
  | cons e m ih =>
    obtain ⟨k0, v0⟩ := e
    by_cases h : k0 = key
    · subst h
      by_cases hk : k0 = k <;> simp [set, index, hk]
    · by_cases hk : k0 = k
      · subst hk
        have h1 : ¬ key = k0 := fun h1 => h h1.symm
        simp [set, index, h, h1]
      · simp [set, index, h, hk, ih]

theorem delete_cons (e : String × β) (m : GoMap β) (key : String) :
    delete (e :: m) key = if e.1 = key then delete m key else e :: delete m key := by
  unfold delete
  by_cases h : e.1 = key <;> simp [List.filter_cons, h]

theorem index_delete (m : GoMap β) (key k : String) :
    index (delete m key) k = if key = k then none else index m k := by
  induction m with
  | nil => simp [delete, index]
  | cons e m ih =>
    obtain ⟨k0, v0⟩ := e
    rw [delete_cons]
    by_cases h : k0 = key
    · subst h
      by_cases hk : k0 = k
      · subst hk
        simpa using ih
      · simp [index, hk, ih]
    · by_cases hk : k0 = k
      · subst hk
        have h1 : ¬ key = k0 := fun h1 => h h1.symm
        simp [index, h, h1]
      · simp [index, h, hk, ih]

theorem index_eq_none_iff (m : GoMap β) (k : String) : index m k = none ↔ k ∉ keys m := by
  induction m with
  | nil => simp [index, keys]
  | cons e m ih =>
    by_cases h : e.1 = k
    · simp [index, keys, h]
    · have h1 : ¬ k = e.1 := fun h1 => h h1.symm
      simpa [index, keys, h, h1] using ih

theorem index_isSome_iff (m : GoMap β) (k : String) : (index m k).isSome ↔ k ∈ keys m := by
  rw [← not_iff_not, ← index_eq_none_iff]
  cases index m k <;> simp

theorem set_of_index_none (m : GoMap β) (key : String) (v : β) (h : index m key = none) :
    set m key v = m ++ [(key, v)] := by
  induction m with
  | nil => rfl
  | cons e m ih =>
    by_cases he : e.1 = key
    · simp [index, he] at h
    · simp only [index, he, if_false] at h
      simp [set, he, ih h]

theorem keys_set (m : GoMap β) (key : String) (v : β) :
    keys (set m key v) = if key ∈ keys m then keys m else keys m ++ [key] := by
  induction m with
  | nil => simp [set, keys]
  | cons e m ih =>
    unfold keys at ih ⊢
    by_cases he : e.1 = key
    · simp [set, he]
    · have h1 : ¬ key = e.1 := fun h1 => he h1.symm
      by_cases hm : key ∈ List.map Prod.fst m
      · simp [set, he, h1, ih, hm]
      · simp [set, he, h1, ih, hm]

theorem nodup_keys_set (m : GoMap β) (key : String) (v : β) (h : (keys m).Nodup) :
    (keys (set m key v)).Nodup := by
  rw [keys_set]
  split_ifs with hm
  · exact h
  · exact List.Nodup.append h (List.nodup_singleton _) (by simpa using hm)

theorem nodup_keys_delete (m : GoMap β) (key : String) (h : (keys m).Nodup) :
    (keys (delete m key)).Nodup :=
  (List.Sublist.map _ (List.filter_sublist _)).nodup h

theorem mem_set (m : GoMap β) (key : String) (v : β) (e : String × β)
    (h : e ∈ set m key v) : e = (key, v) ∨ e ∈ m := by
  induction m with
  | nil => simpa [set] using h
  | cons e1 m ih =>
    by_cases he : e1.1 = key
    · simp only [set, he, if_true, List.mem_cons] at h
      rcases h with h | h
      · exact Or.inl h
      · exact Or.inr (List.mem_cons_of_mem _ h)
    · simp only [set, he, if_false, List.mem_cons] at h
      rcases h with h | h
      · exact Or.inr (h ▸ List.mem_cons_self _ _)
      · rcases ih h with h | h
        · exact Or.inl h
        · exact Or.inr (List.mem_cons_of_mem _ h)

theorem mem_of_index (m : GoMap β) (k : String) (v : β) (h : index m k = some v) :
    (k, v) ∈ m := by
  induction m with
  | nil => simp [index] at h
  | cons e m ih =>
    by_cases he : e.1 = k
    · simp only [index, he, if_true, Option.some.injEq] at h
      have : e = (k, v) := Prod.ext he h
      exact this ▸ List.mem_cons_self _ _
    · simp only [index, he, if_false] at h
      exact List.mem_cons_of_mem _ (ih h)

theorem index_of_mem (m : GoMap β) (k : String) (v : β) (hn : (keys m).Nodup)
    (h : (k, v) ∈ m) : index m k = some v := by
  induction m with
  | nil => simp at h
  | cons e m ih =>
    simp only [keys, List.map_cons, List.nodup_cons] at hn
    rcases List.mem_cons.1 h with h | h
    · subst h
      simp [index]
    · have hk : k ∈ List.map Prod.fst m := List.mem_map.2 ⟨(k, v), h, rfl⟩
      have he : ¬ e.1 = k := fun he => hn.1 (he ▸ hk)
      simp only [index, he, if_false]
      exact ih hn.2 h

end GoMap

namespace GoMap

variable {α β : Type}

/-- A loop that stores a value under the key of some of the entries it visits, over entries
with distinct keys none of which is in the map yet: the stored entries arrive in order. -/
theorem foldl_set (f : GoMap β → String × α → GoMap β) (p : String × α → Bool)
    (g : String × α → β)
    (hf : ∀ c e, f c e = if p e = true then set c e.1 (g e) else c)
    (l : List (String × α)) (acc : GoMap β)
    (hn : (l.map Prod.fst).Nodup) (hd : ∀ e ∈ l, index acc e.1 = none) :
    l.foldl f acc = acc ++ (l.filter p).map fun e => (e.1, g e) := by
  induction l generalizing acc with
  | nil => simp
  | cons e l ih =>
    simp only [List.map_cons, List.nodup_cons] at hn
    have hl : ∀ e1 ∈ l, index (f acc e) e1.1 = none := by
      intro e1 he1
      have h1 : index acc e1.1 = none := hd e1 (List.mem_cons_of_mem _ he1)
      rw [hf]
      split_ifs
      · rw [index_set, if_neg, h1]
        intro heq
        exact hn.1 (heq ▸ List.mem_map.2 ⟨e1, he1, rfl⟩)
      · exact h1
    rw [List.foldl_cons, ih (f acc e) hn.2 hl, hf]
    by_cases hp : p e = true
    · rw [if_pos hp, set_of_index_none _ _ _ (hd e (List.mem_cons_self _ _))]
      simp [List.filter_cons, hp]
    · rw [if_neg hp]
      simp [List.filter_cons, hp]

/-- A loop that stores every value it visits under a key of its own: the value found
under a key afterwards is the last one visited with that key, or the one of before. -/
theorem index_foldl_set (key : α → String) (l : List α) (acc : GoMap α) (k : String) :
    index (l.foldl (fun m t => set m (key t) t) acc) k =
      ((l.reverse.find? fun t => decide (key t = k)).or (index acc k)) := by
  induction l generalizing acc with
  | nil => simp
  | cons t l ih =>
    rw [List.foldl_cons, ih, index_set, List.reverse_cons, List.find?_append]
    cases hfind : List.find? (fun t => decide (key t = k)) l.reverse with
    | some t1 => simp
    | none =>
      by_cases hk : key t = k <;> simp [hk]

theorem keys_foldl_set_nodup (key : α → String) (l : List α) (acc : GoMap α)
    (h : (keys acc).Nodup) : (keys (l.foldl (fun m t => set m (key t) t) acc)).Nodup := by
  induction l generalizing acc with
  | nil => exact h
  | cons t l ih => exact ih _ (nodup_keys_set _ _ _ h)

theorem mem_foldl_set (key : α → String) (l : List α) (acc : GoMap α) (e : String × α)
    (h : e ∈ l.foldl (fun m t => set m (key t) t) acc) :
    e ∈ acc ∨ ∃ t ∈ l, e = (key t, t) := by
  induction l generalizing acc with
  | nil => exact Or.inl h
  | cons t l ih =>
    rcases ih _ h with h1 | ⟨t1, ht1, h1⟩
    · rcases mem_set _ _ _ _ h1 with h2 | h2
      · exact Or.inr ⟨t, List.mem_cons_self _ _, h2⟩
      · exact Or.inl h2
    · exact Or.inr ⟨t1, List.mem_cons_of_mem _ ht1, h1⟩

end GoMap

namespace typecollection

open types GoMap

namespace TypeCollection

theorem index_pgCatTypeMap (builtIns : List DoltgresType) (k : String) :
    index (pgCatTypeMap builtIns) k =
      builtIns.reverse.find? fun t => decide (t.Name = k) := by
  unfold pgCatTypeMap
  rw [index_foldl_set (fun t : DoltgresType => t.Name)]
  simp [index]

/-- Every built-in name leads, in `pgCatTypeMap`, to a built-in type of that name. -/
theorem index_pgCatTypeMap_of_mem (builtIns : List DoltgresType) (t : DoltgresType)
    (ht : t ∈ builtIns) :
    ∃ t1 ∈ builtIns, t1.Name = t.Name ∧ index (pgCatTypeMap builtIns) t.Name = some t1 := by
  rw [index_pgCatTypeMap]
  cases hfind : builtIns.reverse.find? fun t1 => decide (t1.Name = t.Name) with
  | none =>
    rw [List.find?_eq_none] at hfind
    have := hfind t (List.mem_reverse.2 ht)
    simp at this
  | some t1 =>
    have hm := List.mem_of_find?_eq_some hfind
    have hp := List.find?_some hfind
    exact ⟨t1, List.mem_reverse.1 hm, by simpa using hp, rfl⟩

theorem index_pgCatTypeMap_nodup (builtIns : List DoltgresType)
    (hn : (builtIns.map fun t => t.Name).Nodup) (t : DoltgresType) (ht : t ∈ builtIns) :
    index (pgCatTypeMap builtIns) t.Name = some t := by
  obtain ⟨t1, ht1, hname, hidx⟩ := index_pgCatTypeMap_of_mem builtIns t ht
  rw [hidx, List.inj_on_of_nodup_map hn ht1 ht hname]

theorem pgCatTypeMap_keys (builtIns : List DoltgresType) :
    (keys (pgCatTypeMap builtIns)).Nodup ∧ ∀ kv ∈ pgCatTypeMap builtIns, kv.1 = kv.2.Name := by
  refine ⟨keys_foldl_set_nodup (fun t : DoltgresType => t.Name) builtIns [] List.nodup_nil, ?_⟩
  intro kv hkv
  rcases mem_foldl_set (fun t : DoltgresType => t.Name) builtIns [] kv hkv with h | ⟨t, _, h⟩
  · simp at h
  · rw [h]

/-- What a schema name leads to after seeding. -/
theorem index_addSupportedBuiltInTypes (builtIns : List DoltgresType) (pgs : TypeCollection)
    (schema : String) :
    index (addSupportedBuiltInTypes builtIns pgs).schemaMap schema =
      if schema = "pg_catalog" then
        some ((index pgs.schemaMap "pg_catalog").getD (pgCatTypeMap builtIns))
      else index pgs.schemaMap schema := by
  unfold addSupportedBuiltInTypes
  cases h : index pgs.schemaMap "pg_catalog" with
  | some m =>
    by_cases hs : schema = "pg_catalog"
    · simp [hs, h]
    · simp [hs]
  | none =>
    by_cases hs : schema = "pg_catalog"
    · simp [hs, index_set]
    · have : ¬ "pg_catalog" = schema := fun h1 => hs h1.symm
      simp [hs, index_set, this]

theorem addSupportedBuiltInTypes_of_some (builtIns : List DoltgresType) (pgs : TypeCollection)
    (h : index pgs.schemaMap "pg_catalog" ≠ none) :
    addSupportedBuiltInTypes builtIns pgs = pgs := by
  unfold addSupportedBuiltInTypes
  cases h1 : index pgs.schemaMap "pg_catalog" with
  | some m => rfl
  | none => exact absurd h1 h

theorem addSupportedBuiltInTypes_seeded (builtIns : List DoltgresType) (pgs : TypeCollection) :
    index (addSupportedBuiltInTypes builtIns pgs).schemaMap "pg_catalog" ≠ none := by
  rw [index_addSupportedBuiltInTypes]
  simp

theorem addSupportedBuiltInTypes_idem (builtIns : List DoltgresType) (pgs : TypeCollection) :
    addSupportedBuiltInTypes builtIns (addSupportedBuiltInTypes builtIns pgs) =
      addSupportedBuiltInTypes builtIns pgs :=
  addSupportedBuiltInTypes_of_some _ _ (addSupportedBuiltInTypes_seeded _ _)

/-- What `GetType` returns, from the seeded collection. -/
theorem GetType_eq (builtIns : List DoltgresType) (pgs : TypeCollection)
    (internalID : id.TypeID) :
    pgs.GetType builtIns internalID =
      ((((index (addSupportedBuiltInTypes builtIns pgs).schemaMap internalID.SchemaName).bind
          fun nameMap => index nameMap internalID.TypeName),
        ((index (addSupportedBuiltInTypes builtIns pgs).schemaMap internalID.SchemaName).bind
          fun nameMap => index nameMap internalID.TypeName).isSome),
       addSupportedBuiltInTypes builtIns pgs) := by
  unfold GetType
  simp only
  cases index (addSupportedBuiltInTypes builtIns pgs).schemaMap internalID.SchemaName with
  | none => rfl
  | some nameMap =>
    cases h : index nameMap internalID.TypeName with
    | none => simp [h]
    | some typ => simp [h]

/-- What `HasType` returns, from the seeded collection. -/
theorem HasType_fst (builtIns : List DoltgresType) (pgs : TypeCollection)
    (schema typName : String) :
    (pgs.HasType builtIns schema typName).1 =
      ((index (addSupportedBuiltInTypes builtIns pgs).schemaMap schema).bind
        fun nameMap => index nameMap typName).isSome := by
  unfold HasType
  simp only
  cases index (addSupportedBuiltInTypes builtIns pgs).schemaMap schema with
  | none => simp [index]
  | some nameMap => simp

theorem HasType_snd (builtIns : List DoltgresType) (pgs : TypeCollection)
    (schema typName : String) :
    (pgs.HasType builtIns schema typName).2 =
      match index (addSupportedBuiltInTypes builtIns pgs).schemaMap schema with
      | some _ => addSupportedBuiltInTypes builtIns pgs
      | none =>
        { schemaMap := (addSupportedBuiltInTypes builtIns pgs).schemaMap ++ [(schema, [])] } := by
  unfold HasType
  simp only
  cases h : index (addSupportedBuiltInTypes builtIns pgs).schemaMap schema with
  | none => simp [set_of_index_none _ _ _ h]
  | some nameMap => simp

end TypeCollection

end typecollection

namespace typecollection

open types GoMap TypeCollection

section Seeding

variable {Id : Type} [DecidableEq Id]

theorem GetDomainType_snd (builtIns : List DoltgresType) (pgs : TypeCollection)
    (internalID : id.TypeID) :
    (pgs.GetDomainType builtIns internalID).2 = addSupportedBuiltInTypes builtIns pgs := by
  unfold GetDomainType
  rw [GetType_eq]
  cases ((index (addSupportedBuiltInTypes builtIns pgs).schemaMap internalID.SchemaName).bind
      fun nameMap => index nameMap internalID.TypeName) with
  | none => rfl
  | some t =>
    simp only [Option.isSome_some]
    split_ifs <;> rfl

/-- A lookup leaves the seeded collection, and `HasType` of a schema without an entry
leaves it with an empty entry for that schema added. -/
theorem leaves_eq (AsId : id.TypeID → Id) (builtIns : List DoltgresType)
    (pgs : TypeCollection) (call : Lookup Id) :
    call.leaves AsId builtIns pgs = addSupportedBuiltInTypes builtIns pgs ∨
    ∃ schema typName, call = .HasType schema typName ∧
      index (addSupportedBuiltInTypes builtIns pgs).schemaMap schema = none ∧
      call.leaves AsId builtIns pgs =
        { schemaMap := (addSupportedBuiltInTypes builtIns pgs).schemaMap ++ [(schema, [])] } := by
  cases call with
  | GetType internalID => exact Or.inl (by simp [Lookup.leaves, GetType_eq])
  | GetTypeByID internalID =>
    refine Or.inl ?_
    simp only [Lookup.leaves, GetTypeByID]
    split <;> rfl
  | GetDomainType internalID => exact Or.inl (GetDomainType_snd _ _ _)
  | HasType schema typName =>
    simp only [Lookup.leaves, HasType_snd]
    cases h : index (addSupportedBuiltInTypes builtIns pgs).schemaMap schema with
    | some m => exact Or.inl rfl
    | none => exact Or.inr ⟨schema, typName, rfl, h, rfl⟩
  | GetAllTypes => exact Or.inl rfl
  | IterateTypes f => exact Or.inl rfl

theorem index_append_singleton {β : Type} (m : GoMap β) (key : String) (v : β) (k : String)
    (h : index m key = none) :
    index (m ++ [(key, v)]) k = if key = k then some v else index m k := by
  rw [← set_of_index_none m key v h, index_set]

/-- The entry of `pg_catalog` after a lookup. -/
theorem index_leaves_pg_catalog (AsId : id.TypeID → Id) (builtIns : List DoltgresType)
    (pgs : TypeCollection) (call : Lookup Id) :
    index (call.leaves AsId builtIns pgs).schemaMap "pg_catalog" =
      some ((index pgs.schemaMap "pg_catalog").getD (pgCatTypeMap builtIns)) := by
  rcases leaves_eq AsId builtIns pgs call with h | ⟨schema, typName, _, hnone, h⟩
  · rw [h, index_addSupportedBuiltInTypes, if_pos rfl]
  · rw [h]
    simp only
    rw [index_append_singleton _ _ _ _ hnone]
    have hs : ¬ schema = "pg_catalog" := by
      intro hs
      rw [hs] at hnone
      exact addSupportedBuiltInTypes_seeded _ _ hnone
    rw [if_neg hs, index_addSupportedBuiltInTypes, if_pos rfl]

/-- The loop of `Clone` never stores under `pg_catalog`. -/
theorem index_Clone_pg_catalog (pgs : TypeCollection) :
    index pgs.Clone.schemaMap "pg_catalog" = none := by
  unfold Clone
  simp only
  have key : ∀ (l : GoMap (GoMap DoltgresType)) (acc : GoMap (GoMap DoltgresType)),
      index acc "pg_catalog" = none →
      index (l.foldl
        (fun newSchemaMap e =>
          if e.2.length = 0 then newSchemaMap
          else if e.1 = "pg_catalog" then newSchemaMap
          else
            GoMap.set newSchemaMap e.1
              (e.2.foldl (fun clonedNameMap kv => GoMap.set clonedNameMap kv.1 kv.2) []))
        acc) "pg_catalog" = none := by
    intro l
    induction l with
    | nil => intro acc h; exact h
    | cons e l ih =>
      intro acc h
      rw [List.foldl_cons]
      apply ih
      split_ifs with h1 h2
      · exact h
      · exact h
      · rw [index_set, if_neg h2, h]
  exact key _ _ rfl

theorem set_set {β : Type} (m : GoMap β) (key : String) (v w : β) :
    GoMap.set (GoMap.set m key v) key w = GoMap.set m key w := by
  induction m with
  | nil => simp [GoMap.set]
  | cons e m ih =>
    by_cases h : e.1 = key
    · simp [GoMap.set, h]
    · simp [GoMap.set, h, ih]

/-- What `CreateType` does, by whether the schema holds the name. -/
theorem CreateType_eq (pgs : TypeCollection) (schName : String) (typ : DoltgresType) :
    pgs.CreateType schName typ =
      match (index pgs.schemaMap schName).bind fun nameMap => index nameMap typ.Name with
      | some _ => (some (.ErrTypeAlreadyExists typ.Name), pgs)
      | none =>
        (none,
          { schemaMap :=
              GoMap.set pgs.schemaMap schName
                (GoMap.set ((index pgs.schemaMap schName).getD []) typ.Name typ) }) := by
  unfold CreateType
  simp only
  cases h1 : index pgs.schemaMap schName with
  | none => simp [index, set_set]
  | some nameMap =>
    cases h2 : index nameMap typ.Name with
    | none => simp [h2]
    | some t => simp [h2]

/-- What `DropType` does, by whether the schema holds the name. -/
theorem DropType_eq (pgs : TypeCollection) (schName typName : String) :
    pgs.DropType schName typName =
      match (index pgs.schemaMap schName).bind fun nameMap => index nameMap typName with
      | some _ =>
        (none,
          { schemaMap :=
              GoMap.set pgs.schemaMap schName
                (GoMap.delete ((index pgs.schemaMap schName).getD []) typName) })
      | none => (some (.ErrTypeDoesNotExist typName), pgs) := by
  unfold DropType
  cases h1 : index pgs.schemaMap schName with
  | none => simp
  | some nameMap =>
    cases h2 : index nameMap typName with
    | none => simp [h2]
    | some t => simp [h2]

theorem index_CreateType_other (pgs : TypeCollection) (schName : String) (typ : DoltgresType)
    (schema : String) (h : schName ≠ schema) :
    index (pgs.CreateType schName typ).2.schemaMap schema = index pgs.schemaMap schema := by
  rw [CreateType_eq]
  cases (index pgs.schemaMap schName).bind fun nameMap => index nameMap typ.Name with
  | none => simp [index_set, h]
  | some t => rfl

theorem index_DropType_other (pgs : TypeCollection) (schName typName : String)
    (schema : String) (h : schName ≠ schema) :
    index (pgs.DropType schName typName).2.schemaMap schema = index pgs.schemaMap schema := by
  rw [DropType_eq]
  cases (index pgs.schemaMap schName).bind fun nameMap => index nameMap typName with
  | none => rfl
  | some t => simp [index_set, h]

/-- On the collections of `Reachable` the entry of `pg_catalog`, when there is one, holds
the built-in types and nothing else. -/
theorem Reachable.pristine {AsId : id.TypeID → Id} {builtIns : List DoltgresType}
    {pgs : TypeCollection} (h : Reachable AsId builtIns pgs) :
    (index pgs.schemaMap "pg_catalog").getD (pgCatTypeMap builtIns) = pgCatTypeMap builtIns := by
  induction h with
  | empty => rfl
  | CreateType schName typ _ hs ih => rw [index_CreateType_other _ _ _ _ hs]; exact ih
  | DropType schName typName _ hs ih => rw [index_DropType_other _ _ _ _ hs]; exact ih
  | Clone _ _ => rw [index_Clone_pg_catalog]; rfl
  | lookup call _ ih => rw [index_leaves_pg_catalog, ih]; rfl

end Seeding

end typecollection

section C23

open typecollection types TypeCollection

variable {Id : Type} [DecidableEq Id]

/-- C23 (as stated), refuted with the built-in types `int4` and `bool`. After
`CreateType("pg_catalog", email)` on an empty collection, `GetType` does not find the
built-in `int4` under `pg_catalog`. And after a first lookup on an empty collection, the
further lookup `HasType("public", "email")` changes the collection. -/
theorem C23_counterexample :
    ((Example.fresh.CreateType "pg_catalog" Example.email).2.GetType Example.builtIns
        { SchemaName := "pg_catalog", TypeName := "int4" }).1 = (none, false) ∧
    ((Example.fresh.GetType Example.builtIns
          { SchemaName := "pg_catalog", TypeName := "int4" }).2.HasType
        Example.builtIns "public" "email").2 ≠
      (Example.fresh.GetType Example.builtIns
        { SchemaName := "pg_catalog", TypeName := "int4" }).2 := by
  decide

/-- C23 as amended. Every lookup first seeds, behind a guard: a collection without an
entry for `pg_catalog` gains one that holds the built-in types, each under its name, and
a collection with such an entry keeps it as it is, whatever it holds. After a lookup the
collection has the entry, `CreateType` and `DropType` keep it, and so a collection is
seeded at most once; seeding it again changes nothing. On a collection reached from an
empty one by `CreateType`, `DropType`, `Clone` and lookups, none of the `CreateType` and
`DropType` calls being in the schema `pg_catalog`, after any lookup every name of a
built-in type is found under `pg_catalog` with a built-in type of that name (the type
itself when the built-in names are distinct). A further lookup leaves the collection as
it is, except that `HasType` of a schema without an entry adds an empty entry for it. -/
theorem C23_seeding (AsId : id.TypeID → Id) (builtIns : List DoltgresType)
    (pgs : TypeCollection) (hr : Reachable AsId builtIns pgs) (call : Lookup Id) :
    (∀ (pgs0 : TypeCollection) (c : Lookup Id),
      GoMap.index (c.leaves AsId builtIns pgs0).schemaMap "pg_catalog" =
        some ((GoMap.index pgs0.schemaMap "pg_catalog").getD (pgCatTypeMap builtIns))) ∧
    (∀ (pgs0 : TypeCollection) (schName : String),
      GoMap.index pgs0.schemaMap "pg_catalog" ≠ none →
      (∀ typ, GoMap.index (pgs0.CreateType schName typ).2.schemaMap "pg_catalog" ≠ none) ∧
      (∀ typName,
        GoMap.index (pgs0.DropType schName typName).2.schemaMap "pg_catalog" ≠ none) ∧
      addSupportedBuiltInTypes builtIns pgs0 = pgs0) ∧
    (∀ t ∈ builtIns, ∃ t1 ∈ builtIns, t1.Name = t.Name ∧
      (call.leaves AsId builtIns pgs).GetType builtIns
          { SchemaName := "pg_catalog", TypeName := t.Name } =
        ((some t1, true), call.leaves AsId builtIns pgs)) ∧
    ((builtIns.map fun t => t.Name).Nodup → ∀ t ∈ builtIns,
      (call.leaves AsId builtIns pgs).GetType builtIns
          { SchemaName := "pg_catalog", TypeName := t.Name } =
        ((some t, true), call.leaves AsId builtIns pgs)) ∧
    (∀ further : Lookup Id,
      further.leaves AsId builtIns (call.leaves AsId builtIns pgs) =
        call.leaves AsId builtIns pgs ∨
      ∃ schema typName, further = .HasType schema typName ∧
        GoMap.index (call.leaves AsId builtIns pgs).schemaMap schema = none ∧
        further.leaves AsId builtIns (call.leaves AsId builtIns pgs) =
          { schemaMap := (call.leaves AsId builtIns pgs).schemaMap ++ [(schema, [])] }) := by
  have hentry : GoMap.index (call.leaves AsId builtIns pgs).schemaMap "pg_catalog" =
      some (pgCatTypeMap builtIns) := by
    rw [index_leaves_pg_catalog, hr.pristine]
  have hseeded : addSupportedBuiltInTypes builtIns (call.leaves AsId builtIns pgs) =
      call.leaves AsId builtIns pgs :=
    addSupportedBuiltInTypes_of_some _ _ (by rw [hentry]; simp)
  have hget : ∀ (name : String) (t1 : DoltgresType),
      GoMap.index (pgCatTypeMap builtIns) name = some t1 →
      (call.leaves AsId builtIns pgs).GetType builtIns
          { SchemaName := "pg_catalog", TypeName := name } =
        ((some t1, true), call.leaves AsId builtIns pgs) := by
    intro name t1 h1
    rw [GetType_eq, hseeded]
    simp [hentry, h1]
  refine ⟨fun pgs0 c => index_leaves_pg_catalog AsId builtIns pgs0 c, ?_, ?_, ?_, ?_⟩
  · intro pgs0 schName h0
    refine ⟨fun typ => ?_, fun typName => ?_, addSupportedBuiltInTypes_of_some _ _ h0⟩
    · by_cases hs : schName = "pg_catalog"
      · rw [CreateType_eq]
        cases (GoMap.index pgs0.schemaMap schName).bind
            fun nameMap => GoMap.index nameMap typ.Name with
        | none => simp [GoMap.index_set, hs]
        | some t => exact h0
      · rw [index_CreateType_other _ _ _ _ hs]
        exact h0
    · by_cases hs : schName = "pg_catalog"
      · rw [DropType_eq]
        cases (GoMap.index pgs0.schemaMap schName).bind
            fun nameMap => GoMap.index nameMap typName with
        | none => exact h0
        | some t => simp [GoMap.index_set, hs]
      · rw [index_DropType_other _ _ _ _ hs]
        exact h0
  · intro t ht
    obtain ⟨t1, ht1, hname, hidx⟩ := index_pgCatTypeMap_of_mem builtIns t ht
    exact ⟨t1, ht1, hname, hget _ _ hidx⟩
  · intro hn t ht
    exact hget _ _ (index_pgCatTypeMap_nodup builtIns hn t ht)
  · intro further
    have := leaves_eq AsId builtIns (call.leaves AsId builtIns pgs) further
    rw [hseeded] at this
    exact this

/-- C23, witness: the clone of a collection with one type in `public`; after a `HasType`
the built-in `int4` is found. -/
theorem C23_seeding_witness :
    Reachable Example.AsId Example.builtIns
      (Example.fresh.CreateType "public" Example.email).2.Clone ∧
    ((Lookup.leaves Example.AsId Example.builtIns
          (Example.fresh.CreateType "public" Example.email).2.Clone
          (.HasType "public" "email")).GetType Example.builtIns
        { SchemaName := "pg_catalog", TypeName := "int4" }).1 = (some Example.int4, true) :=
  ⟨.Clone (.CreateType "public" Example.email .empty (by decide)),
    congrArg Prod.fst
      ((C23_seeding Example.AsId Example.builtIns _
        (.Clone (.CreateType "public" Example.email .empty (by decide)))
        (.HasType "public" "email")).2.2.2.1 (by decide) Example.int4 (by decide))⟩

end C23

namespace GoMap

variable {β : Type}

theorem index_filter (m : GoMap β) (p : String × β → Bool) (k : String)
    (hn : (keys m).Nodup) :
    index (m.filter p) k = (index m k).bind fun v => if p (k, v) = true then some v else none := by
  induction m with
  | nil => simp [index]
  | cons e m ih =>
    obtain ⟨k0, v0⟩ := e
    simp only [keys, List.map_cons, List.nodup_cons] at hn
    by_cases hk : k0 = k
    · subst hk
      by_cases hp : p (k0, v0) = true
      · simp [List.filter_cons, hp, index]
      · have hnone : index (m.filter p) k0 = none := by
          rw [index_eq_none_iff]
          intro hmem
          exact hn.1 ((List.Sublist.map _ (List.filter_sublist _)).subset hmem)
        simp [List.filter_cons, hp, index, hnone]
    · by_cases hp : p (k0, v0) = true
      · simpa [List.filter_cons, hp, index, hk] using ih hn.2
      · simpa [List.filter_cons, hp, index, hk] using ih hn.2

/-- Copying a map entry by entry gives the map. -/
theorem foldl_set_copy (m : GoMap β) (hn : (keys m).Nodup) :
    m.foldl (fun clonedNameMap kv => GoMap.set clonedNameMap kv.1 kv.2) [] = m := by
  rw [foldl_set _ (fun _ => true) (fun kv => kv.2) (fun c e => by simp) m [] hn
    (fun e _ => rfl)]
  simp

end GoMap

namespace typecollection

open types GoMap

namespace TypeCollection

/-- The clone holds the entries of the original that are not empty and not of
`pg_catalog`, in their order. -/
theorem Clone_eq (pgs : TypeCollection) (hwf : pgs.WellFormed) :
    pgs.Clone =
      { schemaMap :=
          pgs.schemaMap.filter fun e => decide (¬ e.2.length = 0 ∧ ¬ e.1 = "pg_catalog") } := by
  unfold Clone
  congr 1
  have key : ∀ (l : GoMap (GoMap DoltgresType)), (∀ e ∈ l, (keys e.2).Nodup) →
      (keys l).Nodup →
      l.foldl
        (fun newSchemaMap e =>
          if e.2.length = 0 then newSchemaMap
          else if e.1 = "pg_catalog" then newSchemaMap
          else
            GoMap.set newSchemaMap e.1
              (e.2.foldl (fun clonedNameMap kv => GoMap.set clonedNameMap kv.1 kv.2) []))
        [] =
      l.filter fun e => decide (¬ e.2.length = 0 ∧ ¬ e.1 = "pg_catalog") := by
    intro l hin hn
    rw [foldl_set _ (fun e => decide (¬ e.2.length = 0 ∧ ¬ e.1 = "pg_catalog"))
      (fun e => e.2.foldl (fun clonedNameMap kv => GoMap.set clonedNameMap kv.1 kv.2) [])
      (fun c e => by by_cases h1 : e.2.length = 0 <;> by_cases h2 : e.1 = "pg_catalog" <;>
        simp [h1, h2]) l [] hn (fun e _ => rfl)]
    simp only [List.nil_append]
    have : ∀ l1 : GoMap (GoMap DoltgresType), (∀ e ∈ l1, (keys e.2).Nodup) →
        l1.map (fun e =>
          (e.1, e.2.foldl (fun clonedNameMap kv => GoMap.set clonedNameMap kv.1 kv.2) [])) =
        l1 := by
      intro l1 h1
      conv_rhs => rw [← List.map_id l1]
      apply List.map_congr_left
      intro e he
      rw [foldl_set_copy e.2 (h1 e he)]
      rfl
    exact this _ (fun e he => hin e (List.mem_of_mem_filter he))
  exact key _ (fun e he => (hwf.2 e he).1) hwf.1

theorem index_Clone (pgs : TypeCollection) (hwf : pgs.WellFormed) (schema : String) :
    index pgs.Clone.schemaMap schema =
      (index pgs.schemaMap schema).bind fun nameMap =>
        if ¬ nameMap.length = 0 ∧ ¬ schema = "pg_catalog" then some nameMap else none := by
  rw [Clone_eq pgs hwf]
  simp only
  rw [index_filter _ _ _ hwf.1]
  cases index pgs.schemaMap schema <;> simp

end TypeCollection

end typecollection

namespace typecollection

open types GoMap

namespace TypeCollection

/-- What a lookup by schema and name sees in a collection: seeding included. -/
theorem seeded_bind_index (builtIns : List DoltgresType) (pgs : TypeCollection)
    (schema typName : String) :
    ((index (addSupportedBuiltInTypes builtIns pgs).schemaMap schema).bind
        fun nameMap => index nameMap typName) =
      if schema = "pg_catalog" then
        index ((index pgs.schemaMap "pg_catalog").getD (pgCatTypeMap builtIns)) typName
      else (index pgs.schemaMap schema).bind fun nameMap => index nameMap typName := by
  rw [index_addSupportedBuiltInTypes]
  split_ifs <;> rfl

theorem seeded_bind_index_Clone (builtIns : List DoltgresType) (pgs : TypeCollection)
    (hwf : pgs.WellFormed) (schema typName : String) :
    ((index (addSupportedBuiltInTypes builtIns pgs.Clone).schemaMap schema).bind
        fun nameMap => index nameMap typName) =
      if schema = "pg_catalog" then index (pgCatTypeMap builtIns) typName
      else (index pgs.schemaMap schema).bind fun nameMap => index nameMap typName := by
  rw [seeded_bind_index, index_Clone_pg_catalog]
  split_ifs with hs
  · rfl
  · rw [index_Clone pgs hwf]
    cases index pgs.schemaMap schema with
    | none => rfl
    | some nameMap =>
      cases nameMap with
      | nil => simp [index]
      | cons e m => simp [hs]

end TypeCollection

end typecollection

section C24

open typecollection types TypeCollection

/-- C24, what the code does. On a collection whose maps have distinct keys: for every
schema other than `pg_catalog` and every type name, `GetType` and `HasType` on the clone
give the answer they give on the original. Under `pg_catalog` the clone answers from the
built-in types alone, whatever the original holds there: `Clone` skips the entry of
`pg_catalog`, and the first lookup on the clone seeds it anew. So the clone agrees with
the original everywhere exactly as long as the original's entry for `pg_catalog`, if it
has one, holds the built-in types as seeded and nothing else. -/
theorem C24_clone_lookups (builtIns : List DoltgresType) (pgs : TypeCollection)
    (hwf : pgs.WellFormed) :
    (∀ schema typName : String, schema ≠ "pg_catalog" →
      (pgs.Clone.GetType builtIns { SchemaName := schema, TypeName := typName }).1 =
        (pgs.GetType builtIns { SchemaName := schema, TypeName := typName }).1 ∧
      (pgs.Clone.HasType builtIns schema typName).1 =
        (pgs.HasType builtIns schema typName).1) ∧
    (∀ typName : String,
      (pgs.Clone.GetType builtIns { SchemaName := "pg_catalog", TypeName := typName }).1 =
        (GoMap.index (pgCatTypeMap builtIns) typName,
          (GoMap.index (pgCatTypeMap builtIns) typName).isSome) ∧
      (pgs.Clone.HasType builtIns "pg_catalog" typName).1 =
        (GoMap.index (pgCatTypeMap builtIns) typName).isSome) ∧
    ((GoMap.index pgs.schemaMap "pg_catalog").getD (pgCatTypeMap builtIns) =
        pgCatTypeMap builtIns →
      ∀ schema typName : String,
        (pgs.Clone.GetType builtIns { SchemaName := schema, TypeName := typName }).1 =
          (pgs.GetType builtIns { SchemaName := schema, TypeName := typName }).1 ∧
        (pgs.Clone.HasType builtIns schema typName).1 =
          (pgs.HasType builtIns schema typName).1) := by
  refine ⟨?_, ?_, ?_⟩
  · intro schema typName hs
    simp only [GetType_eq, HasType_fst, seeded_bind_index_Clone builtIns pgs hwf,
      seeded_bind_index, if_neg hs, and_self]
  · intro typName
    simp only [GetType_eq, HasType_fst, seeded_bind_index_Clone builtIns pgs hwf, if_pos,
      and_self]
  · intro hp schema typName
    simp only [GetType_eq, HasType_fst, seeded_bind_index_Clone builtIns pgs hwf,
      seeded_bind_index, hp, and_self]

/-- C24, at the failing input: the domain type `email` created in `pg_catalog` after a
first lookup is found in the original and not in the clone. -/
theorem C24_clone_lookups_witness :
    ((Example.fresh.GetType Example.builtIns
        { SchemaName := "pg_catalog", TypeName := "int4" }).2.CreateType
      "pg_catalog" Example.email).2.WellFormed ∧
    (((Example.fresh.GetType Example.builtIns
          { SchemaName := "pg_catalog", TypeName := "int4" }).2.CreateType
        "pg_catalog" Example.email).2.GetType Example.builtIns
      { SchemaName := "pg_catalog", TypeName := "email" }).1 = (some Example.email, true) ∧
    (((Example.fresh.GetType Example.builtIns
          { SchemaName := "pg_catalog", TypeName := "int4" }).2.CreateType
        "pg_catalog" Example.email).2.Clone.GetType Example.builtIns
      { SchemaName := "pg_catalog", TypeName := "email" }).1 = (none, false) :=
  ⟨by decide, by decide,
    ((C24_clone_lookups Example.builtIns
      ((Example.fresh.GetType Example.builtIns
        { SchemaName := "pg_catalog", TypeName := "int4" }).2.CreateType
          "pg_catalog" Example.email).2 (by decide)).2.1 "email").1.trans (by decide)⟩

end C24

namespace typecollection

open types GoMap

namespace TypeCollection

/-- What `GetType` finds once the map of one schema has been replaced. -/
theorem GetType_set (builtIns : List DoltgresType) (pgs : TypeCollection) (schName : String)
    (nameMap : GoMap DoltgresType) (internalID : id.TypeID) :
    (GetType builtIns { schemaMap := GoMap.set pgs.schemaMap schName nameMap } internalID).1 =
      if internalID.SchemaName = schName then
        (index nameMap internalID.TypeName, (index nameMap internalID.TypeName).isSome)
      else (pgs.GetType builtIns internalID).1 := by
  obtain ⟨s, n⟩ := internalID
  simp only [GetType_eq, seeded_bind_index, index_set]
  by_cases h1 : s = schName
  · subst h1
    by_cases h3 : s = "pg_catalog"
    · subst h3
      simp
    · simp [h3]
  · have h2 : ¬ schName = s := fun h => h1 h.symm
    by_cases h3 : s = "pg_catalog"
    · subst h3
      simp [h1, h2]
    · simp [h1, h2, h3]

/-- What `GetType` finds in a schema that is not `pg_catalog`, or in any schema once
`pg_catalog` has its entry: what the map of the schema holds. -/
theorem GetType_settled (builtIns : List DoltgresType) (pgs : TypeCollection)
    (schName typName : String)
    (hs : schName ≠ "pg_catalog" ∨ index pgs.schemaMap "pg_catalog" ≠ none) :
    (pgs.GetType builtIns { SchemaName := schName, TypeName := typName }).1 =
      (index ((index pgs.schemaMap schName).getD []) typName,
        (index ((index pgs.schemaMap schName).getD []) typName).isSome) := by
  have key : ((index (addSupportedBuiltInTypes builtIns pgs).schemaMap schName).bind
      fun nameMap => index nameMap typName) =
      index ((index pgs.schemaMap schName).getD []) typName := by
    rw [seeded_bind_index]
    by_cases h : schName = "pg_catalog"
    · rcases hs with hs | hs
      · exact absurd h hs
      · subst h
        cases h1 : index pgs.schemaMap "pg_catalog" with
        | none => exact absurd h1 hs
        | some m => simp
    · rw [if_neg h]
      cases index pgs.schemaMap schName <;> simp [index]
  simp only [GetType_eq, key]

end TypeCollection

end typecollection

namespace typecollection

open types GoMap

namespace TypeCollection

theorem bind_index_getD {β : Type} (m : GoMap (GoMap β)) (schName typName : String) :
    ((index m schName).bind fun nameMap => index nameMap typName) =
      index ((index m schName).getD []) typName := by
  cases index m schName <;> simp [index]

end TypeCollection

end typecollection

section C25

open typecollection types TypeCollection

/-- C25 (as stated), refuted on an empty collection with the built-in types `int4` and
`bool`, in the schema `pg_catalog`: `GetType` finds `int4`, yet `CreateType` of a type
named `int4` succeeds and `DropType` of `int4` fails; and after `CreateType` of the new
name `email` followed by `DropType` of it, `GetType` no longer finds `int4`. -/
theorem C25_counterexample :
    (Example.fresh.GetType Example.builtIns
      { SchemaName := "pg_catalog", TypeName := "int4" }).1 = (some Example.int4, true) ∧
    (Example.fresh.CreateType "pg_catalog" Example.int4).1 = none ∧
    (Example.fresh.DropType "pg_catalog" "int4").1 = some (.ErrTypeDoesNotExist "int4") ∧
    (Example.fresh.GetType Example.builtIns
      { SchemaName := "pg_catalog", TypeName := "email" }).1 = (none, false) ∧
    (Example.fresh.CreateType "pg_catalog" Example.email).1 = none ∧
    ((Example.fresh.CreateType "pg_catalog" Example.email).2.DropType
      "pg_catalog" "email").1 = none ∧
    (((Example.fresh.CreateType "pg_catalog" Example.email).2.DropType
        "pg_catalog" "email").2.GetType Example.builtIns
      { SchemaName := "pg_catalog", TypeName := "int4" }).1 = (none, false) := by
  decide

/-- C25 as amended: for a schema other than `pg_catalog`, and for `pg_catalog` once the
collection has its entry for it (after the first lookup). `CreateType` fails, with
`ErrTypeAlreadyExists` of the name, exactly when `GetType` finds a type of that name in the
schema; otherwise it returns no error, `GetType` then finds the new type under its name,
and finds under every other schema or name what it found before. `DropType` fails, with
`ErrTypeDoesNotExist` of the name, exactly when `GetType` finds no such type; otherwise it
returns no error, `GetType` no longer finds the name, and finds under every other schema
or name what it found before. A call that fails leaves the collection as it was. After a
`CreateType` that succeeds, `DropType` of the same schema and name succeeds and `GetType`
finds under every schema and name what it found before the two calls. -/
theorem C25_create_drop (builtIns : List DoltgresType) (pgs : TypeCollection)
    (schName : String)
    (hs : schName ≠ "pg_catalog" ∨ GoMap.index pgs.schemaMap "pg_catalog" ≠ none) :
    (∀ typ : DoltgresType,
      (pgs.CreateType schName typ).1 =
        (if (pgs.GetType builtIns { SchemaName := schName, TypeName := typ.Name }).1.2 = true
          then some (.ErrTypeAlreadyExists typ.Name) else none) ∧
      ((pgs.CreateType schName typ).1 ≠ none → (pgs.CreateType schName typ).2 = pgs) ∧
      ((pgs.CreateType schName typ).1 = none →
        ((pgs.CreateType schName typ).2.GetType builtIns
          { SchemaName := schName, TypeName := typ.Name }).1 = (some typ, true) ∧
        (∀ internalID : id.TypeID,
          internalID ≠ { SchemaName := schName, TypeName := typ.Name } →
          ((pgs.CreateType schName typ).2.GetType builtIns internalID).1 =
            (pgs.GetType builtIns internalID).1) ∧
        ((pgs.CreateType schName typ).2.DropType schName typ.Name).1 = none ∧
        ∀ internalID : id.TypeID,
          (((pgs.CreateType schName typ).2.DropType schName typ.Name).2.GetType
            builtIns internalID).1 = (pgs.GetType builtIns internalID).1)) ∧
    (∀ typName : String,
      (pgs.DropType schName typName).1 =
        (if (pgs.GetType builtIns { SchemaName := schName, TypeName := typName }).1.2 = true
          then none else some (.ErrTypeDoesNotExist typName)) ∧
      ((pgs.DropType schName typName).1 ≠ none → (pgs.DropType schName typName).2 = pgs) ∧
      ((pgs.DropType schName typName).1 = none →
        ((pgs.DropType schName typName).2.GetType builtIns
          { SchemaName := schName, TypeName := typName }).1 = (none, false) ∧
        ∀ internalID : id.TypeID,
          internalID ≠ { SchemaName := schName, TypeName := typName } →
          ((pgs.DropType schName typName).2.GetType builtIns internalID).1 =
            (pgs.GetType builtIns internalID).1)) := by
  have hother : ∀ (nameMap : GoMap DoltgresType) (name : String) (internalID : id.TypeID),
      internalID ≠ { SchemaName := schName, TypeName := name } →
      (∀ n, n ≠ name →
        GoMap.index nameMap n =
          GoMap.index ((GoMap.index pgs.schemaMap schName).getD []) n) →
      (GetType builtIns { schemaMap := GoMap.set pgs.schemaMap schName nameMap } internalID).1 =
        (pgs.GetType builtIns internalID).1 := by
    intro nameMap name internalID hne hsame
    rw [GetType_set]
    obtain ⟨s, n⟩ := internalID
    by_cases h1 : s = schName
    · subst h1
      have hn : n ≠ name := fun h => hne (by rw [h])
      simp only [if_true]
      rw [hsame n hn, GetType_settled builtIns pgs s n hs]
    · simp only [h1, if_false]
  refine ⟨fun typ => ?_, fun typName => ?_⟩
  · rw [GetType_settled builtIns pgs schName typ.Name hs, CreateType_eq, bind_index_getD]
    cases hfound : GoMap.index ((GoMap.index pgs.schemaMap schName).getD []) typ.Name with
    | some t => simp
    | none =>
      simp only [Option.isSome_none, Bool.false_eq_true, if_false, ne_eq, not_true_eq_false,
        false_implies, true_implies, true_and]
      refine ⟨?_, ?_, ?_⟩
      · rw [GetType_set]
        simp [GoMap.index_set]
      · intro internalID hne
        refine hother _ typ.Name internalID hne (fun n hn => ?_)
        rw [GoMap.index_set, if_neg (fun h => hn h.symm)]
      · rw [DropType_eq, bind_index_getD]
        simp only [GoMap.index_set, if_true, Option.getD_some, set_set]
        refine ⟨trivial, fun internalID => ?_⟩
        rw [GetType_set]
        obtain ⟨s, n⟩ := internalID
        by_cases h1 : s = schName
        · subst h1
          simp only [if_true]
          rw [GetType_settled builtIns pgs s n hs, GoMap.index_delete, GoMap.index_set]
          by_cases hn : typ.Name = n
          · subst hn
            simp [hfound]
          · simp [hn]
        · simp only [h1, if_false]
  · rw [GetType_settled builtIns pgs schName typName hs, DropType_eq, bind_index_getD]
    cases hfound : GoMap.index ((GoMap.index pgs.schemaMap schName).getD []) typName with
    | none => simp
    | some t =>
      simp only [Option.isSome_some, if_true, ne_eq, not_true_eq_false, false_implies,
        true_implies, true_and]
      refine ⟨?_, ?_⟩
      · rw [GetType_set]
        simp [GoMap.index_delete]
      · intro internalID hne
        refine hother _ typName internalID hne (fun n hn => ?_)
        rw [GoMap.index_delete, if_neg (fun h => hn h.symm)]

/-- C25, witness: the type `email` is created in `public` on an empty collection. -/
theorem C25_create_drop_witness :
    ("public" ≠ "pg_catalog" ∨ GoMap.index Example.fresh.schemaMap "pg_catalog" ≠ none) ∧
    (Example.fresh.CreateType "public" Example.email).1 = none ∧
    ((Example.fresh.CreateType "public" Example.email).2.GetType Example.builtIns
      { SchemaName := "public", TypeName := "email" }).1 = (some Example.email, true) :=
  ⟨Or.inl (by decide), by decide,
    (((C25_create_drop Example.builtIns Example.fresh "public" (Or.inl (by decide))).1
      Example.email).2.2 (by decide)).1⟩

end C25

namespace sort

theorem Slice_perm {α : Type} (x : List α) (less : α → α → Bool) :
    (Slice x less).Perm x :=
  List.perm_insertionSort _ x

/-- The result of `sort.Slice` is in ascending order, when `less` is the strict part of a
linear order on a key. -/
theorem Slice_pairwise {α κ : Type} [LinearOrder κ] (key : α → κ) (less : α → α → Bool)
    (hless : ∀ a b, less a b = true ↔ key a < key b) (x : List α) :
    (Slice x less).Pairwise fun a b => key a ≤ key b := by
  have hr : ∀ a b, less b a = false ↔ key a ≤ key b := by
    intro a b
    rw [← not_lt, ← hless b a]
    cases less b a <;> simp
  have htotal : IsTotal α fun a b => less b a = false :=
    ⟨fun a b => by
      rw [hr, hr]
      exact le_total (key a) (key b)⟩
  have htrans : IsTrans α fun a b => less b a = false :=
    ⟨fun a b c h1 h2 => by
      rw [hr] at h1 h2 ⊢
      exact le_trans h1 h2⟩
  have h := List.sorted_insertionSort (fun a b => less b a = false) x
  unfold Slice
  exact List.Pairwise.imp (fun {a b} hab => (hr a b).1 hab) h

/-- With distinct keys the order is strict. -/
theorem Slice_pairwise_lt {α κ : Type} [LinearOrder κ] (key : α → κ) (less : α → α → Bool)
    (hless : ∀ a b, less a b = true ↔ key a < key b) (x : List α)
    (hn : (x.map key).Nodup) :
    (Slice x less).Pairwise fun a b => key a < key b := by
  have hle := Slice_pairwise key less hless x
  have hnd : ((Slice x less).map key).Nodup := ((Slice_perm x _).map key).nodup_iff.2 hn
  have hne : (Slice x less).Pairwise fun a b => key a ≠ key b := List.pairwise_map.1 hnd
  exact (hle.and hne).imp fun h => lt_of_le_of_ne h.1 h.2

end sort

namespace GoMap

variable {β γ : Type}

theorem index_map (m : GoMap β) (f : String × β → γ) (k : String) :
    index (m.map fun e => (e.1, f e)) k = (index m k).map fun v => f (k, v) := by
  induction m with
  | nil => rfl
  | cons e m ih =>
    obtain ⟨k0, v0⟩ := e
    by_cases h : k0 = k
    · subst h
      simp [index]
    · simp [index, h, ih]

theorem mem_values_of_index (m : GoMap β) (k : String) (v : β) (h : index m k = some v) :
    v ∈ values m :=
  List.mem_map.2 ⟨(k, v), mem_of_index m k v h, rfl⟩

end GoMap

namespace typecollection

open types GoMap

namespace TypeCollection

theorem WellFormed.addSupportedBuiltInTypes {pgs : TypeCollection} (hwf : pgs.WellFormed)
    (builtIns : List DoltgresType) : (addSupportedBuiltInTypes builtIns pgs).WellFormed := by
  unfold TypeCollection.addSupportedBuiltInTypes
  cases index pgs.schemaMap "pg_catalog" with
  | some m => exact hwf
  | none =>
    refine ⟨nodup_keys_set _ _ _ hwf.1, fun e he => ?_⟩
    rcases mem_set _ _ _ _ he with h | h
    · rw [h]
      exact pgCatTypeMap_keys builtIns
    · exact hwf.2 e h

/-- The loop of `GetAllTypes`, over schemas with distinct names that are not yet in
`typesMap`. -/
theorem GetAllTypes_loop (l : GoMap (GoMap DoltgresType)) (r : AllTypes)
    (hn : (keys l).Nodup) (hd : ∀ e ∈ l, index r.typesMap e.1 = none) :
    l.foldl
      (fun r e =>
        let typs := GoMap.values e.2
        { typesMap :=
            GoMap.set r.typesMap e.1 (sort.Slice typs fun a b => stringLess a.Name b.Name)
          schemaNames := r.schemaNames ++ [e.1]
          totalCount := r.totalCount + typs.length })
      r =
    { typesMap :=
        r.typesMap ++ l.map fun e =>
          (e.1, sort.Slice (GoMap.values e.2) fun a b => stringLess a.Name b.Name)
      schemaNames := r.schemaNames ++ keys l
      totalCount := r.totalCount + (l.map fun e => (GoMap.values e.2).length).sum } := by
  induction l generalizing r with
  | nil => simp [keys]
  | cons e l ih =>
    simp only [keys, List.map_cons, List.nodup_cons] at hn
    rw [List.foldl_cons, ih _ hn.2]
    · simp only [set_of_index_none _ _ _ (hd e (List.mem_cons_self _ _)), keys, List.map_cons,
        List.sum_cons, List.append_assoc, List.singleton_append, Nat.add_assoc]
    · intro e1 he1
      simp only
      rw [index_set, if_neg, hd e1 (List.mem_cons_of_mem _ he1)]
      intro heq
      exact hn.1 (heq ▸ List.mem_map.2 ⟨e1, he1, rfl⟩)

/-- What `GetAllTypes` returns for a collection whose schema names are distinct. -/
theorem GetAllTypes_eq (builtIns : List DoltgresType) (pgs : TypeCollection)
    (hn : (keys (addSupportedBuiltInTypes builtIns pgs).schemaMap).Nodup) :
    pgs.GetAllTypes builtIns =
      ({ typesMap :=
           (addSupportedBuiltInTypes builtIns pgs).schemaMap.map fun e =>
             (e.1, sort.Slice (GoMap.values e.2) fun a b => stringLess a.Name b.Name)
         schemaNames :=
           sort.Slice (keys (addSupportedBuiltInTypes builtIns pgs).schemaMap)
             stringLess
         totalCount :=
           ((addSupportedBuiltInTypes builtIns pgs).schemaMap.map fun e =>
             (GoMap.values e.2).length).sum },
        addSupportedBuiltInTypes builtIns pgs) := by
  unfold GetAllTypes
  simp only
  rw [GetAllTypes_loop _ { typesMap := [], schemaNames := [], totalCount := 0 } hn
    (fun e _ => rfl)]
  simp

end TypeCollection

end typecollection

namespace typecollection

open types GoMap

namespace TypeCollection

theorem stringLess_iff (a b : String) : stringLess a b = true ↔ a < b := by
  unfold stringLess
  rw [decide_eq_true_iff, String.lt_iff_toList_lt]
  rfl

theorem sorted_by_name (typs : List DoltgresType) (hn : (typs.map fun t => t.Name).Nodup) :
    (sort.Slice typs fun a b => stringLess a.Name b.Name).Pairwise
      fun a b => a.Name < b.Name :=
  sort.Slice_pairwise_lt (fun t : DoltgresType => t.Name) _
    (fun a b => stringLess_iff a.Name b.Name) typs hn

theorem sorted_names (names : List String) (hn : names.Nodup) :
    (sort.Slice names stringLess).Pairwise fun a b => a < b :=
  sort.Slice_pairwise_lt (fun s : String => s) _ stringLess_iff names (by simpa using hn)

/-- In a well-formed collection the names of the types of a schema are distinct. -/
theorem WellFormed.names_nodup {pgs : TypeCollection} (hwf : pgs.WellFormed)
    (schema : String) (nameMap : GoMap DoltgresType)
    (h : index pgs.schemaMap schema = some nameMap) :
    ((values nameMap).map fun t => t.Name).Nodup := by
  have he := hwf.2 _ (mem_of_index _ _ _ h)
  have : (values nameMap).map (fun t => t.Name) = keys nameMap := by
    unfold values keys
    rw [List.map_map]
    apply List.map_congr_left
    intro kv hkv
    exact (he.2 kv hkv).symm
  rw [this]
  exact he.1

end TypeCollection

end typecollection

section C26

open typecollection types TypeCollection

/-- C26: on a collection as Go holds it (distinct keys, every type under its name),
`GetAllTypes` seeds the collection and returns all of it. `typesMap` has an entry for
exactly the schemas of the seeded collection, `pg_catalog` among them; the list of a
schema is a rearrangement of the types the schema holds, in strictly ascending order of
type name, so that a type is in the list of a schema exactly when `GetType` finds it there
under its name. When the collection had no entry for `pg_catalog`, the list of
`pg_catalog` is made of the built-in types that were seeded. `schemaNames` is a
rearrangement of the keys of `typesMap`, which are distinct, in strictly ascending order;
and `totalCount` is the sum of the lengths of the lists of `typesMap`. -/
theorem C26_get_all_types (builtIns : List DoltgresType) (pgs : TypeCollection)
    (hwf : pgs.WellFormed) :
    (pgs.GetAllTypes builtIns).2 = addSupportedBuiltInTypes builtIns pgs ∧
    (∀ schema : String,
      (GoMap.index (addSupportedBuiltInTypes builtIns pgs).schemaMap schema = none →
        GoMap.index (pgs.GetAllTypes builtIns).1.typesMap schema = none) ∧
      ∀ nameMap,
        GoMap.index (addSupportedBuiltInTypes builtIns pgs).schemaMap schema = some nameMap →
        ∃ typs, GoMap.index (pgs.GetAllTypes builtIns).1.typesMap schema = some typs ∧
          typs.Perm (GoMap.values nameMap) ∧ typs.Pairwise fun a b => a.Name < b.Name) ∧
    (∀ (internalID : id.TypeID) (typ : DoltgresType),
      (pgs.GetType builtIns internalID).1 = (some typ, true) ↔
        ∃ typs,
          GoMap.index (pgs.GetAllTypes builtIns).1.typesMap internalID.SchemaName = some typs ∧
          typ ∈ typs ∧ typ.Name = internalID.TypeName) ∧
    (GoMap.index pgs.schemaMap "pg_catalog" = none →
      ∃ typs, GoMap.index (pgs.GetAllTypes builtIns).1.typesMap "pg_catalog" = some typs ∧
        typs.Perm (GoMap.values (pgCatTypeMap builtIns))) ∧
    "pg_catalog" ∈ (pgs.GetAllTypes builtIns).1.schemaNames ∧
    (pgs.GetAllTypes builtIns).1.schemaNames.Perm
      (GoMap.keys (pgs.GetAllTypes builtIns).1.typesMap) ∧
    ((pgs.GetAllTypes builtIns).1.schemaNames.Pairwise fun a b => a < b) ∧
    (GoMap.keys (pgs.GetAllTypes builtIns).1.typesMap).Nodup ∧
    (pgs.GetAllTypes builtIns).1.totalCount =
      ((GoMap.values (pgs.GetAllTypes builtIns).1.typesMap).map List.length).sum := by
  have hwf1 := hwf.addSupportedBuiltInTypes builtIns
  have hkeys : GoMap.keys (pgs.GetAllTypes builtIns).1.typesMap =
      GoMap.keys (addSupportedBuiltInTypes builtIns pgs).schemaMap := by
    rw [GetAllTypes_eq builtIns pgs hwf1.1]
    simp [GoMap.keys, List.map_map, Function.comp_def]
  have hidx : ∀ schema, GoMap.index (pgs.GetAllTypes builtIns).1.typesMap schema =
      (GoMap.index (addSupportedBuiltInTypes builtIns pgs).schemaMap schema).map
        fun nameMap => sort.Slice (GoMap.values nameMap) fun a b => stringLess a.Name b.Name := by
    intro schema
    rw [GetAllTypes_eq builtIns pgs hwf1.1]
    exact GoMap.index_map _ (fun e : String × GoMap DoltgresType =>
      sort.Slice (GoMap.values e.2) fun a b => stringLess a.Name b.Name) schema
  have hsome : ∀ schema nameMap,
      GoMap.index (addSupportedBuiltInTypes builtIns pgs).schemaMap schema = some nameMap →
      ∃ typs, GoMap.index (pgs.GetAllTypes builtIns).1.typesMap schema = some typs ∧
        typs.Perm (GoMap.values nameMap) ∧ typs.Pairwise fun a b => a.Name < b.Name := by
    intro schema nameMap h
    refine ⟨_, by rw [hidx, h]; rfl, sort.Slice_perm _ _, ?_⟩
    exact sorted_by_name _ (hwf1.names_nodup schema nameMap h)
  refine ⟨by rw [GetAllTypes_eq builtIns pgs hwf1.1], fun schema => ⟨fun h => ?_, hsome schema⟩,
    ?_, ?_, ?_, ?_, ?_, ?_, ?_⟩
  · rw [hidx, h]
    rfl
  · intro internalID typ
    rw [GetType_eq]
    constructor
    · intro h
      have h1 : ((GoMap.index (addSupportedBuiltInTypes builtIns pgs).schemaMap
          internalID.SchemaName).bind fun nameMap =>
            GoMap.index nameMap internalID.TypeName) = some typ := congrArg Prod.fst h
      cases hm : GoMap.index (addSupportedBuiltInTypes builtIns pgs).schemaMap
          internalID.SchemaName with
      | none => rw [hm] at h1; cases h1
      | some nameMap =>
        rw [hm] at h1
        obtain ⟨typs, htyps, hperm, -⟩ := hsome _ nameMap hm
        refine ⟨typs, htyps, hperm.mem_iff.2 (GoMap.mem_values_of_index _ _ _ h1), ?_⟩
        have hmem := GoMap.mem_of_index _ _ _ h1
        exact ((hwf1.2 _ (GoMap.mem_of_index _ _ _ hm)).2 _ hmem).symm
    · rintro ⟨typs, htyps, hmem, hname⟩
      cases hm : GoMap.index (addSupportedBuiltInTypes builtIns pgs).schemaMap
          internalID.SchemaName with
      | none => rw [hidx, hm] at htyps; cases htyps
      | some nameMap =>
        obtain ⟨typs1, htyps1, hperm, -⟩ := hsome _ nameMap hm
        rw [htyps] at htyps1
        cases htyps1
        have hv : typ ∈ GoMap.values nameMap := hperm.mem_iff.1 hmem
        obtain ⟨kv, hkv, hkv2⟩ := List.mem_map.1 hv
        have hin := hwf1.2 _ (GoMap.mem_of_index _ _ _ hm)
        have hk : kv.1 = internalID.TypeName := by
          rw [hin.2 kv hkv, hkv2, hname]
        have hfound : GoMap.index nameMap internalID.TypeName = some typ :=
          GoMap.index_of_mem _ _ _ hin.1 (by rw [← hk, ← hkv2]; exact hkv)
        simp [hfound]
  · intro hnone
    have hm : GoMap.index (addSupportedBuiltInTypes builtIns pgs).schemaMap "pg_catalog" =
        some (pgCatTypeMap builtIns) := by
      rw [index_addSupportedBuiltInTypes, if_pos rfl, hnone]
      rfl
    obtain ⟨typs, h1, h2, -⟩ := hsome _ _ hm
    exact ⟨typs, h1, h2⟩
  · rw [GetAllTypes_eq builtIns pgs hwf1.1]
    simp only
    rw [(sort.Slice_perm _ _).mem_iff, ← GoMap.index_isSome_iff]
    cases h : GoMap.index (addSupportedBuiltInTypes builtIns pgs).schemaMap "pg_catalog" with
    | none => exact absurd h (addSupportedBuiltInTypes_seeded _ _)
    | some m => rfl
  · rw [hkeys, GetAllTypes_eq builtIns pgs hwf1.1]
    exact sort.Slice_perm _ _
  · rw [GetAllTypes_eq builtIns pgs hwf1.1]
    exact sorted_names _ hwf1.1
  · rw [hkeys]
    exact hwf1.1
  · rw [GetAllTypes_eq builtIns pgs hwf1.1]
    simp only [GoMap.values, List.map_map]
    congr 1
    apply List.map_congr_left
    intro e _
    simp [sort.Slice, List.length_insertionSort, GoMap.values]

/-- C26, witness: a collection with one type in `public` and one in `audit`, and two
built-in types. -/
theorem C26_get_all_types_witness :
    ((Example.fresh.CreateType "public" Example.email).2.CreateType
      "audit" Example.int4).2.WellFormed ∧
    (((Example.fresh.CreateType "public" Example.email).2.CreateType
      "audit" Example.int4).2.GetAllTypes Example.builtIns).1 =
      { typesMap :=
          [("public", [Example.email]), ("audit", [Example.int4]),
           ("pg_catalog", [Example.bool, Example.int4])]
        schemaNames := ["audit", "pg_catalog", "public"]
        totalCount := 4 } ∧
    ((((Example.fresh.CreateType "public" Example.email).2.CreateType
      "audit" Example.int4).2.GetAllTypes Example.builtIns).1.schemaNames.Pairwise
        fun a b => a < b) :=
  ⟨by decide, by decide,
    (C26_get_all_types Example.builtIns
      ((Example.fresh.CreateType "public" Example.email).2.CreateType
        "audit" Example.int4).2 (by decide)).2.2.2.2.2.2.1⟩

end C26

namespace typecollection

open types GoMap

namespace TypeCollection

/-- Replacing the map of one schema by a map with distinct keys, each the name of its
type, keeps a collection well formed. -/
theorem WellFormed.set {pgs : TypeCollection} (hwf : pgs.WellFormed) (schName : String)
    (nameMap : GoMap DoltgresType)
    (h : (keys nameMap).Nodup ∧ ∀ kv ∈ nameMap, kv.1 = kv.2.Name) :
    WellFormed { schemaMap := GoMap.set pgs.schemaMap schName nameMap } := by
  refine ⟨nodup_keys_set _ _ _ hwf.1, fun e he => ?_⟩
  rcases mem_set _ _ _ _ he with h1 | h1
  · rw [h1]
    exact h
  · exact hwf.2 e h1

theorem WellFormed.getD {pgs : TypeCollection} (hwf : pgs.WellFormed) (schName : String) :
    (keys ((index pgs.schemaMap schName).getD [])).Nodup ∧
      ∀ kv ∈ (index pgs.schemaMap schName).getD [], kv.1 = kv.2.Name := by
  cases h : index pgs.schemaMap schName with
  | none => exact ⟨List.nodup_nil, fun kv hkv => absurd hkv (List.not_mem_nil _)⟩
  | some m => exact hwf.2 _ (mem_of_index _ _ _ h)

theorem WellFormed.CreateType {pgs : TypeCollection} (hwf : pgs.WellFormed)
    (schName : String) (typ : DoltgresType) : (pgs.CreateType schName typ).2.WellFormed := by
  rw [CreateType_eq]
  cases (index pgs.schemaMap schName).bind fun nameMap => index nameMap typ.Name with
  | some t => exact hwf
  | none =>
    have h0 := hwf.getD schName
    refine hwf.set schName _ ⟨nodup_keys_set _ _ _ h0.1, fun kv hkv => ?_⟩
    rcases mem_set _ _ _ _ hkv with h1 | h1
    · rw [h1]
    · exact h0.2 kv h1

theorem WellFormed.DropType {pgs : TypeCollection} (hwf : pgs.WellFormed)
    (schName typName : String) : (pgs.DropType schName typName).2.WellFormed := by
  rw [DropType_eq]
  cases (index pgs.schemaMap schName).bind fun nameMap => index nameMap typName with
  | none => exact hwf
  | some t =>
    have h0 := hwf.getD schName
    exact hwf.set schName _ ⟨nodup_keys_delete _ _ h0.1,
      fun kv hkv => h0.2 kv (List.mem_of_mem_filter hkv)⟩

theorem WellFormed.Clone {pgs : TypeCollection} (hwf : pgs.WellFormed) :
    pgs.Clone.WellFormed := by
  rw [Clone_eq pgs hwf]
  exact ⟨(List.Sublist.map _ (List.filter_sublist _)).nodup hwf.1,
    fun e he => hwf.2 e (List.mem_of_mem_filter he)⟩

theorem WellFormed.leaves {Id : Type} [DecidableEq Id] {pgs : TypeCollection}
    (hwf : pgs.WellFormed) (AsId : id.TypeID → Id) (builtIns : List DoltgresType)
    (call : Lookup Id) : (call.leaves AsId builtIns pgs).WellFormed := by
  have hwf1 := hwf.addSupportedBuiltInTypes builtIns
  rcases leaves_eq AsId builtIns pgs call with h | ⟨schema, typName, _, hnone, h⟩
  · rw [h]
    exact hwf1
  · rw [h, ← set_of_index_none _ _ _ hnone]
    exact hwf1.set schema [] ⟨List.nodup_nil, fun kv hkv => absurd hkv (List.not_mem_nil _)⟩

end TypeCollection

/-- Every collection reached from an empty one is well formed. -/
theorem Reachable.wellFormed {Id : Type} [DecidableEq Id] {AsId : id.TypeID → Id}
    {builtIns : List DoltgresType} {pgs : TypeCollection}
    (h : Reachable AsId builtIns pgs) : pgs.WellFormed := by
  induction h with
  | empty => exact ⟨List.nodup_nil, fun e he => absurd he (List.not_mem_nil _)⟩
  | CreateType schName typ _ _ ih => exact ih.CreateType schName typ
  | DropType schName typName _ _ ih => exact ih.DropType schName typName
  | Clone _ ih => exact ih.Clone
  | lookup call _ ih => exact ih.leaves AsId builtIns call

end typecollection

namespace typecollection

open types GoMap

namespace TypeCollection

/-- What `HasType` leaves is seeded. -/
theorem HasType_seeded (builtIns : List DoltgresType) (pgs : TypeCollection)
    (schema typName : String) :
    addSupportedBuiltInTypes builtIns (pgs.HasType builtIns schema typName).2 =
      (pgs.HasType builtIns schema typName).2 := by
  apply addSupportedBuiltInTypes_of_some
  have h := index_leaves_pg_catalog (fun t : id.TypeID => t) builtIns pgs
    (.HasType schema typName)
  simp only [Lookup.leaves] at h
  rw [h]
  simp

/-- An empty entry for a schema without one changes nothing a lookup by schema and name
sees. -/
theorem bind_index_HasType (builtIns : List DoltgresType) (pgs : TypeCollection)
    (schema typName s n : String) :
    ((index (pgs.HasType builtIns schema typName).2.schemaMap s).bind
        fun nameMap => index nameMap n) =
      (index (addSupportedBuiltInTypes builtIns pgs).schemaMap s).bind
        fun nameMap => index nameMap n := by
  rw [HasType_snd]
  cases h : index (addSupportedBuiltInTypes builtIns pgs).schemaMap schema with
  | some m => rfl
  | none =>
    simp only
    rw [index_append_singleton _ _ _ _ h]
    by_cases hs : schema = s
    · subst hs
      simp [h, index]
    · simp [hs]

theorem GetType_HasType (builtIns : List DoltgresType) (pgs : TypeCollection)
    (schema typName : String) (internalID : id.TypeID) :
    ((pgs.HasType builtIns schema typName).2.GetType builtIns internalID).1 =
      (pgs.GetType builtIns internalID).1 := by
  simp only [GetType_eq, HasType_seeded, bind_index_HasType]

theorem HasType_HasType (builtIns : List DoltgresType) (pgs : TypeCollection)
    (schema typName s n : String) :
    ((pgs.HasType builtIns schema typName).2.HasType builtIns s n).1 =
      (pgs.HasType builtIns s n).1 := by
  simp only [HasType_fst, HasType_seeded, bind_index_HasType]

theorem GetTypeByID_fst {Id : Type} [DecidableEq Id] (AsId : id.TypeID → Id)
    (builtIns : List DoltgresType) (pgs : TypeCollection) (internalID : Id) :
    (pgs.GetTypeByID AsId builtIns internalID).1 =
      (((addSupportedBuiltInTypes builtIns pgs).schemaMap.findSome? fun e =>
          e.2.findSome? fun kv => if AsId kv.2.ID = internalID then some kv.2 else none),
        ((addSupportedBuiltInTypes builtIns pgs).schemaMap.findSome? fun e =>
          e.2.findSome? fun kv =>
            if AsId kv.2.ID = internalID then some kv.2 else none).isSome) := by
  unfold GetTypeByID
  simp only
  cases (addSupportedBuiltInTypes builtIns pgs).schemaMap.findSome? fun e =>
      e.2.findSome? fun kv => if AsId kv.2.ID = internalID then some kv.2 else none with
  | none => rfl
  | some t => rfl

theorem GetTypeByID_HasType {Id : Type} [DecidableEq Id] (AsId : id.TypeID → Id)
    (builtIns : List DoltgresType) (pgs : TypeCollection) (schema typName : String)
    (internalID : Id) :
    ((pgs.HasType builtIns schema typName).2.GetTypeByID AsId builtIns internalID).1 =
      (pgs.GetTypeByID AsId builtIns internalID).1 := by
  rw [GetTypeByID_fst, GetTypeByID_fst, HasType_seeded, HasType_snd]
  cases h : index (addSupportedBuiltInTypes builtIns pgs).schemaMap schema with
  | some m => rfl
  | none => simp [List.findSome?_append]

/-- The loop of `GetAllTypes`: the names and the count it gathers. -/
theorem GetAllTypes_loop_names (l : GoMap (GoMap DoltgresType)) (r : AllTypes) :
    (l.foldl
      (fun r e =>
        let typs := GoMap.values e.2
        { typesMap :=
            GoMap.set r.typesMap e.1 (sort.Slice typs fun a b => stringLess a.Name b.Name)
          schemaNames := r.schemaNames ++ [e.1]
          totalCount := r.totalCount + typs.length })
      r).schemaNames = r.schemaNames ++ keys l := by
  induction l generalizing r with
  | nil => simp [keys]
  | cons e l ih =>
    rw [List.foldl_cons, ih]
    simp [keys]

/-- The collection `GetAllTypes` reports on after `HasType` has added an empty entry. -/
theorem GetAllTypes_append_empty (builtIns : List DoltgresType) (pgs : TypeCollection)
    (schema : String) (hseeded : index pgs.schemaMap "pg_catalog" ≠ none)
    (hnone : index pgs.schemaMap schema = none) :
    (GetAllTypes builtIns { schemaMap := pgs.schemaMap ++ [(schema, [])] }).1 =
      { typesMap := GoMap.set (pgs.GetAllTypes builtIns).1.typesMap schema []
        schemaNames := sort.Slice (keys pgs.schemaMap ++ [schema]) stringLess
        totalCount := (pgs.GetAllTypes builtIns).1.totalCount } ∧
    (pgs.GetAllTypes builtIns).1.schemaNames = sort.Slice (keys pgs.schemaMap) stringLess := by
  have h1 : addSupportedBuiltInTypes builtIns { schemaMap := pgs.schemaMap ++ [(schema, [])] } =
      { schemaMap := pgs.schemaMap ++ [(schema, [])] } := by
    apply addSupportedBuiltInTypes_of_some
    simp only
    rw [index_append_singleton _ _ _ _ hnone]
    split_ifs
    · simp
    · exact hseeded
  have h2 := addSupportedBuiltInTypes_of_some builtIns pgs hseeded
  unfold GetAllTypes
  simp only [h1, h2, List.foldl_append, List.foldl_cons, List.foldl_nil,
    GetAllTypes_loop_names, List.nil_append, and_true]
  simp [sort.Slice, values]

theorem Clone_append_empty (pgs : TypeCollection) (schema : String) :
    Clone { schemaMap := pgs.schemaMap ++ [(schema, [])] } = pgs.Clone := by
  unfold Clone
  simp [List.foldl_append]

end TypeCollection

end typecollection

section C29

open typecollection types TypeCollection

variable {Id : Type} [DecidableEq Id]

/-- C29: `HasType(schema, typName)` returns true exactly when `GetType` finds a type under
that schema and name. Whatever the collection, after the call `GetType`, `GetTypeByID` and
`HasType` give for every argument what they would have given without it. On a collection
that already has its entry for `pg_catalog`: when the schema has an entry the collection
is left as it is; when it has none, the collection is left with one more entry, an empty
one for that schema, and nothing else changed. `GetAllTypes` afterwards has the schema in
`schemaNames`, where it was not before, gives it the empty list in `typesMap`, leaves the
lists of the other schemas and `totalCount` as they were; and `Clone` afterwards gives the
collection it gave before, which has no entry for the schema. -/
theorem C29_has_type (AsId : id.TypeID → Id) (builtIns : List DoltgresType)
    (pgs : TypeCollection) (schema typName : String) :
    (pgs.HasType builtIns schema typName).1 =
      (pgs.GetType builtIns { SchemaName := schema, TypeName := typName }).1.2 ∧
    (∀ internalID : id.TypeID,
      ((pgs.HasType builtIns schema typName).2.GetType builtIns internalID).1 =
        (pgs.GetType builtIns internalID).1) ∧
    (∀ internalID : Id,
      ((pgs.HasType builtIns schema typName).2.GetTypeByID AsId builtIns internalID).1 =
        (pgs.GetTypeByID AsId builtIns internalID).1) ∧
    (∀ s n : String,
      ((pgs.HasType builtIns schema typName).2.HasType builtIns s n).1 =
        (pgs.HasType builtIns s n).1) ∧
    (GoMap.index pgs.schemaMap "pg_catalog" ≠ none →
      (GoMap.index pgs.schemaMap schema ≠ none →
        (pgs.HasType builtIns schema typName).2 = pgs) ∧
      (GoMap.index pgs.schemaMap schema = none →
        (pgs.HasType builtIns schema typName).2 =
          { schemaMap := pgs.schemaMap ++ [(schema, [])] } ∧
        schema ∉ (pgs.GetAllTypes builtIns).1.schemaNames ∧
        schema ∈ ((pgs.HasType builtIns schema typName).2.GetAllTypes builtIns).1.schemaNames ∧
        GoMap.index ((pgs.HasType builtIns schema typName).2.GetAllTypes builtIns).1.typesMap
          schema = some [] ∧
        (∀ s : String, s ≠ schema →
          GoMap.index ((pgs.HasType builtIns schema typName).2.GetAllTypes builtIns).1.typesMap
            s = GoMap.index (pgs.GetAllTypes builtIns).1.typesMap s) ∧
        ((pgs.HasType builtIns schema typName).2.GetAllTypes builtIns).1.totalCount =
          (pgs.GetAllTypes builtIns).1.totalCount ∧
        (pgs.HasType builtIns schema typName).2.Clone = pgs.Clone ∧
        GoMap.index (pgs.HasType builtIns schema typName).2.Clone.schemaMap schema = none)) := by
  refine ⟨?_, GetType_HasType builtIns pgs schema typName,
    GetTypeByID_HasType AsId builtIns pgs schema typName,
    HasType_HasType builtIns pgs schema typName, ?_⟩
  · rw [HasType_fst, GetType_eq]
  · intro hseeded
    have h2 := addSupportedBuiltInTypes_of_some builtIns pgs hseeded
    refine ⟨fun hs => ?_, fun hnone => ?_⟩
    · rw [HasType_snd, h2]
      cases h : GoMap.index pgs.schemaMap schema with
      | none => exact absurd h hs
      | some m => rfl
    · have hleft : (pgs.HasType builtIns schema typName).2 =
          { schemaMap := pgs.schemaMap ++ [(schema, [])] } := by
        rw [HasType_snd, h2, hnone]
      obtain ⟨hall, hnames⟩ := GetAllTypes_append_empty builtIns pgs schema hseeded hnone
      have hclone := Clone_append_empty pgs schema
      rw [hleft, hall, hclone]
      refine ⟨rfl, ?_, ?_, ?_, ?_, rfl, rfl, ?_⟩
      · rw [hnames, (sort.Slice_perm _ _).mem_iff, ← GoMap.index_eq_none_iff]
        exact hnone
      · simp only
        rw [(sort.Slice_perm _ _).mem_iff]
        simp
      · simp [GoMap.index_set]
      · intro s hs
        simp only
        rw [GoMap.index_set, if_neg (fun h => hs h.symm)]
      · cases hc : GoMap.index pgs.Clone.schemaMap schema with
        | none => rfl
        | some m =>
          exfalso
          have hmem := GoMap.mem_of_index _ _ _ hc
          have hkey : ∀ (l acc : GoMap (GoMap DoltgresType)),
              (∀ e ∈ l.foldl
                (fun newSchemaMap e =>
                  if e.2.length = 0 then newSchemaMap
                  else if e.1 = "pg_catalog" then newSchemaMap
                  else
                    GoMap.set newSchemaMap e.1
                      (e.2.foldl (fun clonedNameMap kv =>
                        GoMap.set clonedNameMap kv.1 kv.2) []))
                acc, e.1 ∈ GoMap.keys acc ∨ e.1 ∈ GoMap.keys l) := by
            intro l
            induction l with
            | nil =>
              intro acc e he
              exact Or.inl (List.mem_map.2 ⟨e, he, rfl⟩)
            | cons e1 l ih =>
              intro acc e he
              rw [List.foldl_cons] at he
              rcases ih _ e he with h | h
              · split_ifs at h
                · exact Or.inl h
                · exact Or.inl h
                · rw [GoMap.keys_set] at h
                  split_ifs at h
                  · exact Or.inl h
                  · rcases List.mem_append.1 h with h | h
                    · exact Or.inl h
                    · rw [List.mem_singleton] at h
                      exact Or.inr (by simp [GoMap.keys, h])
              · exact Or.inr (by
                  simp only [GoMap.keys, List.map_cons, List.mem_cons]
                  exact Or.inr h)
          have := hkey pgs.schemaMap [] (schema, m) hmem
          rcases this with h | h
          · simp [GoMap.keys] at h
          · exact (GoMap.index_eq_none_iff _ _).1 hnone h

/-- C29, witness: `HasType("public", "email")` on a collection that holds the seeded
built-in types only. -/
theorem C29_has_type_witness :
    GoMap.index (Example.fresh.GetType Example.builtIns
      { SchemaName := "pg_catalog", TypeName := "int4" }).2.schemaMap "pg_catalog" ≠ none ∧
    GoMap.index (Example.fresh.GetType Example.builtIns
      { SchemaName := "pg_catalog", TypeName := "int4" }).2.schemaMap "public" = none ∧
    (((Example.fresh.GetType Example.builtIns
        { SchemaName := "pg_catalog", TypeName := "int4" }).2.HasType
      Example.builtIns "public" "email").2.GetAllTypes Example.builtIns).1 =
      { typesMap := [("pg_catalog", [Example.bool, Example.int4]), ("public", [])]
        schemaNames := ["pg_catalog", "public"]
        totalCount := 2 } ∧
    ((Example.fresh.GetType Example.builtIns
        { SchemaName := "pg_catalog", TypeName := "int4" }).2.HasType
      Example.builtIns "public" "email").2.Clone =
      (Example.fresh.GetType Example.builtIns
        { SchemaName := "pg_catalog", TypeName := "int4" }).2.Clone :=
  ⟨by decide, by decide, by decide,
    (((C29_has_type Example.AsId Example.builtIns
      (Example.fresh.GetType Example.builtIns
        { SchemaName := "pg_catalog", TypeName := "int4" }).2 "public" "email").2.2.2.2
      (by decide)).2 (by decide)).2.2.2.2.2.2.1⟩

end C29

section C27

open messages connection

theorem Copy_eq (m : MessageFormat) : m.Copy = m := by
  cases m with
  | mk Name Fields =>
    simp only [MessageFormat.Copy, MessageFormat.mk.injEq, true_and]
    conv_rhs => rw [← List.map_id Fields]
    exact List.map_congr_left fun f _ => rfl

/-- C27: `Sync{}.Encode()` returns, without error, a copy of `syncDefault`: the descriptor
named `Sync` whose fields are the header, of type `Byte1` with the flag `Header` and the
data `int32('S')`, that is 83, and the length, of type `Int32` with the flag
`MessageLengthInclusive` and the data 4; and 4 is the number of bytes that follow the
header byte on the wire, the four bytes of the length field. `Decode` of the encoded
descriptor returns `Sync{}` without error. For every descriptor, `Decode` returns an error
exactly when `MatchesStructure` against `syncDefault` does, and returns `Sync{}`
otherwise; and two descriptors with the same sequence of field names, types and flags get
the same answer whatever data their fields hold, so that `Decode` succeeds on every
descriptor with the fields of `syncDefault` in their order. -/
theorem C27_sync_round_trip :
    Sync.Encode {} = .ok syncDefault ∧
    syncDefault =
      { Name := "Sync",
        Fields :=
          [ { Name := "Header", Typ := .Byte1, Flags := connection.Header,
              Data := .Int32 83 },
            { Name := "MessageLength", Typ := .Int32,
              Flags := connection.MessageLengthInclusive, Data := .Int32 4 } ] } ∧
    syncDefault.bytesAfterHeader = some 4 ∧
    (∀ encoded, Sync.Encode {} = .ok encoded → Sync.Decode {} encoded = .ok {}) ∧
    (∀ s : MessageFormat,
      (s.MatchesStructure syncDefault = none → Sync.Decode {} s = .ok {}) ∧
      (∀ err, s.MatchesStructure syncDefault = some err → Sync.Decode {} s = .error err) ∧
      ((∃ err, Sync.Decode {} s = .error err) → s.MatchesStructure syncDefault ≠ none) ∧
      (s.MatchesStructure syncDefault ≠ none → ∃ err, Sync.Decode {} s = .error err)) ∧
    (∀ s1 s2 : MessageFormat,
      (s1.Fields.map fun f => (f.Name, f.Typ, f.Flags)) =
        (s2.Fields.map fun f => (f.Name, f.Typ, f.Flags)) →
      Sync.Decode {} s1 = Sync.Decode {} s2) ∧
    (∀ (name : String) (header length : FieldData),
      Sync.Decode {}
        { Name := name,
          Fields :=
            [ { Name := "Header", Typ := .Byte1, Flags := connection.Header, Data := header },
              { Name := "MessageLength", Typ := .Int32,
                Flags := connection.MessageLengthInclusive, Data := length } ] } =
        .ok {}) := by
  refine ⟨rfl, by decide, by decide, ?_, ?_, ?_, fun name header length => rfl⟩
  · intro encoded h
    cases h
    rfl
  · intro s
    unfold Sync.Decode Sync.DefaultMessage
    cases h : s.MatchesStructure syncDefault with
    | none =>
      refine ⟨fun _ => rfl, fun err1 h1 => absurd h1 (by simp), ?_, fun h1 => absurd rfl h1⟩
      rintro ⟨err1, h1⟩
      cases h1
    | some err =>
      refine ⟨fun h1 => absurd h1 (by simp), fun err1 h1 => ?_, fun _ => by simp, ?_⟩
      · cases h1
        rfl
      · intro _
        exact ⟨err, rfl⟩
  · intro s1 s2 h
    unfold Sync.Decode MessageFormat.MatchesStructure
    rw [h]

end C27

end server
